import Mathlib

/-!
# odbc-link: connection registry, schema check, value coercion, statement lifetime

A shallow embedding of `src/odbclink.c` and `src/odbclink.h`.

* The process-wide globals `conns` / `n_conn` become an explicit `Registry`
  value that every operation takes and returns.
* The ODBC driver and the host's input functions are the environment: each
  operation takes a record (or list) of the answers the driver gives to the
  calls the operation makes, in the order the source makes them.
* `elog(ERROR, ...)` does not return to its caller; it is modelled by
  `Except.error` carrying the `Err` constructor of the raising site.
* Machine integers are `Int`; conversions to a narrower C type are written
  with an explicit wrap.
-/

namespace OdbcLink

/-! ## Constants of `sql.h`, `sqlext.h`, `pg_type.h` and `odbclink.h` -/

def SQL_SUCCESS : Int := 0
def SQL_SUCCESS_WITH_INFO : Int := 1
def SQL_NO_DATA : Int := 100
def SQL_ERROR : Int := -1
def SQL_NULL_DATA : Int := -1

/-- The macro of `sqltypes.h`: `(((rc) & (~1)) == 0)`, true exactly for
`SQL_SUCCESS` and `SQL_SUCCESS_WITH_INFO`. -/
def SQL_SUCCEEDED (rc : Int) : Bool := rc == 0 || rc == 1

def SQL_CHAR : Int := 1
def SQL_NUMERIC : Int := 2
def SQL_DECIMAL : Int := 3
def SQL_INTEGER : Int := 4
def SQL_SMALLINT : Int := 5
def SQL_FLOAT : Int := 6
def SQL_REAL : Int := 7
def SQL_DOUBLE : Int := 8
def SQL_DATE : Int := 9
def SQL_TIME : Int := 10
def SQL_TIMESTAMP : Int := 11
def SQL_VARCHAR : Int := 12
def SQL_LONGVARCHAR : Int := -1
def SQL_BINARY : Int := -2
def SQL_VARBINARY : Int := -3
def SQL_LONGVARBINARY : Int := -4
def SQL_BIGINT : Int := -5
def SQL_BIT : Int := -7

def BOOLOID : Nat := 16
def BYTEAOID : Nat := 17
def CHAROID : Nat := 18
def INT8OID : Nat := 20
def INT2OID : Nat := 21
def INT4OID : Nat := 23
def TEXTOID : Nat := 25
def FLOAT4OID : Nat := 700
def FLOAT8OID : Nat := 701
def BPCHAROID : Nat := 1042
def VARCHAROID : Nat := 1043
def DATEOID : Nat := 1082
def TIMEOID : Nat := 1083
def TIMESTAMPOID : Nat := 1114
def TIMESTAMPTZOID : Nat := 1184
def TIMETZOID : Nat := 1266
def NUMERICOID : Nat := 1700

def SHRT_MAX : Int := 32767
def INT_MAX : Int := 2147483647
def LLONG_MAX : Int := 9223372036854775807
def LLONG_MIN : Int := -9223372036854775808

/-- The table grows by this many slots (`odbclink.h`). -/
def CONNCHUNK : Nat := 4

/-- The transfer unit of `get_char_data` (`odbclink.h`). The functions below
take the chunk size as an argument; this is the value the header fixes. -/
def CHARVALCHUNK : Nat := 4096

/-! ## Errors -/

/-- One constructor per `elog(ERROR, ...)` / `ereport(ERROR, ...)` site of
`odbclink.c`, plus the two ways control can leave the source that are not a
site of its own: an error raised inside a host input function, and
behaviour the C standard leaves undefined. -/
inductive Err where
  | cannot_allocate_connections
  | unsuccessful_SQLAllocEnv
  | unsuccessful_SQLAllocConnect
  | unsuccessful_SQLConnect
  | no_such_connection
  | unsuccessful_SQLDescribeCol
  | unsuccessful_SQLGetData
  | too_large_for_64_bit
  | too_large_for_32_bit
  | too_large_for_16_bit
  | host_input_error
  | unsuccessful_SQLAllocStmt
  | unsuccessful_SQLExecDirect
  | record_not_accepted
  | return_type_not_row
  | incompatible_tuple_descriptions
  | unsuccessful_SQLFetch
  | undefined_behaviour
deriving DecidableEq, Repr

/-! ## Connection registry -/

/-- A `char *` field of a slot. `freed` is a pointer whose target was handed
to `pfree`: it still compares unequal to `NULL`. -/
inductive CStr where
  | null
  | str (s : String)
  | freed
deriving DecidableEq, Repr

/-- The struct `odbcconn` of `odbclink.h`. Handles are `Nat`, `0` being the
null handle. -/
structure odbcconn where
  connected : Int
  dsn : CStr
  uid : CStr
  pwd : CStr
  connstr : CStr
  hEnv : Nat
  hCon : Nat
deriving DecidableEq, Repr

/-- A slot as `MemoryContextAllocZero` leaves it. -/
def zeroConn : odbcconn :=
  { connected := 0, dsn := CStr.null, uid := CStr.null, pwd := CStr.null,
    connstr := CStr.null, hEnv := 0, hCon := 0 }

/-- The globals `conns` and `n_conn`: `n_conn` is the length of `conns`. -/
structure Registry where
  conns : List odbcconn
deriving DecidableEq, Repr

def Registry.n_conn (r : Registry) : Nat := r.conns.length

/-- The state `_PG_init` sets up. -/
def PG_init : Registry := { conns := [] }

/-- `conns[i]`; reading past the table gives a zero slot, which no caller
below does. -/
def Registry.slot (r : Registry) (i : Nat) : odbcconn := r.conns.getD i zeroConn

/-- A slot is live when its `connected` field is non-zero. -/
def Registry.live (r : Registry) (i : Nat) : Prop :=
  i < r.n_conn ∧ (r.slot i).connected ≠ 0

instance (r : Registry) (i : Nat) : Decidable (r.live i) := by
  unfold Registry.live; exact inferInstance

/-- Calls into the driver that create or release a foreign handle, or fetch
a row, as the operations below log them. -/
inductive DrvCall where
  | SQLAllocEnv
  | SQLAllocConnect (hEnv : Nat)
  | SQLConnect (hCon : Nat)
  | SQLDriverConnect (hCon : Nat)
  | SQLDisconnect (hCon : Nat)
  | SQLFreeConnect (hCon : Nat)
  | SQLFreeEnv (hEnv : Nat)
  | SQLAllocStmt (hCon : Nat)
  | SQLExecDirect (hStmt : Nat)
  | SQLFetch (hStmt : Nat)
  | SQLFreeHandle (hStmt : Nat)
deriving DecidableEq, Repr

/-- `realloc_conns`: `allocOk` says whether `MemoryContextAllocZero` gave a
block. Returns `0` and the table untouched, or `1` and the table with
`CONNCHUNK` zeroed slots after the old ones. -/
def realloc_conns (r : Registry) (allocOk : Bool) : Int × Registry :=
  if allocOk then (1, { conns := r.conns ++ List.replicate CONNCHUNK zeroConn })
  else (0, r)

/-- The loop `for (i = 0, found = false; i < old_max; i++) if
(!conns[i].connected) { found = true; break; }` started at index `i` on the
rest of the table; gives the final `(i, found)`. -/
def scanFree : List odbcconn → Nat → Nat × Bool
  | [], i => (i, false)
  | c :: cs, i => if c.connected = 0 then (i, true) else scanFree cs (i + 1)

/-- What the environment answers during one `connect_dsn` /
`connect_connstr`: whether the table could be grown, and the return code and
handle of each driver call. -/
structure ConnDriver where
  allocOk : Bool
  envRet : Int
  hEnv : Nat
  conRet : Int
  hCon : Nat
  connectRet : Int
deriving DecidableEq, Repr

/-- Result of an operation on the registry: what it returned or raised, the
registry afterwards, and the driver calls it made. -/
structure Outcome (α : Type) where
  ret : Except Err α
  reg : Registry
  calls : List DrvCall

/-- Store a slot at index `i`. -/
def Registry.setSlot (r : Registry) (i : Nat) (c : odbcconn) : Registry :=
  { conns := r.conns.set i c }

/-- The part `connect_dsn` and `connect_connstr` share (the source repeats
it): find a slot, grow the table if none is free, allocate the two handles.
Gives the slot index and the registry with the handles stored, or the
error raised. -/
def connect_alloc (r : Registry) (d : ConnDriver) : Outcome Nat :=
  let scan := scanFree r.conns 0
  let i := scan.1
  let grown := if scan.2 then (1, r) else realloc_conns r d.allocOk
  if grown.1 = 0 then
    { ret := .error Err.cannot_allocate_connections, reg := r, calls := [] }
  else
    let r1 := grown.2
    let r2 := r1.setSlot i { r1.slot i with hEnv := d.hEnv }
    if d.envRet ≠ SQL_SUCCESS then
      { ret := .error Err.unsuccessful_SQLAllocEnv, reg := r2, calls := [DrvCall.SQLAllocEnv] }
    else
      let r3 := r2.setSlot i { r2.slot i with hCon := d.hCon }
      if d.conRet ≠ SQL_SUCCESS then
        { ret := .error Err.unsuccessful_SQLAllocConnect, reg := r3,
          calls := [DrvCall.SQLAllocEnv, DrvCall.SQLAllocConnect d.hEnv, DrvCall.SQLFreeEnv d.hEnv] }
      else
        { ret := .ok i, reg := r3,
          calls := [DrvCall.SQLAllocEnv, DrvCall.SQLAllocConnect d.hEnv] }

/-- `connect_dsn`. The source sizes the copy of `pwd` by `strlen(uid)`;
allocation sizes are not part of this model, the slot holds the string
`strcpy` copies. -/
def connect_dsn (r : Registry) (d : ConnDriver) (dsn uid pwd : String) : Outcome Int :=
  let a := connect_alloc r d
  match a.ret with
  | .error e => { ret := .error e, reg := a.reg, calls := a.calls }
  | .ok i =>
    if d.connectRet ≠ SQL_SUCCESS ∧ d.connectRet ≠ SQL_SUCCESS_WITH_INFO then
      { ret := .error Err.unsuccessful_SQLConnect, reg := a.reg,
        calls := a.calls ++ [DrvCall.SQLConnect d.hCon, DrvCall.SQLFreeConnect d.hCon,
                             DrvCall.SQLFreeEnv d.hEnv] }
    else
      { ret := .ok (i : Int),
        reg := a.reg.setSlot i { a.reg.slot i with
          dsn := CStr.str dsn, uid := CStr.str uid, pwd := CStr.str pwd,
          connstr := CStr.null, connected := 1 },
        calls := a.calls ++ [DrvCall.SQLConnect d.hCon] }

/-- `connect_connstr`. -/
def connect_connstr (r : Registry) (d : ConnDriver) (connstr : String) : Outcome Int :=
  let a := connect_alloc r d
  match a.ret with
  | .error e => { ret := .error e, reg := a.reg, calls := a.calls }
  | .ok i =>
    if d.connectRet ≠ SQL_SUCCESS ∧ d.connectRet ≠ SQL_SUCCESS_WITH_INFO then
      { ret := .error Err.unsuccessful_SQLConnect, reg := a.reg,
        calls := a.calls ++ [DrvCall.SQLDriverConnect d.hCon, DrvCall.SQLFreeConnect d.hCon,
                             DrvCall.SQLFreeEnv d.hEnv] }
    else
      { ret := .ok (i : Int),
        reg := a.reg.setSlot i { a.reg.slot i with
          dsn := CStr.null, uid := CStr.null, pwd := CStr.null,
          connstr := CStr.str connstr, connected := 1 },
        calls := a.calls ++ [DrvCall.SQLDriverConnect d.hCon] }

/-- `strcmp(p, s) == 0` for a stored pointer `p`; `none` when `p` cannot be
dereferenced. -/
def strEq (p : CStr) (s : String) : Option Bool :=
  match p with
  | CStr.str t => some (decide (t = s))
  | CStr.null => none
  | CStr.freed => none

/-- The loop condition of `find_conn_dsn`, with the short-circuit order of
`&&`: `conns[i].connected && conns[i].dsn && !strcmp(dsn) && !strcmp(uid) &&
!strcmp(pwd)`. `none` when a `strcmp` is reached on a pointer that cannot be
dereferenced. -/
def matchDsn (c : odbcconn) (dsn uid pwd : String) : Option Bool :=
  if c.connected = 0 then some false
  else if c.dsn = CStr.null then some false
  else
    match strEq c.dsn dsn with
    | none => none
    | some false => some false
    | some true =>
      match strEq c.uid uid with
      | none => none
      | some false => some false
      | some true => strEq c.pwd pwd

/-- The loop condition of `find_conn_connstr`. -/
def matchConnstr (c : odbcconn) (connstr : String) : Option Bool :=
  if c.connected = 0 then some false
  else if c.connstr = CStr.null then some false
  else strEq c.connstr connstr

/-- The scan both `find_conn_*` functions run, from index `i` on the rest of
the table, for a slot test `m`: the index of the first slot that passes, `-1`
when the loop ends with `found` still false. -/
def findFrom (m : odbcconn → Option Bool) : List odbcconn → Int → Option Int
  | [], _ => some (-1)
  | c :: cs, i =>
    match m c with
    | none => none
    | some true => some i
    | some false => findFrom m cs (i + 1)

/-- `find_conn_dsn`; `none` is undefined behaviour. -/
def find_conn_dsn (r : Registry) (dsn uid pwd : String) : Option Int :=
  findFrom (fun c => matchDsn c dsn uid pwd) r.conns 0

/-- `find_conn_connstr`; `none` is undefined behaviour. -/
def find_conn_connstr (r : Registry) (connstr : String) : Option Int :=
  findFrom (fun c => matchConnstr c connstr) r.conns 0

/-- `if (p) pfree(p);`: the pointer itself is not reset. -/
def pfreeField (p : CStr) : CStr :=
  match p with
  | CStr.null => CStr.null
  | CStr.str _ => CStr.freed
  | CStr.freed => CStr.freed

/-- `odbclink_disconnect` on the argument `h` (the 1-based handle). The
return codes of the three driver calls only decide whether a NOTICE is
logged, so they are not inputs here. -/
def odbclink_disconnect (r : Registry) (h : Int) : Outcome Unit :=
  let i := h - 1
  if ¬ (i ≥ 0 ∧ i < (r.n_conn : Int) ∧ (r.slot i.toNat).connected ≠ 0) then
    { ret := .error Err.no_such_connection, reg := r, calls := [] }
  else
    let c := r.slot i.toNat
    { ret := .ok (),
      reg := r.setSlot i.toNat { c with
        connected := 0, dsn := pfreeField c.dsn, uid := pfreeField c.uid,
        pwd := pfreeField c.pwd, connstr := pfreeField c.connstr },
      calls := [DrvCall.SQLDisconnect c.hCon, DrvCall.SQLFreeConnect c.hCon,
                DrvCall.SQLFreeEnv c.hEnv] }

/-- One row of `odbclink_connections`: `values[0]`, `values[1]`, and the
`nulls[k]` flag of each of the four string columns. -/
structure ConnRow where
  handle : Int
  connected : Bool
  dsnNull : Bool
  uidNull : Bool
  pwdNull : Bool
  connstrNull : Bool
deriving DecidableEq, Repr

/-- The row `odbclink_connections` builds for `call_cntr`: `nulls[k]` is
true exactly when the pointer is `NULL`. -/
def connections_row (c : odbcconn) (call_cntr : Nat) : ConnRow :=
  { handle := (call_cntr : Int) + 1,
    connected := decide (c.connected ≠ 0),
    dsnNull := decide (c.dsn = CStr.null),
    uidNull := decide (c.uid = CStr.null),
    pwdNull := decide (c.pwd = CStr.null),
    connstrNull := decide (c.connstr = CStr.null) }

/-- All rows `odbclink_connections` returns: one per slot, `max_calls =
n_conn`. -/
def odbclink_connections (r : Registry) : List ConnRow :=
  (List.range r.n_conn).map (fun k => connections_row (r.slot k) k)

/-- Registry states the program can be in: the state after `_PG_init`, and
any state a call of `connect_dsn`, `connect_connstr` or
`odbclink_disconnect` leaves behind, whether the call returned or raised. -/
inductive Reachable : Registry → Prop where
  | init : Reachable PG_init
  | dsn (r : Registry) (d : ConnDriver) (dsn uid pwd : String) :
      Reachable r → Reachable (connect_dsn r d dsn uid pwd).reg
  | connstr (r : Registry) (d : ConnDriver) (connstr : String) :
      Reachable r → Reachable (connect_connstr r d connstr).reg
  | disconnect (r : Registry) (h : Int) :
      Reachable r → Reachable (odbclink_disconnect r h).reg

/-- The shape `connect_*` gives a live slot: either the three credential
strings are stored and the connection string is `NULL`, or the other way
round. -/
def slotShape (c : odbcconn) : Prop :=
  c.connected = 0 ∨
  ((∃ a b p, c.dsn = CStr.str a ∧ c.uid = CStr.str b ∧ c.pwd = CStr.str p) ∧ c.connstr = CStr.null) ∨
  (c.dsn = CStr.null ∧ c.uid = CStr.null ∧ c.pwd = CStr.null ∧ ∃ s, c.connstr = CStr.str s)

/-- `i` is the lowest index of a slot that is not live. -/
def lowestFree (r : Registry) (i : Nat) : Prop :=
  i < r.n_conn ∧ (r.slot i).connected = 0 ∧ ∀ j, j < i → (r.slot j).connected ≠ 0

/-- Some live slot stores exactly the triple `(dsn, uid, pwd)`. -/
def hasTriple (r : Registry) (dsn uid pwd : String) : Prop :=
  ∃ j, r.live j ∧ (r.slot j).dsn = CStr.str dsn ∧ (r.slot j).uid = CStr.str uid ∧
    (r.slot j).pwd = CStr.str pwd

/-- Some live slot stores exactly the connection string `connstr`. -/
def hasConnstr (r : Registry) (connstr : String) : Prop :=
  ∃ j, r.live j ∧ (r.slot j).connstr = CStr.str connstr

/-! ## Schema compatibility -/

/-- The two fields of `tupdesc->attrs[col]` the source reads. -/
structure Attr where
  atttypid : Nat
  atttypmod : Int
deriving DecidableEq, Repr

/-- What `SQLDescribeCol` stores for one column, as far as the source reads
it: the remote type tag and the declared size (`SQLULEN`). -/
structure ColDesc where
  type : Int
  columnsz : Nat
deriving DecidableEq, Repr

/-- The `switch (type)` of `compatTupleDescs` for one column: the value of
`retval` after it, `retval` being true before. `pgver` is `PG_VERSION_NUM`,
which decides at compile time whether the binary tags test for `BYTEAOID`
or fail outright. The comparison `typemod < columnsz` is between an `int`
known to be at least 1 and an unsigned size. -/
def colCompat (pgver : Nat) (type : Int) (columnsz : Nat) (typeoid : Nat) (typemod : Int) : Bool :=
  if type = SQL_CHAR ∨ type = SQL_VARCHAR then
    if typeoid ≠ CHAROID ∧ typeoid ≠ BPCHAROID ∧ typeoid ≠ VARCHAROID ∧ typeoid ≠ TEXTOID then
      if typemod ≥ 1 ∧ typemod < (columnsz : Int) then false else true
    else true
  else if type = SQL_LONGVARCHAR then
    if typeoid ≠ TEXTOID then false else true
  else if type = SQL_NUMERIC ∨ type = SQL_DECIMAL then
    if typeoid ≠ INT2OID ∧ typeoid ≠ INT4OID ∧ typeoid ≠ INT8OID ∧ typeoid ≠ NUMERICOID then false
    else true
  else if type = SQL_BIGINT then
    if typeoid ≠ INT8OID then false else true
  else if type = SQL_INTEGER then
    if typeoid ≠ INT4OID ∧ typeoid ≠ INT8OID then false else true
  else if type = SQL_SMALLINT then
    if typeoid ≠ INT2OID ∧ typeoid ≠ INT4OID ∧ typeoid ≠ INT8OID then false else true
  else if type = SQL_FLOAT ∨ type = SQL_REAL then
    if typeoid ≠ FLOAT4OID then false else true
  else if type = SQL_DOUBLE then
    if typeoid ≠ FLOAT8OID then false else true
  else if type = SQL_DATE then
    if typeoid ≠ DATEOID then false else true
  else if type = SQL_TIME then
    if typeoid ≠ TIMEOID ∧ typeoid ≠ TIMETZOID then false else true
  else if type = SQL_TIMESTAMP then
    if typeoid ≠ TIMESTAMPOID ∧ typeoid ≠ TIMESTAMPTZOID then false else true
  else if type = SQL_BINARY ∨ type = SQL_VARBINARY ∨ type = SQL_LONGVARBINARY then
    if pgver ≥ 80500 then (if typeoid ≠ BYTEAOID then false else true) else false
  else if type = SQL_BIT then
    if typeoid ≠ BOOLOID then false else true
  else true

/-- The NOTICE `compatTupleDescs` logs for the column it stops at: `field
index %d input type from ODBC: %d output type for PG: %d`. -/
structure CompatNotice where
  col : Nat
  type : Int
  typeoid : Nat
deriving DecidableEq, Repr

/-- What `compatTupleDescs` returns, and the NOTICE it logged, if any. -/
structure CompatResult where
  retval : Bool
  notice : Option CompatNotice
deriving DecidableEq, Repr

/-- The `for (col = 0; col < stmt->cols; col++)` loop from column `col` on,
over the remote descriptions and host attributes still to visit. -/
def compatLoop (pgver : Nat) : List ColDesc → List Attr → Nat → CompatResult
  | rc :: rs, a :: as, col =>
    if colCompat pgver rc.type rc.columnsz a.atttypid a.atttypmod then
      compatLoop pgver rs as (col + 1)
    else
      { retval := false, notice := some { col := col, type := rc.type, typeoid := a.atttypid } }
  | _, _, _ => { retval := true, notice := none }

/-- `compatTupleDescs`: `numColsRet` is the return code of
`SQLNumResultCols`, `remote` the descriptions `SQLDescribeCol` gives for
columns `1 .. cols` (so `stmt->cols` is `remote.length`), `tupdesc` the
attributes of the expected row. -/
def compatTupleDescs (pgver : Nat) (numColsRet : Int) (remote : List ColDesc)
    (tupdesc : List Attr) : CompatResult :=
  if ¬ SQL_SUCCEEDED numColsRet then { retval := false, notice := none }
  else if tupdesc.length ≠ remote.length then { retval := false, notice := none }
  else compatLoop pgver remote tupdesc 0

/-! ## Chunked retrieval -/

/-- One answer of the driver to `SQLGetData(..., SQL_C_CHAR, char_val +
char_pos, CHARVALCHUNK, &size_ind)`: the return code, the value it stores in
`size_ind`, and the characters it writes at the target address. -/
structure CharResp where
  ret : Int
  size_ind : Int
  data : List Char
deriving DecidableEq, Repr

/-- A byte of a `palloc`ed buffer: `none` until something is written. -/
abbrev Cell := Option Char

/-- Write `data` into `buf` at offset `pos`; `none` when the write does not
lie inside the buffer. -/
def writeAt (buf : List Cell) (pos : Int) (data : List Char) : Option (List Cell) :=
  if pos < 0 then none
  else if pos.toNat + data.length > buf.length then none
  else some (buf.take pos.toNat ++ data.map some ++ buf.drop (pos.toNat + data.length))

/-- The local variables of `get_char_data` the loop changes, and the number
of `SQLGetData` calls made so far. -/
structure CharState where
  ret : Int
  size_ind : Int
  buf : List Cell
  char_len : Nat
  char_pos : Int
  requests : Nat
deriving DecidableEq, Repr

/-- The `while (ret != SQL_NO_DATA)` loop of `get_char_data` for chunk size
`chunk`, run against a script of driver answers. Once the script is used up
the driver answers `SQL_NO_DATA`, writes nothing and leaves `size_ind` alone.
`none` is a write outside the buffer. -/
def charLoop (chunk : Nat) : List CharResp → CharState → Option CharState
  | [], st =>
    if st.ret = SQL_NO_DATA then some st
    else some { st with ret := SQL_NO_DATA, requests := st.requests + 1 }
  | rsp :: rest, st =>
    if st.ret = SQL_NO_DATA then some st
    else
      match writeAt st.buf st.char_pos rsp.data with
      | none => none
      | some buf1 =>
        let ind := rsp.size_ind
        let st1 : CharState :=
          { st with ret := rsp.ret, size_ind := ind, buf := buf1, requests := st.requests + 1 }
        if ind = SQL_NULL_DATA then some st1
        else if rsp.ret = SQL_NO_DATA then some st1
        else
          let st2 : CharState :=
            if ind = (chunk : Int) then
              { st1 with char_len := st1.char_len + chunk,
                         buf := st1.buf ++ List.replicate chunk none }
            else st1
          charLoop chunk rest { st2 with char_pos := st2.char_pos + ind }

/-- What `get_char_data` hands back: its return code, `*value`, the caller's
`*length` and `*isnull` afterwards, and how many `SQLGetData` calls it made. -/
structure CharResult where
  ret : Int
  value : List Cell
  length : Int
  isnull : Bool
  requests : Nat
deriving DecidableEq, Repr

/-- `get_char_data` for chunk size `chunk`. `ind0` is what the uninitialised
`size_ind` holds on entry, `len0` what the caller's `*length` holds. `none`
is undefined behaviour: a write outside the buffer, or the `realloc` the
source applies to a `palloc`ed pointer when `char_pos == char_len`. -/
def get_char_data (chunk : Nat) (script : List CharResp) (ind0 : Int) (len0 : Int) :
    Option CharResult :=
  let st0 : CharState :=
    { ret := SQL_SUCCESS, size_ind := ind0, buf := List.replicate chunk none,
      char_len := chunk, char_pos := 0, requests := 0 }
  match charLoop chunk script st0 with
  | none => none
  | some st =>
    if st.char_pos = (st.char_len : Int) then none
    else
      match writeAt st.buf st.char_pos [Char.ofNat 0] with
      | none => none
      | some buf =>
        some { ret := st.ret, value := buf,
               length := if len0 ≠ 0 then st.char_pos else len0,
               isnull := decide (st.size_ind = SQL_NULL_DATA),
               requests := st.requests }

/-- The C string starting at a buffer: the characters before the first NUL.
`none` when an unwritten byte or the end of the buffer comes first. -/
def cstring : List Cell → Option (List Char)
  | [] => none
  | none :: _ => none
  | some c :: rest =>
    if c = Char.ofNat 0 then some []
    else (cstring rest).map (fun s => c :: s)

/-! ## Value coercion -/

/-- Value of a decimal digit character. -/
def digitVal (c : Char) : Nat := c.toNat - 48

/-- `isspace` in the C locale: the blank and the codes 9 to 13. -/
def isSpaceC (c : Char) : Bool :=
  c.toNat = 32 ∨ (9 ≤ c.toNat ∧ c.toNat ≤ 13)

/-- `isdigit` of C: the codes 48 to 57. -/
def isDigitC (c : Char) : Bool :=
  48 ≤ c.toNat ∧ c.toNat ≤ 57

/-- The value of a run of decimal digits read left to right from `acc`. -/
def digitsVal (ds : List Char) (acc : Nat) : Nat :=
  ds.foldl (fun a c => 10 * a + digitVal c) acc

/-- `strtoll(s, &endptr, 10)` of the C library: skip white space, take an
optional sign, then the longest run of decimal digits; the result is clamped
to `LLONG_MIN .. LLONG_MAX`; with no digit the result is 0 and `endptr` is
`s`. Gives the value and the text `endptr` points at. -/
def strtoll (s : List Char) : Int × List Char :=
  let t := s.dropWhile isSpaceC
  let neg := t.head? = some '-'
  let u := if t.head? = some '-' ∨ t.head? = some '+' then t.tail else t
  let ds := u.takeWhile isDigitC
  let rest := u.dropWhile isDigitC
  if ds = [] then (0, s)
  else
    let v : Int := if neg then - (digitsVal ds 0 : Int) else (digitsVal ds 0 : Int)
    (max LLONG_MIN (min LLONG_MAX v), rest)

/-- Conversion of a 64-bit value to a signed integer type of `w` bits, as
the assignments `int_val = bigint_val` and `smallint_val = bigint_val` do it
on the two's complement targets PostgreSQL supports. -/
def wrapSigned (w : Nat) (v : Int) : Int :=
  (v + 2 ^ (w - 1)) % 2 ^ w - 2 ^ (w - 1)

/-- A host value. `float4` / `float8` carry the image the driver stored,
which the source passes through. `parsed` is what a host input function
made of a text. -/
inductive Datum where
  | int16 (v : Int)
  | int32 (v : Int)
  | int64 (v : Int)
  | bool (b : Bool)
  | float4 (img : Nat)
  | float8 (img : Nat)
  | parsed (typeoid : Nat) (text : List Char)
deriving DecidableEq, Repr

/-- The host input functions `get_data` calls. -/
inductive HostFn where
  | charin | bpcharin | varcharin | textin | numeric_in | date_in | time_in
  | timetz_in | timestamp_in | timestamptz_in | byteain
deriving DecidableEq, Repr

/-- The host's input functions: given the function, the text and the type
modifier, a value, or `none` when the function raises. -/
abbrev HostIn := HostFn → List Char → Int → Option Datum

/-- Hexadecimal digit of a value below 16, as `hex_encode` writes it. -/
def hexDigit (n : Nat) : Char :=
  if n < 10 then Char.ofNat (48 + n) else Char.ofNat (87 + n)

/-- `hex_encode(src, len, dst)` of the host on the `len` bytes read from
`src`: two digits per byte. -/
def hex_encode (src : List Char) : List Char :=
  src.flatMap (fun c => [hexDigit (c.toNat / 16 % 16), hexDigit (c.toNat % 16)])

/-- The first `len` bytes of a buffer; `none` when one of them was never
written or the buffer is shorter. -/
def readBytes : List Cell → Nat → Option (List Char)
  | _, 0 => some []
  | [], _ + 1 => none
  | none :: _, _ + 1 => none
  | some c :: rest, n + 1 => (readBytes rest n).map (fun s => c :: s)

/-- What the driver answers while `get_data` works on one column:
`SQLDescribeCol` (return code and type tag), the one `SQLGetData` of the
fixed-width cases (return code, indicator, the integer or the floating-point
image it stores), and the script `get_char_data` runs against, with the
initial content of its `size_ind`. -/
structure CellDriver where
  describeRet : Int
  type : Int
  getRet : Int
  size_ind : Int
  intVal : Int
  floatImg : Nat
  chars : List CharResp
  ind0 : Int
deriving DecidableEq, Repr

/-- The two output cells of `get_data`, `*value` and `*isnull`; `none` is a
cell the call did not assign. -/
structure Out where
  value : Option Datum
  isnull : Option Bool
deriving DecidableEq, Repr

/-- The inner `switch (typeoid)` of the character path of `get_data`: which
input function, if any, the host type selects. `byteain` is compiled in only
for `PG_VERSION_NUM >= 80500`. -/
def charPathFn (pgver : Nat) (typeoid : Nat) : Option HostFn :=
  if typeoid = CHAROID then some HostFn.charin
  else if typeoid = BPCHAROID then some HostFn.bpcharin
  else if typeoid = VARCHAROID then some HostFn.varcharin
  else if typeoid = TEXTOID then some HostFn.textin
  else if typeoid = NUMERICOID then some HostFn.numeric_in
  else if typeoid = DATEOID then some HostFn.date_in
  else if typeoid = TIMEOID then some HostFn.time_in
  else if typeoid = TIMETZOID then some HostFn.timetz_in
  else if typeoid = TIMESTAMPOID then some HostFn.timestamp_in
  else if typeoid = TIMESTAMPTZOID then some HostFn.timestamptz_in
  else if typeoid = BYTEAOID ∧ pgver ≥ 80500 then some HostFn.byteain
  else none

/-- The NUMERIC / DECIMAL case of `get_data` for an integer host type: the
text is run through `strtoll`, then the `switch (typeoid)` with its three
checks. -/
def numericToInt (typeoid : Nat) (text : List Char) : Except Err (Option Datum) :=
  let p := strtoll text
  let bigint_val := p.1
  let endptr := p.2
  if typeoid = INT8OID then
    if endptr.head? ≠ none ∧ endptr.head? ≠ some '.' then .error Err.too_large_for_64_bit
    else .ok (some (Datum.int64 bigint_val))
  else if typeoid = INT4OID then
    if bigint_val > INT_MAX then .error Err.too_large_for_32_bit
    else .ok (some (Datum.int32 (wrapSigned 32 bigint_val)))
  else if typeoid = INT2OID then
    if bigint_val > SHRT_MAX then .error Err.too_large_for_16_bit
    else .ok (some (Datum.int16 (wrapSigned 16 bigint_val)))
  else .ok none

/-- The character path of `get_data` (the cases from `SQL_CHAR` to
`SQL_LONGVARBINARY`, and NUMERIC / DECIMAL falling through): fetch the text,
then hand it to the input function of the host type: the C string at
`char_val`, or for `bytea` the hex encoding of its first `char_pos` bytes.
In `get_data` the variable `char_pos` passed as `length` holds 0. -/
def charPath (pgver chunk : Nat) (host : HostIn) (d : CellDriver) (typeoid : Nat)
    (typemod : Int) : Except Err Out :=
  match get_char_data chunk d.chars d.ind0 0 with
  | none => .error Err.undefined_behaviour
  | some res =>
    if res.isnull then .ok { value := none, isnull := some true }
    else
      match charPathFn pgver typeoid with
      | none => .ok { value := none, isnull := some false }
      | some fn =>
        let arg :=
          if fn = HostFn.byteain then (readBytes res.value res.length.toNat).map hex_encode
          else cstring res.value
        match arg with
        | none => .error Err.undefined_behaviour
        | some text =>
          match host fn text typemod with
          | none => .error Err.host_input_error
          | some v => .ok { value := some v, isnull := some false }

/-- `case SQL_SMALLINT:` of `get_data`: one `SQLGetData` into a 16-bit
buffer, then the inner `switch (typeoid)`. -/
def smallintCase (d : CellDriver) (typeoid : Nat) : Except Err Out :=
  if ¬ SQL_SUCCEEDED d.getRet then .error Err.unsuccessful_SQLGetData
  else if d.size_ind = SQL_NULL_DATA then .ok { value := none, isnull := some true }
  else
    let smallint_val := wrapSigned 16 d.intVal
    if typeoid = INT2OID then .ok { value := some (Datum.int16 smallint_val), isnull := some false }
    else if typeoid = INT4OID then .ok { value := some (Datum.int32 smallint_val), isnull := some false }
    else if typeoid = INT8OID then .ok { value := some (Datum.int64 smallint_val), isnull := some false }
    else .ok { value := none, isnull := some false }

/-- `case SQL_INTEGER: case SQL_BIT:` of `get_data`: one `SQLGetData` into a
32-bit buffer, then the inner `switch (typeoid)`. -/
def integerCase (d : CellDriver) (typeoid : Nat) : Except Err Out :=
  if ¬ SQL_SUCCEEDED d.getRet then .error Err.unsuccessful_SQLGetData
  else if d.size_ind = SQL_NULL_DATA then .ok { value := none, isnull := some true }
  else
    let int_val := wrapSigned 32 d.intVal
    if typeoid = INT4OID then .ok { value := some (Datum.int32 int_val), isnull := some false }
    else if typeoid = INT8OID then .ok { value := some (Datum.int64 int_val), isnull := some false }
    else if typeoid = BOOLOID then
      .ok { value := some (Datum.bool (decide (int_val ≠ 0))), isnull := some false }
    else .ok { value := none, isnull := some false }

/-- `case SQL_BIGINT:` of `get_data`. -/
def bigintCase (d : CellDriver) : Except Err Out :=
  if ¬ SQL_SUCCEEDED d.getRet then .error Err.unsuccessful_SQLGetData
  else if d.size_ind = SQL_NULL_DATA then .ok { value := none, isnull := some true }
  else .ok { value := some (Datum.int64 (wrapSigned 64 d.intVal)), isnull := some false }

/-- `case SQL_NUMERIC: case SQL_DECIMAL:` of `get_data` when the host type is
an integer type: the text is fetched and run through the integer case. -/
def numericIntCase (chunk : Nat) (d : CellDriver) (typeoid : Nat) : Except Err Out :=
  match get_char_data chunk d.chars d.ind0 0 with
  | none => .error Err.undefined_behaviour
  | some res =>
    if res.isnull then .ok { value := none, isnull := some true }
    else
      match cstring res.value with
      | none => .error Err.undefined_behaviour
      | some text =>
        match numericToInt typeoid text with
        | .error e => .error e
        | .ok v => .ok { value := v, isnull := some false }

/-- `case SQL_FLOAT: case SQL_REAL:` of `get_data`. -/
def floatCase (d : CellDriver) : Except Err Out :=
  if ¬ SQL_SUCCEEDED d.getRet then .error Err.unsuccessful_SQLGetData
  else if d.size_ind = SQL_NULL_DATA then .ok { value := none, isnull := some true }
  else .ok { value := some (Datum.float4 d.floatImg), isnull := some false }

/-- `case SQL_DOUBLE:` of `get_data`. -/
def doubleCase (d : CellDriver) : Except Err Out :=
  if ¬ SQL_SUCCEEDED d.getRet then .error Err.unsuccessful_SQLGetData
  else if d.size_ind = SQL_NULL_DATA then .ok { value := none, isnull := some true }
  else .ok { value := some (Datum.float8 d.floatImg), isnull := some false }

/-- `get_data` for one column: `typeoid` and `typemod` are those of
`stmt->tupdesc->attrs[col - 1]`. After `SQLDescribeCol` the `switch (type)`
picks one of the cases above; a tag with no case leaves both output cells
unassigned. -/
def get_data (pgver chunk : Nat) (host : HostIn) (d : CellDriver) (typeoid : Nat)
    (typemod : Int) : Except Err Out :=
  if ¬ SQL_SUCCEEDED d.describeRet then .error Err.unsuccessful_SQLDescribeCol
  else if d.type = SQL_SMALLINT then smallintCase d typeoid
  else if d.type = SQL_INTEGER ∨ d.type = SQL_BIT then integerCase d typeoid
  else if d.type = SQL_BIGINT then bigintCase d
  else if (d.type = SQL_NUMERIC ∨ d.type = SQL_DECIMAL) ∧
      (typeoid = INT2OID ∨ typeoid = INT4OID ∨ typeoid = INT8OID) then
    numericIntCase chunk d typeoid
  else if d.type = SQL_NUMERIC ∨ d.type = SQL_DECIMAL ∨ d.type = SQL_CHAR ∨ d.type = SQL_VARCHAR ∨
      d.type = SQL_LONGVARCHAR ∨ d.type = SQL_DATE ∨ d.type = SQL_TIME ∨ d.type = SQL_TIMESTAMP ∨
      d.type = SQL_BINARY ∨ d.type = SQL_VARBINARY ∨ d.type = SQL_LONGVARBINARY then
    charPath pgver chunk host d typeoid typemod
  else if d.type = SQL_FLOAT ∨ d.type = SQL_REAL then floatCase d
  else if d.type = SQL_DOUBLE then doubleCase d
  else .ok { value := none, isnull := none }

/-! ## Streaming query executor -/

/-- What `get_call_result_type` answers. -/
inductive TypeFuncClass where
  | composite
  | record
  | other
deriving DecidableEq, Repr

/-- The struct `odbcstmt` of `odbclink.h`; its field `conn_idx` is never
assigned or read in `odbclink.c` and is left out. -/
structure odbcstmt where
  tupdesc : List Attr
  hStmt : Nat
  cols : Nat
deriving DecidableEq, Repr

/-- What the environment answers while a statement is opened: the return
code and handle of `SQLAllocStmt`, the return code of `SQLExecDirect`, the
answer of `get_call_result_type` with the row type it resolves, and the
answers `compatTupleDescs` gets. -/
structure OpenDriver where
  allocRet : Int
  hStmt : Nat
  execRet : Int
  resultClass : TypeFuncClass
  tupdesc : List Attr
  numColsRet : Int
  remote : List ColDesc
deriving DecidableEq, Repr

/-- Result of an operation on a statement: what it returned or raised, and
the driver calls it made, in order. -/
structure StmtOutcome (α : Type) where
  ret : Except Err α
  calls : List DrvCall

/-- `init_query_common` on slot `i` of the registry. -/
def init_query_common (pgver : Nat) (r : Registry) (i : Nat) (d : OpenDriver) :
    StmtOutcome odbcstmt :=
  let hCon := (r.slot i).hCon
  if ¬ SQL_SUCCEEDED d.allocRet then
    { ret := .error Err.unsuccessful_SQLAllocStmt, calls := [DrvCall.SQLAllocStmt hCon] }
  else if ¬ SQL_SUCCEEDED d.execRet then
    { ret := .error Err.unsuccessful_SQLExecDirect,
      calls := [DrvCall.SQLAllocStmt hCon, DrvCall.SQLExecDirect d.hStmt,
                DrvCall.SQLFreeHandle d.hStmt] }
  else
    match d.resultClass with
    | TypeFuncClass.record =>
      { ret := .error Err.record_not_accepted,
        calls := [DrvCall.SQLAllocStmt hCon, DrvCall.SQLExecDirect d.hStmt,
                  DrvCall.SQLFreeHandle d.hStmt] }
    | TypeFuncClass.other =>
      { ret := .error Err.return_type_not_row,
        calls := [DrvCall.SQLAllocStmt hCon, DrvCall.SQLExecDirect d.hStmt,
                  DrvCall.SQLFreeHandle d.hStmt] }
    | TypeFuncClass.composite =>
      if ¬ (compatTupleDescs pgver d.numColsRet d.remote d.tupdesc).retval then
        { ret := .error Err.incompatible_tuple_descriptions,
          calls := [DrvCall.SQLAllocStmt hCon, DrvCall.SQLExecDirect d.hStmt,
                    DrvCall.SQLFreeHandle d.hStmt] }
      else
        { ret := .ok { tupdesc := d.tupdesc, hStmt := d.hStmt, cols := d.remote.length },
          calls := [DrvCall.SQLAllocStmt hCon, DrvCall.SQLExecDirect d.hStmt] }

/-- What the driver answers during one call of `query_common`: the return
code of `SQLFetch`, and for each column index `i` (0-based) the answers
`get_data(stmt, i + 1, ...)` gets. -/
structure RowDriver where
  fetchRet : Int
  cells : Nat → CellDriver

/-- The attribute read when an index lies past the descriptor, which the
loop below does not do on a statement `init_query_common` opened. -/
def noAttr : Attr := { atttypid := 0, atttypmod := -1 }

/-- The loop `for (i = 0; i < stmt->cols; i++) get_data(stmt, i + 1,
&values[i], &nulls[i])` with `n` iterations left, at index `i`; stops at the
first `get_data` that raises. -/
def rowLoop (pgver chunk : Nat) (host : HostIn) (stmt : odbcstmt) (cells : Nat → CellDriver) :
    Nat → Nat → Except Err (List Out)
  | 0, _ => .ok []
  | n + 1, i =>
    let a := stmt.tupdesc.getD i noAttr
    match get_data pgver chunk host (cells i) a.atttypid a.atttypmod with
    | .error e => .error e
    | .ok o =>
      match rowLoop pgver chunk host stmt cells n (i + 1) with
      | .error e => .error e
      | .ok os => .ok (o :: os)

/-- What one call of `query_common` returns: a row (`SRF_RETURN_NEXT`) or
the end of the set (`SRF_RETURN_DONE`). -/
inductive Step where
  | row (cells : List Out)
  | done
deriving DecidableEq, Repr

/-- `query_common`. An error raised inside `get_data` is caught by
`PG_CATCH`, which releases the handle and re-throws; undefined behaviour is
not an error `PG_CATCH` sees. -/
def query_common (pgver chunk : Nat) (host : HostIn) (stmt : odbcstmt) (d : RowDriver) :
    StmtOutcome Step :=
  if SQL_SUCCEEDED d.fetchRet then
    match rowLoop pgver chunk host stmt d.cells stmt.cols 0 with
    | .error e =>
      if e = Err.undefined_behaviour then
        { ret := .error e, calls := [DrvCall.SQLFetch stmt.hStmt] }
      else
        { ret := .error e, calls := [DrvCall.SQLFetch stmt.hStmt, DrvCall.SQLFreeHandle stmt.hStmt] }
    | .ok values => { ret := .ok (Step.row values), calls := [DrvCall.SQLFetch stmt.hStmt] }
  else if d.fetchRet ≠ SQL_NO_DATA then
    { ret := .error Err.unsuccessful_SQLFetch,
      calls := [DrvCall.SQLFetch stmt.hStmt, DrvCall.SQLFreeHandle stmt.hStmt] }
  else
    { ret := .ok Step.done,
      calls := [DrvCall.SQLFetch stmt.hStmt, DrvCall.SQLFreeHandle stmt.hStmt] }

/-- Where a statement stands after the host stopped calling: `streaming`
when the last call returned a row (or none was made), `exhausted` after
`SRF_RETURN_DONE`, `failed` after an error. -/
inductive Final where
  | streaming
  | exhausted
  | failed (e : Err)
deriving DecidableEq, Repr

/-- A whole run of a statement: the rows returned, where it ended, and every
driver call made, in order. -/
structure Run where
  rows : List (List Out)
  final : Final
  calls : List DrvCall

/-- The host's set-returning-function protocol on an open statement: it calls
`query_common` once per element of `script` (the driver's answers during
that call) and stops calling after `SRF_RETURN_DONE` or an error. -/
def drive (pgver chunk : Nat) (host : HostIn) (stmt : odbcstmt) : List RowDriver → Run
  | [] => { rows := [], final := Final.streaming, calls := [] }
  | d :: ds =>
    let o := query_common pgver chunk host stmt d
    match o.ret with
    | .error e => { rows := [], final := Final.failed e, calls := o.calls }
    | .ok Step.done => { rows := [], final := Final.exhausted, calls := o.calls }
    | .ok (Step.row v) =>
      let rest := drive pgver chunk host stmt ds
      { rows := v :: rest.rows, final := rest.final, calls := o.calls ++ rest.calls }

/-- A statement from its opening on: `init_query_common` on slot `i`, then
`query_common` driven by the host (the body of `odbclink_query_n` after its
handle check, and of the other two `odbclink_query_*` after they picked the
slot). -/
def run_query (pgver chunk : Nat) (host : HostIn) (r : Registry) (i : Nat) (od : OpenDriver)
    (script : List RowDriver) : Run :=
  let o := init_query_common pgver r i od
  match o.ret with
  | .error e => { rows := [], final := Final.failed e, calls := o.calls }
  | .ok stmt =>
    let rest := drive pgver chunk host stmt script
    { rows := rest.rows, final := rest.final, calls := o.calls ++ rest.calls }

/-- Is the call a release of a statement handle. -/
def isFree : DrvCall → Bool
  | DrvCall.SQLFreeHandle _ => true
  | _ => false

/-- How often a statement handle is released in a sequence of calls. -/
def frees (calls : List DrvCall) : Nat := calls.countP isFree

/-- A driver under which every call of a `connect_*` succeeds. -/
def okDriver : ConnDriver :=
  { allocOk := true, envRet := SQL_SUCCESS, hEnv := 1, conRet := SQL_SUCCESS, hCon := 2,
    connectRet := SQL_SUCCESS }

/-- A registry with one slot released: a connect on the initial state, then a
disconnect of the handle it returned. -/
def releasedReg : Registry :=
  (odbclink_disconnect (connect_dsn PG_init okDriver "a" "b" "c").reg 1).reg

/-- A registry with one live slot holding the triple `("a", "b", "c")`. -/
def liveReg : Registry := (connect_dsn PG_init okDriver "a" "b" "c").reg

/-- The integer part of a decimal text: the value of its digits, negated
after a minus sign. -/
def intPart (sign digits : List Char) : Int :=
  if sign = ['-'] then - (digitsVal digits 0 : Int) else (digitsVal digits 0 : Int)

/-- Width in bits of an integer host type. -/
def intBits (typeoid : Nat) : Nat :=
  if typeoid = INT2OID then 16 else if typeoid = INT4OID then 32 else 64

/-- The host value of an integer host type holding `v`. -/
def intDatum (typeoid : Nat) (v : Int) : Datum :=
  if typeoid = INT2OID then Datum.int16 v
  else if typeoid = INT4OID then Datum.int32 v
  else Datum.int64 v

/-- A chunk answer that delivers `text` and reports its length. -/
def oneChunk (text : List Char) : CharResp :=
  { ret := SQL_SUCCESS, size_ind := (text.length : Int), data := text }

/-- A driver that describes the column as NUMERIC and delivers `text` as one
chunk reporting its own length. -/
def numericCell (text : List Char) : CellDriver :=
  { describeRet := SQL_SUCCESS, type := SQL_NUMERIC, getRet := SQL_SUCCESS, size_ind := 0,
    intVal := 0, floatImg := 0, chars := [oneChunk text], ind0 := 0 }

/-- A host whose input functions accept every text. -/
def anyHost : HostIn := fun _ text _ => some (Datum.parsed 0 text)

/-- A chunk answer that fills the whole transfer unit: not end-of-data, and
the length it reports is the chunk size and the number of characters it
wrote. -/
def fullChunk (chunk : Nat) (r : CharResp) : Prop :=
  r.ret ≠ SQL_NO_DATA ∧ r.size_ind = (chunk : Int) ∧ r.data.length = chunk

/-- The last chunk answer of a value: not end-of-data, it reports the number
of characters it wrote, at most one chunk size. -/
def lastChunk (chunk : Nat) (r : CharResp) : Prop :=
  r.ret ≠ SQL_NO_DATA ∧ r.size_ind = (r.data.length : Int) ∧ r.data.length ≤ chunk

/-- The characters a script delivers, in order. -/
def scriptData (script : List CharResp) : List Char :=
  script.flatMap (fun r => r.data)

/-- Unwritten bytes left in the buffer after a last chunk of `len`
characters: a chunk that fills the unit makes the buffer grow by one more
unit. -/
def slack (chunk len : Nat) : Nat :=
  if len = chunk then chunk else chunk - len

/-- Does a driver answer end the retrieval loop of `get_char_data`: a NULL
indicator, or the return code `SQL_NO_DATA`. -/
def endsRetrieval (r : CharResp) : Bool :=
  r.size_ind = SQL_NULL_DATA ∨ r.ret = SQL_NO_DATA

/-- How many answers of the script come before the first one that ends the
retrieval loop (all of them when none does: the driver then reports
`SQL_NO_DATA` on the request after the script). -/
def firstEnd : List CharResp → Nat
  | [] => 0
  | r :: rs => if endsRetrieval r then 0 else firstEnd rs + 1

/-- Follows the spec's words: an answer ends retrieval when it is a NULL
indicator, an explicit end-of-data, or a chunk shorter than the chunk
size. -/
def endsRetrievalAsStated (chunk : Nat) (r : CharResp) : Bool :=
  r.size_ind = SQL_NULL_DATA ∨ r.ret = SQL_NO_DATA ∨ r.size_ind < (chunk : Int)

/-- Follows the spec's words: the answers before the first one that ends
retrieval in the sense of `endsRetrievalAsStated`. -/
def firstEndAsStated (chunk : Nat) : List CharResp → Nat
  | [] => 0
  | r :: rs => if endsRetrievalAsStated chunk r then 0 else firstEndAsStated chunk rs + 1

/-- The errors `get_data` raises while coercing a row: its own `elog(ERROR)`
sites and an error of a host input function. -/
def coercionErr (e : Err) : Prop :=
  e = Err.unsuccessful_SQLDescribeCol ∨ e = Err.unsuccessful_SQLGetData ∨
  e = Err.too_large_for_64_bit ∨ e = Err.too_large_for_32_bit ∨ e = Err.too_large_for_16_bit ∨
  e = Err.host_input_error

/-- The errors `init_query_common` raises after `SQLAllocStmt` gave a
handle. -/
def openingErr (e : Err) : Prop :=
  e = Err.unsuccessful_SQLExecDirect ∨ e = Err.record_not_accepted ∨
  e = Err.return_type_not_row ∨ e = Err.incompatible_tuple_descriptions

/-- A driver that describes the column as INTEGER and stores `v`. -/
def integerCell (v : Int) : CellDriver :=
  { describeRet := SQL_SUCCESS, type := SQL_INTEGER, getRet := SQL_SUCCESS, size_ind := 4,
    intVal := v, floatImg := 0, chars := [], ind0 := 0 }

/-- A driver under which a statement opens: one remote column of tag `type`
and declared size 10 against one expected column of type `typeoid`. -/
def openOk (type : Int) (typeoid : Nat) : OpenDriver :=
  { allocRet := SQL_SUCCESS, hStmt := 7, execRet := SQL_SUCCESS,
    resultClass := TypeFuncClass.composite,
    tupdesc := [{ atttypid := typeoid, atttypmod := -1 }], numColsRet := SQL_SUCCESS,
    remote := [{ type := type, columnsz := 10 }] }

/-- A registry with one live slot opened by connection string. -/
def connstrReg : Registry := (connect_connstr PG_init okDriver "DSN=test").reg

/-- Is the call a row fetch. -/
def isFetch : DrvCall → Bool
  | DrvCall.SQLFetch _ => true
  | _ => false

/-- How often `SQLFetch` is invoked in a sequence of calls. -/
def fetches (calls : List DrvCall) : Nat := calls.countP isFetch

/-- An open statement with one expected `int4` column on handle 7. -/
def int4Stmt : odbcstmt :=
  { tupdesc := [{ atttypid := INT4OID, atttypmod := -1 }], hStmt := 7, cols := 1 }

/-- The driver's answers during a call in which `SQLFetch` returns `ret` and
the one column is the INTEGER `v`. -/
def int4Row (ret : Int) (v : Int) : RowDriver :=
  { fetchRet := ret, cells := fun _ => integerCell v }

/-- What the first call of an `odbclink_query_*` entry point leaves behind
and the run it starts: the registry afterwards, the driver calls made to
open a connection (none when one was reused), the slot the statement was
opened on (`none` when the call raised before opening one), and the run of
the statement. -/
structure QueryOutcome where
  reg : Registry
  connCalls : List DrvCall
  slot : Option Nat
  run : Run

/-- A run that raised `e` before any statement call. -/
def raisedRun (e : Err) : Run := { rows := [], final := Final.failed e, calls := [] }

/-- `odbclink_query_n`: the handle check of the first call, then the
statement on slot `h - 1`. -/
def odbclink_query_n (pgver chunk : Nat) (host : HostIn) (r : Registry) (od : OpenDriver)
    (script : List RowDriver) (h : Int) : QueryOutcome :=
  let i := h - 1
  if ¬ (i ≥ 0 ∧ i < (r.n_conn : Int) ∧ (r.slot i.toNat).connected ≠ 0) then
    { reg := r, connCalls := [], slot := none, run := raisedRun Err.no_such_connection }
  else
    { reg := r, connCalls := [], slot := some i.toNat,
      run := run_query pgver chunk host r i.toNat od script }

/-- `odbclink_query_dsn`: in the first call `i = find_conn_dsn(...)`, then
`if (i < 0) i = connect_dsn(...)`, then the statement on slot `i`; `cd` holds
the driver's answers to `connect_dsn`, should it be called. -/
def odbclink_query_dsn (pgver chunk : Nat) (host : HostIn) (r : Registry) (cd : ConnDriver)
    (od : OpenDriver) (script : List RowDriver) (dsn uid pwd : String) : QueryOutcome :=
  match find_conn_dsn r dsn uid pwd with
  | none => { reg := r, connCalls := [], slot := none, run := raisedRun Err.undefined_behaviour }
  | some i =>
    if i < 0 then
      let c := connect_dsn r cd dsn uid pwd
      match c.ret with
      | .error e => { reg := c.reg, connCalls := c.calls, slot := none, run := raisedRun e }
      | .ok j =>
        { reg := c.reg, connCalls := c.calls, slot := some j.toNat,
          run := run_query pgver chunk host c.reg j.toNat od script }
    else
      { reg := r, connCalls := [], slot := some i.toNat,
        run := run_query pgver chunk host r i.toNat od script }

/-- `odbclink_query_connstr`: as `odbclink_query_dsn`, with
`find_conn_connstr` and `connect_connstr`. -/
def odbclink_query_connstr (pgver chunk : Nat) (host : HostIn) (r : Registry) (cd : ConnDriver)
    (od : OpenDriver) (script : List RowDriver) (connstr : String) : QueryOutcome :=
  match find_conn_connstr r connstr with
  | none => { reg := r, connCalls := [], slot := none, run := raisedRun Err.undefined_behaviour }
  | some i =>
    if i < 0 then
      let c := connect_connstr r cd connstr
      match c.ret with
      | .error e => { reg := c.reg, connCalls := c.calls, slot := none, run := raisedRun e }
      | .ok j =>
        { reg := c.reg, connCalls := c.calls, slot := some j.toNat,
          run := run_query pgver chunk host c.reg j.toNat od script }
    else
      { reg := r, connCalls := [], slot := some i.toNat,
        run := run_query pgver chunk host r i.toNat od script }

/-- Slot `k` is live and stores exactly the triple `(dsn, uid, pwd)`. -/
def tripleAt (r : Registry) (dsn uid pwd : String) (k : Nat) : Prop :=
  r.live k ∧ (r.slot k).dsn = CStr.str dsn ∧ (r.slot k).uid = CStr.str uid ∧
    (r.slot k).pwd = CStr.str pwd

/-- Slot `k` is live and stores exactly the connection string `connstr`. -/
def connstrAt (r : Registry) (connstr : String) (k : Nat) : Prop :=
  r.live k ∧ (r.slot k).connstr = CStr.str connstr

/-- A driver that describes the column with the tag `type` and delivers
`text` as one chunk reporting its own length. -/
def charCell (type : Int) (text : List Char) : CellDriver :=
  { describeRet := SQL_SUCCESS, type := type, getRet := SQL_SUCCESS, size_ind := 0,
    intVal := 0, floatImg := 0, chars := [oneChunk text], ind0 := 0 }

/-- The tag `SQL_TINYINT` of `sqlext.h`, which neither `compatTupleDescs` nor
`get_data` has a case for. -/
def SQL_TINYINT : Int := -6

/-- Both output cells of `get_data` were assigned as far as the row needs
them: the null flag always, the value when the flag says not null. -/
def assigned (o : Out) : Prop :=
  o.isnull ≠ none ∧ (o.isnull = some false → o.value ≠ none)

/-- The remote tags `compatTupleDescs` has a case for. -/
def compatTag (t : Int) : Prop :=
  t = SQL_CHAR ∨ t = SQL_VARCHAR ∨ t = SQL_LONGVARCHAR ∨ t = SQL_NUMERIC ∨ t = SQL_DECIMAL ∨
  t = SQL_BIGINT ∨ t = SQL_INTEGER ∨ t = SQL_SMALLINT ∨ t = SQL_FLOAT ∨ t = SQL_REAL ∨
  t = SQL_DOUBLE ∨ t = SQL_DATE ∨ t = SQL_TIME ∨ t = SQL_TIMESTAMP ∨ t = SQL_BINARY ∨
  t = SQL_VARBINARY ∨ t = SQL_LONGVARBINARY ∨ t = SQL_BIT

/-- What one call of an `odbclink_query_*` entry point leaves behind: what it
returned or raised, the statement the host's call context
(`fcinfo->flinfo->fn_extra`, whose `user_fctx` is the statement) holds
afterwards, `none` when there is no context, and the driver calls made. -/
structure CallOutcome where
  ret : Except Err Step
  fn_extra : Option odbcstmt
  calls : List DrvCall

/-- The statement `return query_common(fcinfo);` of the entry points, with
the macros of the host's `funcapi.h` that `query_common` ends in:
`SRF_PERCALL_SETUP` reads the statement from the call context;
`SRF_RETURN_NEXT` (line 920) keeps the context for the next call;
`SRF_RETURN_DONE` (line 931) ends the multi-call context, after which
`fn_extra` is `NULL`; `elog(ERROR)` aborts the query, and the call context
goes with it. -/
def query_common_call (pgver chunk : Nat) (host : HostIn) (stmt : odbcstmt) (d : RowDriver) :
    CallOutcome :=
  match (query_common pgver chunk host stmt d).ret with
  | .ok (Step.row v) =>
    { ret := .ok (Step.row v), fn_extra := some stmt,
      calls := (query_common pgver chunk host stmt d).calls }
  | .ok Step.done =>
    { ret := .ok Step.done, fn_extra := none,
      calls := (query_common pgver chunk host stmt d).calls }
  | .error e =>
    { ret := .error e, fn_extra := none,
      calls := (query_common pgver chunk host stmt d).calls }

/-- What the environment supplies for one call of an entry point: the
registry at that time, the outcome of the entry point's own slot selection
should this be a first call (the handle check of `odbclink_query_n`, the
find-or-connect of the other two), and the driver's answers while a
statement is opened and while a row is fetched. -/
structure HostCall where
  reg : Registry
  slot : Except Err Nat
  od : OpenDriver
  row : RowDriver

/-- The body the three entry points share: `if (SRF_IS_FIRSTCALL()) { select
the slot; init_query_common(fcinfo, i, query); } return
query_common(fcinfo);`. `SRF_IS_FIRSTCALL()` is true exactly when the call
context holds nothing; `init_query_common` stores the statement it opened
in the context it creates. -/
def entry_call (pgver chunk : Nat) (host : HostIn) (fn_extra : Option odbcstmt) (c : HostCall) :
    CallOutcome :=
  match fn_extra with
  | some stmt => query_common_call pgver chunk host stmt c.row
  | none =>
    match c.slot with
    | .error e => { ret := .error e, fn_extra := none, calls := [] }
    | .ok i =>
      match (init_query_common pgver c.reg i c.od).ret with
      | .error e =>
        { ret := .error e, fn_extra := none, calls := (init_query_common pgver c.reg i c.od).calls }
      | .ok stmt =>
        { ret := (query_common_call pgver chunk host stmt c.row).ret,
          fn_extra := (query_common_call pgver chunk host stmt c.row).fn_extra,
          calls := (init_query_common pgver c.reg i c.od).calls ++
            (query_common_call pgver chunk host stmt c.row).calls }

/-- One call of `odbclink_query_n` with argument `h`: in a first call the
slot is `h - 1` after the handle check. -/
def odbclink_query_n_call (pgver chunk : Nat) (host : HostIn) (r : Registry)
    (fn_extra : Option odbcstmt) (h : Int) (od : OpenDriver) (row : RowDriver) : CallOutcome :=
  entry_call pgver chunk host fn_extra
    { reg := r,
      slot := if ¬ (h - 1 ≥ 0 ∧ h - 1 < (r.n_conn : Int) ∧ (r.slot (h - 1).toNat).connected ≠ 0)
        then .error Err.no_such_connection else .ok (h - 1).toNat,
      od := od, row := row }

/-- The slot selection of a first call of `odbclink_query_dsn`, with the
registry it leaves: `i = find_conn_dsn(...); if (i < 0) i = connect_dsn(...)`. -/
def pickSlotDsn (r : Registry) (cd : ConnDriver) (dsn uid pwd : String) :
    Registry × Except Err Nat :=
  match find_conn_dsn r dsn uid pwd with
  | none => (r, .error Err.undefined_behaviour)
  | some i =>
    if i < 0 then
      match (connect_dsn r cd dsn uid pwd).ret with
      | .error e => ((connect_dsn r cd dsn uid pwd).reg, .error e)
      | .ok j => ((connect_dsn r cd dsn uid pwd).reg, .ok j.toNat)
    else (r, .ok i.toNat)

/-- The slot selection of a first call of `odbclink_query_connstr`. -/
def pickSlotConnstr (r : Registry) (cd : ConnDriver) (connstr : String) :
    Registry × Except Err Nat :=
  match find_conn_connstr r connstr with
  | none => (r, .error Err.undefined_behaviour)
  | some i =>
    if i < 0 then
      match (connect_connstr r cd connstr).ret with
      | .error e => ((connect_connstr r cd connstr).reg, .error e)
      | .ok j => ((connect_connstr r cd connstr).reg, .ok j.toNat)
    else (r, .ok i.toNat)

/-- One call of `odbclink_query_dsn`. -/
def odbclink_query_dsn_call (pgver chunk : Nat) (host : HostIn) (r : Registry)
    (fn_extra : Option odbcstmt) (cd : ConnDriver) (dsn uid pwd : String) (od : OpenDriver)
    (row : RowDriver) : CallOutcome :=
  entry_call pgver chunk host fn_extra
    { reg := (pickSlotDsn r cd dsn uid pwd).1, slot := (pickSlotDsn r cd dsn uid pwd).2,
      od := od, row := row }

/-- One call of `odbclink_query_connstr`. -/
def odbclink_query_connstr_call (pgver chunk : Nat) (host : HostIn) (r : Registry)
    (fn_extra : Option odbcstmt) (cd : ConnDriver) (connstr : String) (od : OpenDriver)
    (row : RowDriver) : CallOutcome :=
  entry_call pgver chunk host fn_extra
    { reg := (pickSlotConnstr r cd connstr).1, slot := (pickSlotConnstr r cd connstr).2,
      od := od, row := row }

/-- The driver calls of a sequence of calls the host makes to an entry point
through one call context, starting with the context holding `fn_extra`. The
host may go on calling after the end of a set or after an error: such a
call finds the context empty. -/
def host_calls (pgver chunk : Nat) (host : HostIn) : Option odbcstmt → List HostCall →
    List DrvCall
  | _, [] => []
  | fn_extra, c :: cs =>
    (entry_call pgver chunk host fn_extra c).calls ++
      host_calls pgver chunk host (entry_call pgver chunk host fn_extra c).fn_extra cs

/-- What the environment supplies for a call on slot 0 of the registry with
one connection, should a statement be opened: one INTEGER column against an
expected `int4` column; `SQLFetch` returns `ret` and the column holds `v`. -/
def int4Call (ret : Int) (v : Int) : HostCall :=
  { reg := connstrReg, slot := .ok 0, od := openOk SQL_INTEGER INT4OID, row := int4Row ret v }

/-! ## Theorems: connection registry -/

theorem n_conn_setSlot (r : Registry) (i : Nat) (c : odbcconn) :
    (r.setSlot i c).n_conn = r.n_conn := by
  simp [Registry.setSlot, Registry.n_conn]

theorem slot_setSlot_same (r : Registry) (i : Nat) (c : odbcconn) (h : i < r.n_conn) :
    (r.setSlot i c).slot i = c := by
  simp only [Registry.n_conn] at h
  simp [Registry.setSlot, Registry.slot, List.getD_eq_getElem?_getD, List.getElem?_set, h]

theorem slot_setSlot_other (r : Registry) (i j : Nat) (c : odbcconn) (h : i ≠ j) :
    (r.setSlot i c).slot j = r.slot j := by
  simp [Registry.setSlot, Registry.slot, List.getD_eq_getElem?_getD, List.getElem?_set, h]

theorem scanFree_found (l : List odbcconn) (i : Nat) (h : (scanFree l i).2 = true) :
    i ≤ (scanFree l i).1 ∧ (scanFree l i).1 < i + l.length ∧
      (l.getD ((scanFree l i).1 - i) zeroConn).connected = 0 ∧
      ∀ j, j < (scanFree l i).1 - i → (l.getD j zeroConn).connected ≠ 0 := by
  induction l generalizing i with
  | nil => simp [scanFree] at h
  | cons c cs ih =>
    by_cases hc : c.connected = 0
    · simp [scanFree, hc]
    · simp only [scanFree, hc, if_false] at h ⊢
      obtain ⟨h1, h2, h3, h4⟩ := ih (i + 1) h
      have e : (scanFree cs (i + 1)).1 - i = ((scanFree cs (i + 1)).1 - (i + 1)) + 1 := by omega
      refine ⟨by omega, by simp only [List.length_cons]; omega, ?_, ?_⟩
      · rw [e]; simpa using h3
      · intro j hj
        cases j with
        | zero => simpa using hc
        | succ j => simpa using h4 j (by omega)

theorem scanFree_not_found (l : List odbcconn) (i : Nat) (h : (scanFree l i).2 = false) :
    (scanFree l i).1 = i + l.length ∧ ∀ j, j < l.length → (l.getD j zeroConn).connected ≠ 0 := by
  induction l generalizing i with
  | nil => simp [scanFree]
  | cons c cs ih =>
    by_cases hc : c.connected = 0
    · simp [scanFree, hc] at h
    · simp only [scanFree, hc, if_false] at h ⊢
      obtain ⟨h1, h2⟩ := ih (i + 1) h
      refine ⟨by simp only [List.length_cons]; omega, ?_⟩
      intro j hj
      cases j with
      | zero => simpa using hc
      | succ j => simpa using h2 j (by simpa using hj)

theorem connect_alloc_ok (r : Registry) (d : ConnDriver) (i : Nat)
    (h : (connect_alloc r d).ret = .ok i) :
    i = (scanFree r.conns 0).1 ∧ i < (connect_alloc r d).reg.n_conn ∧
    (((scanFree r.conns 0).2 = true ∧ (connect_alloc r d).reg.n_conn = r.n_conn) ∨
     ((scanFree r.conns 0).2 = false ∧
       (connect_alloc r d).reg.n_conn = r.n_conn + CONNCHUNK)) := by
  unfold connect_alloc at h ⊢
  cases hs : (scanFree r.conns 0).2
  · have hnf := (scanFree_not_found r.conns 0 hs).1
    cases ha : d.allocOk
    · simp [hs, ha, realloc_conns] at h
    · by_cases he : d.envRet = SQL_SUCCESS
      · by_cases hc : d.conRet = SQL_SUCCESS
        · simp [hs, ha, realloc_conns, he, hc, n_conn_setSlot] at h ⊢
          simp [Registry.n_conn, CONNCHUNK] at hnf ⊢
          omega
        · simp [hs, ha, realloc_conns, he, hc] at h
      · simp [hs, ha, realloc_conns, he] at h
  · have hf := scanFree_found r.conns 0 hs
    by_cases he : d.envRet = SQL_SUCCESS
    · by_cases hc : d.conRet = SQL_SUCCESS
      · simp [hs, he, hc, n_conn_setSlot] at h ⊢
        simp [Registry.n_conn] at hf ⊢
        omega
      · simp [hs, he, hc] at h
    · simp [hs, he] at h

theorem connect_alloc_n_conn (r : Registry) (d : ConnDriver) :
    (connect_alloc r d).reg.n_conn = r.n_conn ∨
      (connect_alloc r d).reg.n_conn = r.n_conn + CONNCHUNK := by
  unfold connect_alloc
  cases hs : (scanFree r.conns 0).2 <;> cases ha : d.allocOk <;>
    by_cases he : d.envRet = SQL_SUCCESS <;> by_cases hc : d.conRet = SQL_SUCCESS <;>
    simp [hs, ha, he, hc, realloc_conns, n_conn_setSlot] <;>
    simp [Registry.n_conn]

theorem connect_dsn_ok (r : Registry) (d : ConnDriver) (dsn uid pwd : String) (k : Int)
    (h : (connect_dsn r d dsn uid pwd).ret = .ok k) :
    ∃ i : Nat, k = (i : Int) ∧ (connect_alloc r d).ret = .ok i ∧
      (connect_dsn r d dsn uid pwd).reg =
        (connect_alloc r d).reg.setSlot i { (connect_alloc r d).reg.slot i with
          dsn := CStr.str dsn, uid := CStr.str uid, pwd := CStr.str pwd,
          connstr := CStr.null, connected := 1 } := by
  unfold connect_dsn at h ⊢
  cases ha : (connect_alloc r d).ret with
  | error e => simp [ha] at h
  | ok i =>
    by_cases hc : d.connectRet ≠ SQL_SUCCESS ∧ d.connectRet ≠ SQL_SUCCESS_WITH_INFO
    · simp [ha, hc] at h
    · simp only [ha, hc, if_false] at h ⊢
      refine ⟨i, ?_, rfl, rfl⟩
      injection h with h
      exact h.symm

theorem connect_connstr_ok (r : Registry) (d : ConnDriver) (connstr : String) (k : Int)
    (h : (connect_connstr r d connstr).ret = .ok k) :
    ∃ i : Nat, k = (i : Int) ∧ (connect_alloc r d).ret = .ok i ∧
      (connect_connstr r d connstr).reg =
        (connect_alloc r d).reg.setSlot i { (connect_alloc r d).reg.slot i with
          dsn := CStr.null, uid := CStr.null, pwd := CStr.null,
          connstr := CStr.str connstr, connected := 1 } := by
  unfold connect_connstr at h ⊢
  cases ha : (connect_alloc r d).ret with
  | error e => simp [ha] at h
  | ok i =>
    by_cases hc : d.connectRet ≠ SQL_SUCCESS ∧ d.connectRet ≠ SQL_SUCCESS_WITH_INFO
    · simp [ha, hc] at h
    · simp only [ha, hc, if_false] at h ⊢
      refine ⟨i, ?_, rfl, rfl⟩
      injection h with h
      exact h.symm

theorem connect_dsn_n_conn (r : Registry) (d : ConnDriver) (dsn uid pwd : String) :
    (connect_dsn r d dsn uid pwd).reg.n_conn = (connect_alloc r d).reg.n_conn := by
  unfold connect_dsn
  cases ha : (connect_alloc r d).ret with
  | error e => simp [ha]
  | ok i =>
    by_cases hc : d.connectRet ≠ SQL_SUCCESS ∧ d.connectRet ≠ SQL_SUCCESS_WITH_INFO
    · simp [ha, hc]
    · simp [ha, hc, n_conn_setSlot]

theorem connect_connstr_n_conn (r : Registry) (d : ConnDriver) (connstr : String) :
    (connect_connstr r d connstr).reg.n_conn = (connect_alloc r d).reg.n_conn := by
  unfold connect_connstr
  cases ha : (connect_alloc r d).ret with
  | error e => simp [ha]
  | ok i =>
    by_cases hc : d.connectRet ≠ SQL_SUCCESS ∧ d.connectRet ≠ SQL_SUCCESS_WITH_INFO
    · simp [ha, hc]
    · simp [ha, hc, n_conn_setSlot]

theorem disconnect_n_conn (r : Registry) (h : Int) :
    (odbclink_disconnect r h).reg.n_conn = r.n_conn := by
  unfold odbclink_disconnect
  dsimp only
  split_ifs
  · exact n_conn_setSlot _ _ _
  · rfl

theorem reachable_chunked (r : Registry) (hr : Reachable r) : CONNCHUNK ∣ r.n_conn := by
  induction hr with
  | init => simp [PG_init, Registry.n_conn]
  | dsn r d dsn uid pwd _ ih =>
    rw [connect_dsn_n_conn]
    rcases connect_alloc_n_conn r d with h | h <;> rw [h]
    · exact ih
    · exact Dvd.dvd.add ih (dvd_refl _)
  | connstr r d cs _ ih =>
    rw [connect_connstr_n_conn]
    rcases connect_alloc_n_conn r d with h | h <;> rw [h]
    · exact ih
    · exact Dvd.dvd.add ih (dvd_refl _)
  | disconnect r h _ ih =>
    rw [disconnect_n_conn]; exact ih

/-- The slot a successful `connect_alloc` picks, in the terms of the slot
policy: the lowest free slot with the table size unchanged, or the old table
size with the table one chunk longer. -/
theorem connect_alloc_policy (r : Registry) (d : ConnDriver) (i : Nat)
    (h : (connect_alloc r d).ret = .ok i) :
    ((∃ j, j < r.n_conn ∧ ¬ r.live j) →
        lowestFree r i ∧ (connect_alloc r d).reg.n_conn = r.n_conn) ∧
    ((∀ j, j < r.n_conn → r.live j) →
        i = r.n_conn ∧ (connect_alloc r d).reg.n_conn = r.n_conn + CONNCHUNK) ∧
    i < (connect_alloc r d).reg.n_conn := by
  obtain ⟨hi, hlt, hcase⟩ := connect_alloc_ok r d i h
  rcases hcase with ⟨hs, hn⟩ | ⟨hs, hn⟩
  · obtain ⟨_, h2, h3, h4⟩ := scanFree_found r.conns 0 hs
    have hlow : lowestFree r i := by
      subst hi
      refine ⟨by simpa [Registry.n_conn] using h2, by simpa [Registry.slot] using h3, ?_⟩
      intro j hj
      simpa [Registry.slot] using h4 j (by simpa using hj)
    refine ⟨fun _ => ⟨hlow, hn⟩, ?_, hlt⟩
    intro hall
    exact absurd hlow.2.1 (hall i hlow.1).2
  · obtain ⟨h1, h2⟩ := scanFree_not_found r.conns 0 hs
    refine ⟨?_, fun _ => ⟨by simpa [Registry.n_conn, hi] using h1, hn⟩, hlt⟩
    rintro ⟨j, hj, hnl⟩
    exact absurd ⟨hj, by simpa [Registry.slot] using h2 j hj⟩ hnl

theorem releasedReg_reachable : Reachable releasedReg :=
  Reachable.disconnect _ 1 (Reachable.dsn _ okDriver "a" "b" "c" Reachable.init)

/-- C2. In every registry state reachable by connect and disconnect calls the
table size is a multiple of `CONNCHUNK = 4`, and a successful `connect_dsn`
or `connect_connstr` returns the lowest index of a slot that is not live
whenever one exists, leaving the table size unchanged; when every slot is
live the table grows by exactly `CONNCHUNK` slots and the index returned is
the old table size. The size stays a multiple of 4 afterwards. -/
theorem connect_reuses_lowest_free_slot (r : Registry) (hr : Reachable r) (d : ConnDriver)
    (dsn uid pwd connstr : String) :
    CONNCHUNK = 4 ∧ CONNCHUNK ∣ r.n_conn ∧
    (∀ k : Int, (connect_dsn r d dsn uid pwd).ret = .ok k →
      ((∃ j, j < r.n_conn ∧ ¬ r.live j) →
        (∃ i : Nat, k = (i : Int) ∧ lowestFree r i) ∧
          (connect_dsn r d dsn uid pwd).reg.n_conn = r.n_conn) ∧
      ((∀ j, j < r.n_conn → r.live j) →
        k = (r.n_conn : Int) ∧
          (connect_dsn r d dsn uid pwd).reg.n_conn = r.n_conn + CONNCHUNK) ∧
      CONNCHUNK ∣ (connect_dsn r d dsn uid pwd).reg.n_conn) ∧
    (∀ k : Int, (connect_connstr r d connstr).ret = .ok k →
      ((∃ j, j < r.n_conn ∧ ¬ r.live j) →
        (∃ i : Nat, k = (i : Int) ∧ lowestFree r i) ∧
          (connect_connstr r d connstr).reg.n_conn = r.n_conn) ∧
      ((∀ j, j < r.n_conn → r.live j) →
        k = (r.n_conn : Int) ∧
          (connect_connstr r d connstr).reg.n_conn = r.n_conn + CONNCHUNK) ∧
      CONNCHUNK ∣ (connect_connstr r d connstr).reg.n_conn) := by
  refine ⟨rfl, reachable_chunked r hr, ?_, ?_⟩
  · intro k hk
    obtain ⟨i, hki, ha, _⟩ := connect_dsn_ok r d dsn uid pwd k hk
    obtain ⟨p1, p2, _⟩ := connect_alloc_policy r d i ha
    rw [connect_dsn_n_conn]
    refine ⟨fun hex => ⟨⟨i, hki, (p1 hex).1⟩, (p1 hex).2⟩, fun hall => ?_, ?_⟩
    · exact ⟨by rw [hki, (p2 hall).1], (p2 hall).2⟩
    · rw [← connect_dsn_n_conn r d dsn uid pwd]
      exact reachable_chunked _ (Reachable.dsn r d dsn uid pwd hr)
  · intro k hk
    obtain ⟨i, hki, ha, _⟩ := connect_connstr_ok r d connstr k hk
    obtain ⟨p1, p2, _⟩ := connect_alloc_policy r d i ha
    rw [connect_connstr_n_conn]
    refine ⟨fun hex => ⟨⟨i, hki, (p1 hex).1⟩, (p1 hex).2⟩, fun hall => ?_, ?_⟩
    · exact ⟨by rw [hki, (p2 hall).1], (p2 hall).2⟩
    · rw [← connect_connstr_n_conn r d connstr]
      exact reachable_chunked _ (Reachable.connstr r d connstr hr)

/-- Witness for C2: the slot policy at a registry whose only used slot was
released, under a driver that accepts every call. -/
theorem connect_reuses_lowest_free_slot_witness :
    Reachable releasedReg ∧
    (CONNCHUNK = 4 ∧ CONNCHUNK ∣ releasedReg.n_conn ∧
    (∀ k : Int, (connect_dsn releasedReg okDriver "d" "u" "p").ret = .ok k →
      ((∃ j, j < releasedReg.n_conn ∧ ¬ releasedReg.live j) →
        (∃ i : Nat, k = (i : Int) ∧ lowestFree releasedReg i) ∧
          (connect_dsn releasedReg okDriver "d" "u" "p").reg.n_conn = releasedReg.n_conn) ∧
      ((∀ j, j < releasedReg.n_conn → releasedReg.live j) →
        k = (releasedReg.n_conn : Int) ∧
          (connect_dsn releasedReg okDriver "d" "u" "p").reg.n_conn =
            releasedReg.n_conn + CONNCHUNK) ∧
      CONNCHUNK ∣ (connect_dsn releasedReg okDriver "d" "u" "p").reg.n_conn) ∧
    (∀ k : Int, (connect_connstr releasedReg okDriver "DSN=test").ret = .ok k →
      ((∃ j, j < releasedReg.n_conn ∧ ¬ releasedReg.live j) →
        (∃ i : Nat, k = (i : Int) ∧ lowestFree releasedReg i) ∧
          (connect_connstr releasedReg okDriver "DSN=test").reg.n_conn = releasedReg.n_conn) ∧
      ((∀ j, j < releasedReg.n_conn → releasedReg.live j) →
        k = (releasedReg.n_conn : Int) ∧
          (connect_connstr releasedReg okDriver "DSN=test").reg.n_conn =
            releasedReg.n_conn + CONNCHUNK) ∧
      CONNCHUNK ∣ (connect_connstr releasedReg okDriver "DSN=test").reg.n_conn)) :=
  ⟨releasedReg_reachable,
    connect_reuses_lowest_free_slot releasedReg releasedReg_reachable okDriver "d" "u" "p"
      "DSN=test"⟩

/-- On the released registry a connect really succeeds, reuses slot 0 and
keeps the table at four slots. -/
theorem connect_on_releasedReg :
    releasedReg.n_conn = 4 ∧ ¬ releasedReg.live 0 ∧
    (connect_dsn releasedReg okDriver "d" "u" "p").ret = .ok 0 ∧
    (connect_dsn releasedReg okDriver "d" "u" "p").reg.n_conn = 4 ∧
    (connect_dsn PG_init okDriver "d" "u" "p").ret = .ok 0 ∧
    (connect_dsn PG_init okDriver "d" "u" "p").reg.n_conn = 4 := by
  refine ⟨by decide, by decide, rfl, by decide, rfl, by decide⟩

/-! ### Lookup -/

theorem slotShape_zeroConn : slotShape zeroConn := Or.inl rfl

theorem shape_slot (r : Registry) (h : ∀ c ∈ r.conns, slotShape c) (i : Nat) :
    slotShape (r.slot i) := by
  unfold Registry.slot
  by_cases hi : i < r.conns.length
  · rw [List.getD_eq_getElem _ _ hi]
    exact h _ (List.getElem_mem hi)
  · rw [List.getD_eq_default _ _ (by omega)]
    exact slotShape_zeroConn

theorem shape_setSlot (r : Registry) (h : ∀ c ∈ r.conns, slotShape c) (i : Nat) (c0 : odbcconn)
    (h0 : slotShape c0) : ∀ c ∈ (r.setSlot i c0).conns, slotShape c := by
  intro c hc
  rcases List.mem_or_eq_of_mem_set hc with hm | he
  · exact h c hm
  · rw [he]; exact h0

theorem shape_handles (c : odbcconn) (h : slotShape c) (e k : Nat) :
    slotShape { c with hEnv := e } ∧ slotShape { c with hCon := k } := by
  constructor <;> exact h

theorem shape_realloc (r : Registry) (h : ∀ c ∈ r.conns, slotShape c) (b : Bool) :
    ∀ c ∈ (realloc_conns r b).2.conns, slotShape c := by
  unfold realloc_conns
  cases b
  · simpa using h
  · intro c hc
    simp only [if_true, List.mem_append] at hc
    rcases hc with hc | hc
    · exact h c hc
    · rw [List.eq_of_mem_replicate hc]; exact slotShape_zeroConn

theorem connect_alloc_shape (r : Registry) (d : ConnDriver) (h : ∀ c ∈ r.conns, slotShape c) :
    ∀ c ∈ (connect_alloc r d).reg.conns, slotShape c := by
  have key : ∀ r1 : Registry, (∀ c ∈ r1.conns, slotShape c) → ∀ i,
      (∀ c ∈ (r1.setSlot i { r1.slot i with hEnv := d.hEnv }).conns, slotShape c) ∧
      (∀ c ∈ ((r1.setSlot i { r1.slot i with hEnv := d.hEnv }).setSlot i
          { (r1.setSlot i { r1.slot i with hEnv := d.hEnv }).slot i with hCon := d.hCon }).conns,
        slotShape c) := by
    intro r1 h1 i
    have a := shape_setSlot r1 h1 i _ (shape_handles _ (shape_slot r1 h1 i) d.hEnv 0).1
    exact ⟨a, shape_setSlot _ a i _ (shape_handles _ (shape_slot _ a i) 0 d.hCon).2⟩
  have hre := shape_realloc r h d.allocOk
  unfold connect_alloc
  dsimp only
  cases hs : (scanFree r.conns 0).2
  · simp only [Bool.false_eq_true, if_false]
    split_ifs
    · exact h
    · exact (key _ hre _).1
    · exact (key _ hre _).2
    · exact (key _ hre _).2
  · simp only [if_true]
    split_ifs
    · exact h
    · exact (key _ h _).1
    · exact (key _ h _).2
    · exact (key _ h _).2

theorem reachable_shape (r : Registry) (hr : Reachable r) : ∀ c ∈ r.conns, slotShape c := by
  induction hr with
  | init => simp [PG_init]
  | dsn r d dsn uid pwd _ ih =>
    have ha := connect_alloc_shape r d ih
    unfold connect_dsn
    dsimp only
    cases hret : (connect_alloc r d).ret with
    | error e => simpa [hret] using ha
    | ok i =>
      simp only [hret]
      split_ifs
      · exact ha
      · exact shape_setSlot _ ha i _ (Or.inr (Or.inl ⟨⟨dsn, uid, pwd, rfl, rfl, rfl⟩, rfl⟩))
  | connstr r d cs _ ih =>
    have ha := connect_alloc_shape r d ih
    unfold connect_connstr
    dsimp only
    cases hret : (connect_alloc r d).ret with
    | error e => simpa [hret] using ha
    | ok i =>
      simp only [hret]
      split_ifs
      · exact ha
      · exact shape_setSlot _ ha i _ (Or.inr (Or.inr ⟨rfl, rfl, rfl, cs, rfl⟩))
  | disconnect r h _ ih =>
    unfold odbclink_disconnect
    dsimp only
    split_ifs
    · exact shape_setSlot _ ih _ _ (Or.inl rfl)
    · exact ih

theorem findFrom_congr (m m' : odbcconn → Option Bool) (l : List odbcconn) (i : Int)
    (h : ∀ c ∈ l, m c = m' c) : findFrom m l i = findFrom m' l i := by
  induction l generalizing i with
  | nil => rfl
  | cons c cs ih =>
    have hc := h c (List.mem_cons_self c cs)
    have ih' := ih (i + 1) (fun x hx => h x (List.mem_cons_of_mem c hx))
    simp only [findFrom, hc, ih']

theorem findFrom_total (p : odbcconn → Bool) (l : List odbcconn) (i : Int) :
    ∃ k, findFrom (fun c => some (p c)) l i = some k ∧
      ((k = -1 ∧ ∀ n, n < l.length → p (l.getD n zeroConn) = false) ∨
       (∃ n : Nat, n < l.length ∧ k = i + (n : Int) ∧ p (l.getD n zeroConn) = true)) := by
  induction l generalizing i with
  | nil => exact ⟨-1, rfl, Or.inl ⟨rfl, by simp⟩⟩
  | cons c cs ih =>
    cases hp : p c
    · obtain ⟨k, hk, hcase⟩ := ih (i + 1)
      refine ⟨k, by simp only [findFrom, hp, hk], ?_⟩
      rcases hcase with ⟨h1, h2⟩ | ⟨n, hn, hkn, hpn⟩
      · refine Or.inl ⟨h1, ?_⟩
        intro n hn
        cases n with
        | zero => simpa using hp
        | succ n => simpa using h2 n (by simpa using hn)
      · refine Or.inr ⟨n + 1, by simpa using hn, ?_, by simpa using hpn⟩
        rw [hkn]; push_cast; ring
    · exact ⟨i, by simp only [findFrom, hp], Or.inr ⟨0, by simp, by simp, by simpa using hp⟩⟩

theorem matchDsn_of_shape (c : odbcconn) (h : slotShape c) (dsn uid pwd : String) :
    matchDsn c dsn uid pwd =
      some (decide (c.connected ≠ 0 ∧ c.dsn = CStr.str dsn ∧ c.uid = CStr.str uid ∧
        c.pwd = CStr.str pwd)) := by
  unfold matchDsn
  by_cases h0 : c.connected = 0
  · simp [h0]
  · rcases h with h | ⟨⟨a, b, q, ha, hb, hq⟩, _⟩ | ⟨hd, _, _, _⟩
    · exact absurd h h0
    · simp only [h0, if_false, ha, hb, hq, strEq]
      by_cases e1 : a = dsn <;> by_cases e2 : b = uid <;> by_cases e3 : q = pwd <;>
        simp [e1, e2, e3, h0]
    · simp [h0, hd]

theorem matchConnstr_of_shape (c : odbcconn) (h : slotShape c) (connstr : String) :
    matchConnstr c connstr =
      some (decide (c.connected ≠ 0 ∧ c.connstr = CStr.str connstr)) := by
  unfold matchConnstr
  by_cases h0 : c.connected = 0
  · simp [h0]
  · rcases h with h | ⟨_, hn⟩ | ⟨_, _, _, t, ht⟩
    · exact absurd h h0
    · simp [h0, hn]
    · simp only [h0, if_false, ht, strEq]
      by_cases e1 : t = connstr <;> simp [e1, h0]

/-- What the shared scan returns for a decidable slot test `p`: `-1` exactly
when no slot of the table passes, otherwise the index of a slot that
passes. -/
theorem findFrom_index (p : odbcconn → Bool) (r : Registry) :
    ∃ k : Int, findFrom (fun c => some (p c)) r.conns 0 = some k ∧
      (k = -1 ∨ (0 ≤ k ∧ k < (r.n_conn : Int) ∧ p (r.slot k.toNat) = true)) ∧
      (k = -1 ↔ ¬ ∃ j, j < r.n_conn ∧ p (r.slot j) = true) := by
  obtain ⟨k, hk, hcase⟩ := findFrom_total p r.conns 0
  refine ⟨k, hk, ?_, ?_⟩
  · rcases hcase with ⟨h1, _⟩ | ⟨n, hn, hkn, hpn⟩
    · exact Or.inl h1
    · refine Or.inr ⟨by omega, by simp only [Registry.n_conn]; omega, ?_⟩
      have : k.toNat = n := by omega
      rw [this]; exact hpn
  · rcases hcase with ⟨h1, h2⟩ | ⟨n, hn, hkn, hpn⟩
    · refine ⟨fun _ => ?_, fun _ => h1⟩
      rintro ⟨j, hj, hpj⟩
      have := h2 j hj
      simp only [Registry.slot] at hpj
      rw [this] at hpj
      exact Bool.noConfusion hpj
    · refine ⟨fun hneg => ?_, fun hno => ?_⟩
      · omega
      · exact absurd ⟨n, hn, hpn⟩ hno

/-- C3. In every registry state the program can be in, `find_conn_dsn`
returns either `-1` or an index inside the table whose slot is live and
stores exactly the three arguments, and it returns `-1` exactly when no live
slot stores that triple; `find_conn_connstr` does the same for the stored
connection string. Neither returns the index of a slot that is not live. -/
theorem find_conn_returns_live_match (r : Registry) (hr : Reachable r)
    (dsn uid pwd connstr : String) :
    (∃ k : Int, find_conn_dsn r dsn uid pwd = some k ∧
      (k = -1 ∨ (0 ≤ k ∧ k < (r.n_conn : Int) ∧ r.live k.toNat ∧
        (r.slot k.toNat).dsn = CStr.str dsn ∧ (r.slot k.toNat).uid = CStr.str uid ∧
        (r.slot k.toNat).pwd = CStr.str pwd)) ∧
      (k = -1 ↔ ¬ hasTriple r dsn uid pwd)) ∧
    (∃ k : Int, find_conn_connstr r connstr = some k ∧
      (k = -1 ∨ (0 ≤ k ∧ k < (r.n_conn : Int) ∧ r.live k.toNat ∧
        (r.slot k.toNat).connstr = CStr.str connstr)) ∧
      (k = -1 ↔ ¬ hasConnstr r connstr)) := by
  have hs := reachable_shape r hr
  constructor
  · obtain ⟨k, hk, h1, h2⟩ := findFrom_index
      (fun c => decide (c.connected ≠ 0 ∧ c.dsn = CStr.str dsn ∧ c.uid = CStr.str uid ∧
        c.pwd = CStr.str pwd)) r
    refine ⟨k, ?_, ?_, ?_⟩
    · unfold find_conn_dsn
      rw [findFrom_congr _ _ _ _ (fun c hc => matchDsn_of_shape c (hs c hc) dsn uid pwd)]
      exact hk
    · rcases h1 with h1 | ⟨a, b, hp⟩
      · exact Or.inl h1
      · simp only [decide_eq_true_eq] at hp
        exact Or.inr ⟨a, b, ⟨by omega, hp.1⟩, hp.2⟩
    · rw [h2]
      apply not_congr
      constructor
      · rintro ⟨j, hj, hp⟩
        simp only [decide_eq_true_eq] at hp
        exact ⟨j, ⟨hj, hp.1⟩, hp.2⟩
      · rintro ⟨j, ⟨hj, hl⟩, hp⟩
        exact ⟨j, hj, by simp only [decide_eq_true_eq]; exact ⟨hl, hp⟩⟩
  · obtain ⟨k, hk, h1, h2⟩ := findFrom_index
      (fun c => decide (c.connected ≠ 0 ∧ c.connstr = CStr.str connstr)) r
    refine ⟨k, ?_, ?_, ?_⟩
    · unfold find_conn_connstr
      rw [findFrom_congr _ _ _ _ (fun c hc => matchConnstr_of_shape c (hs c hc) connstr)]
      exact hk
    · rcases h1 with h1 | ⟨a, b, hp⟩
      · exact Or.inl h1
      · simp only [decide_eq_true_eq] at hp
        exact Or.inr ⟨a, b, ⟨by omega, hp.1⟩, hp.2⟩
    · rw [h2]
      apply not_congr
      constructor
      · rintro ⟨j, hj, hp⟩
        simp only [decide_eq_true_eq] at hp
        exact ⟨j, ⟨hj, hp.1⟩, hp.2⟩
      · rintro ⟨j, ⟨hj, hl⟩, hp⟩
        exact ⟨j, hj, by simp only [decide_eq_true_eq]; exact ⟨hl, hp⟩⟩

theorem liveReg_reachable : Reachable liveReg :=
  Reachable.dsn _ okDriver "a" "b" "c" Reachable.init

/-- Witness for C3: the lookup at a registry with one live slot, asked for the
triple that slot stores and for a connection string no slot stores. -/
theorem find_conn_returns_live_match_witness :
    Reachable liveReg ∧
    ((∃ k : Int, find_conn_dsn liveReg "a" "b" "c" = some k ∧
      (k = -1 ∨ (0 ≤ k ∧ k < (liveReg.n_conn : Int) ∧ liveReg.live k.toNat ∧
        (liveReg.slot k.toNat).dsn = CStr.str "a" ∧ (liveReg.slot k.toNat).uid = CStr.str "b" ∧
        (liveReg.slot k.toNat).pwd = CStr.str "c")) ∧
      (k = -1 ↔ ¬ hasTriple liveReg "a" "b" "c")) ∧
    (∃ k : Int, find_conn_connstr liveReg "DSN=test" = some k ∧
      (k = -1 ∨ (0 ≤ k ∧ k < (liveReg.n_conn : Int) ∧ liveReg.live k.toNat ∧
        (liveReg.slot k.toNat).connstr = CStr.str "DSN=test")) ∧
      (k = -1 ↔ ¬ hasConnstr liveReg "DSN=test"))) :=
  ⟨liveReg_reachable,
    find_conn_returns_live_match liveReg liveReg_reachable "a" "b" "c" "DSN=test"⟩

/-- The lookup evaluated: the live slot is found by its triple, a wrong
password or a connection string finds nothing, and after the disconnect the
released slot is no longer returned. -/
theorem find_conn_evaluated :
    find_conn_dsn liveReg "a" "b" "c" = some 0 ∧
    find_conn_dsn liveReg "a" "b" "x" = some (-1) ∧
    find_conn_connstr liveReg "DSN=test" = some (-1) ∧
    find_conn_dsn releasedReg "a" "b" "c" = some (-1) := by
  refine ⟨by decide, by decide, by decide, by decide⟩

/-! ### Disconnect -/

/-- What `odbclink_disconnect` does to a live slot, for every registry: it
returns normally, the slot is no longer live, the other slots are untouched,
and each string pointer of the slot is what `pfree` leaves: `NULL` only when
it was `NULL` before. -/
theorem disconnect_live_slot (r : Registry) (i : Nat) (h : r.live i) :
    (odbclink_disconnect r ((i : Int) + 1)).ret = .ok () ∧
    ¬ (odbclink_disconnect r ((i : Int) + 1)).reg.live i ∧
    ((odbclink_disconnect r ((i : Int) + 1)).reg.slot i).dsn = pfreeField (r.slot i).dsn ∧
    ((odbclink_disconnect r ((i : Int) + 1)).reg.slot i).uid = pfreeField (r.slot i).uid ∧
    ((odbclink_disconnect r ((i : Int) + 1)).reg.slot i).pwd = pfreeField (r.slot i).pwd ∧
    ((odbclink_disconnect r ((i : Int) + 1)).reg.slot i).connstr =
      pfreeField (r.slot i).connstr := by
  have hc : ((i : Int) + 1 - 1 ≥ 0 ∧ (i : Int) + 1 - 1 < (r.n_conn : Int) ∧
      (r.slot ((i : Int) + 1 - 1).toNat).connected ≠ 0) := by
    have e : ((i : Int) + 1 - 1).toNat = i := by omega
    rw [e]
    exact ⟨by omega, by have := h.1; omega, h.2⟩
  have e : ((i : Int) + 1 - 1).toNat = i := by omega
  unfold odbclink_disconnect
  dsimp only
  rw [if_neg (not_not.mpr hc), e]
  dsimp only
  rw [slot_setSlot_same r i _ h.1]
  refine ⟨rfl, ?_, rfl, rfl, rfl, rfl⟩
  rintro ⟨_, h2⟩
  rw [slot_setSlot_same r i _ h.1] at h2
  exact h2 rfl

/-- C10, the code at the failing input: a slot connected with the triple
`("a", "b", "c")` and then disconnected is no longer live, but its `dsn`,
`uid` and `pwd` pointers are not `NULL` (they point at freed memory), and
the connection listing reports these three columns as not null. -/
theorem disconnect_keeps_identity_pointers :
    (odbclink_disconnect liveReg 1).ret = .ok () ∧
    ¬ (odbclink_disconnect liveReg 1).reg.live 0 ∧
    ((odbclink_disconnect liveReg 1).reg.slot 0).dsn = CStr.freed ∧
    ((odbclink_disconnect liveReg 1).reg.slot 0).uid = CStr.freed ∧
    ((odbclink_disconnect liveReg 1).reg.slot 0).pwd = CStr.freed ∧
    ((odbclink_disconnect liveReg 1).reg.slot 0).connstr = CStr.null ∧
    (odbclink_connections (odbclink_disconnect liveReg 1).reg).head? =
      some { handle := 1, connected := false, dsnNull := false, uidNull := false,
             pwdNull := false, connstrNull := true } := by
  refine ⟨rfl, by decide, by decide, by decide, by decide, by decide, by decide⟩

/-! ## Theorems: schema compatibility -/

/-- The host types the policy table allows for a remote tag other than CHAR
and VARCHAR: what a passing column satisfies. `pgver` as in `colCompat`. -/
theorem colCompat_policy (pgver : Nat) (type : Int) (columnsz : Nat) (typeoid : Nat)
    (typemod : Int) (h : colCompat pgver type columnsz typeoid typemod = true) :
    (type = SQL_LONGVARCHAR → typeoid = TEXTOID) ∧
    (type = SQL_SMALLINT → typeoid = INT2OID ∨ typeoid = INT4OID ∨ typeoid = INT8OID) ∧
    (type = SQL_INTEGER → typeoid = INT4OID ∨ typeoid = INT8OID) ∧
    (type = SQL_BIGINT → typeoid = INT8OID) ∧
    (type = SQL_NUMERIC ∨ type = SQL_DECIMAL →
      typeoid = NUMERICOID ∨ typeoid = INT2OID ∨ typeoid = INT4OID ∨ typeoid = INT8OID) ∧
    (type = SQL_FLOAT ∨ type = SQL_REAL → typeoid = FLOAT4OID) ∧
    (type = SQL_DOUBLE → typeoid = FLOAT8OID) ∧
    (type = SQL_DATE → typeoid = DATEOID) ∧
    (type = SQL_TIME → typeoid = TIMEOID ∨ typeoid = TIMETZOID) ∧
    (type = SQL_TIMESTAMP → typeoid = TIMESTAMPOID ∨ typeoid = TIMESTAMPTZOID) ∧
    (type = SQL_BIT → typeoid = BOOLOID) ∧
    (type = SQL_BINARY ∨ type = SQL_VARBINARY ∨ type = SQL_LONGVARBINARY →
      typeoid = BYTEAOID) := by
  unfold colCompat at h
  simp only [SQL_CHAR, SQL_VARCHAR, SQL_LONGVARCHAR, SQL_NUMERIC, SQL_DECIMAL, SQL_BIGINT,
    SQL_INTEGER, SQL_SMALLINT, SQL_FLOAT, SQL_REAL, SQL_DOUBLE, SQL_DATE, SQL_TIME,
    SQL_TIMESTAMP, SQL_BINARY, SQL_VARBINARY, SQL_LONGVARBINARY, SQL_BIT] at h ⊢
  refine ⟨?_, ?_, ?_, ?_, ?_, ?_, ?_, ?_, ?_, ?_, ?_, ?_⟩ <;> intro ht <;>
    first
    | (subst ht; simp at h; omega)
    | (rcases ht with ht | ht <;> subst ht <;> simp at h <;> omega)
    | (rcases ht with ht | ht | ht <;> subst ht <;> simp at h <;> omega)

/-- For a text-like host type a CHAR or VARCHAR column passes whatever the
two declared sizes are: the size comparison sits in the branch for the host
types that are not text-like. -/
theorem colCompat_text_like (pgver : Nat) (type : Int) (columnsz : Nat) (typeoid : Nat)
    (typemod : Int) (ht : type = SQL_CHAR ∨ type = SQL_VARCHAR)
    (ho : typeoid = CHAROID ∨ typeoid = BPCHAROID ∨ typeoid = VARCHAROID ∨ typeoid = TEXTOID) :
    colCompat pgver type columnsz typeoid typemod = true := by
  unfold colCompat
  rw [if_pos ht, if_neg]
  rintro ⟨h1, h2, h3, h4⟩
  rcases ho with h | h | h | h
  · exact h1 h
  · exact h2 h
  · exact h3 h
  · exact h4 h

/-- C4, the code at the failing input: remote `[INTEGER, VARCHAR(10)]`
against expected `[int4, text with type modifier 5]` is accepted, and no
failing column is reported, for every `PG_VERSION_NUM`. -/
theorem compat_accepts_truncating_text (pgver : Nat) :
    compatTupleDescs pgver SQL_SUCCESS
      [{ type := SQL_INTEGER, columnsz := 10 }, { type := SQL_VARCHAR, columnsz := 10 }]
      [{ atttypid := INT4OID, atttypmod := -1 }, { atttypid := TEXTOID, atttypmod := 5 }] =
      { retval := true, notice := none } := by
  rfl

/-- C5, the code at the failing input: a remote `CHAR(10)` column against an
expected `int4` column is accepted, for every `PG_VERSION_NUM`. -/
theorem compat_accepts_char_into_int4 (pgver : Nat) :
    compatTupleDescs pgver SQL_SUCCESS [{ type := SQL_CHAR, columnsz := 10 }]
      [{ atttypid := INT4OID, atttypmod := -1 }] = { retval := true, notice := none } := by
  rfl

/-! ## Theorems: NUMERIC / DECIMAL into an integer host type -/

theorem digit_not_space (c : Char) (h : isDigitC c = true) : isSpaceC c = false := by
  simp only [isDigitC, isSpaceC, decide_eq_true_eq, decide_eq_false_iff_not] at h ⊢
  omega

theorem digit_not_sign (c : Char) (h : isDigitC c = true) : c ≠ '-' ∧ c ≠ '+' := by
  constructor <;> (intro e; subst e; simp [isDigitC] at h)

theorem takeWhile_digits (digits frac : List Char) (hd : ∀ c ∈ digits, isDigitC c = true)
    (hf : frac = [] ∨ ∃ fs, frac = '.' :: fs) :
    (digits ++ frac).takeWhile isDigitC = digits ∧
      (digits ++ frac).dropWhile isDigitC = frac := by
  induction digits with
  | nil =>
    rcases hf with hf | ⟨fs, hf⟩
    · subst hf; simp
    · subst hf
      have : isDigitC '.' = false := by decide
      simp [List.takeWhile, List.dropWhile, this]
  | cons c cs ih =>
    have hc := hd c (List.mem_cons_self c cs)
    obtain ⟨i1, i2⟩ := ih (fun x hx => hd x (List.mem_cons_of_mem c hx))
    simp [List.takeWhile, List.dropWhile, hc, i1, i2]

/-- `strtoll` on a decimal text: an optional sign, at least one digit, and
then nothing or a part that starts with the decimal point. The value is the
integer part clamped to 64 bits, and `endptr` is left at that last part. -/
theorem strtoll_decimal (sign digits frac : List Char)
    (hs : sign = [] ∨ sign = ['-'] ∨ sign = ['+'])
    (hne : digits ≠ []) (hd : ∀ c ∈ digits, isDigitC c = true)
    (hf : frac = [] ∨ ∃ fs, frac = '.' :: fs) :
    strtoll (sign ++ digits ++ frac) =
      (max LLONG_MIN (min LLONG_MAX (intPart sign digits)), frac) := by
  obtain ⟨t1, t2⟩ := takeWhile_digits digits frac hd hf
  obtain ⟨c, cs, hcs⟩ := List.exists_cons_of_ne_nil hne
  have hc : isDigitC c = true := hd c (by rw [hcs]; exact List.mem_cons_self c cs)
  have hsp := digit_not_space c hc
  obtain ⟨hm, hp⟩ := digit_not_sign c hc
  rcases hs with hs | hs | hs
  · subst hs
    have e1 : ([] ++ digits ++ frac).dropWhile isSpaceC = digits ++ frac := by
      rw [hcs]; simp [List.dropWhile, hsp]
    have e2 : (digits ++ frac).head? = some c := by rw [hcs]; rfl
    unfold strtoll
    simp only [e1, e2, Option.some.injEq, hm, hp, or_self, if_false, t1, t2, hne, intPart]
    simp
  · subst hs
    have e1 : (['-'] ++ digits ++ frac).dropWhile isSpaceC = '-' :: (digits ++ frac) := by
      have : isSpaceC '-' = false := by decide
      simp [List.dropWhile, this]
    unfold strtoll
    simp only [e1, List.head?_cons, List.tail_cons, true_or, if_true, t1, t2, hne, if_false,
      intPart]
  · subst hs
    have e1 : (['+'] ++ digits ++ frac).dropWhile isSpaceC = '+' :: (digits ++ frac) := by
      have : isSpaceC '+' = false := by decide
      simp [List.dropWhile, this]
    have e3 : ¬ (some '+' = some '-') := by decide
    have e4 : ¬ (['+'] = ['-']) := by decide
    unfold strtoll
    simp only [e1, List.head?_cons, List.tail_cons, or_true, if_true, t1, t2, hne, if_false,
      intPart, e3, e4]

theorem wrapSigned_16 (v : Int) (h1 : -32768 ≤ v) (h2 : v < 32768) : wrapSigned 16 v = v := by
  unfold wrapSigned
  norm_num
  omega

theorem wrapSigned_32 (v : Int) (h1 : -2147483648 ≤ v) (h2 : v < 2147483648) :
    wrapSigned 32 v = v := by
  unfold wrapSigned
  norm_num
  omega

/-- The integer case of NUMERIC / DECIMAL on a decimal text whose integer
part fits the host type: the value is that integer part. -/
theorem numericToInt_in_range (typeoid : Nat) (sign digits frac : List Char)
    (ho : typeoid = INT2OID ∨ typeoid = INT4OID ∨ typeoid = INT8OID)
    (hs : sign = [] ∨ sign = ['-'] ∨ sign = ['+'])
    (hne : digits ≠ []) (hd : ∀ c ∈ digits, isDigitC c = true)
    (hf : frac = [] ∨ ∃ fs, frac = '.' :: fs)
    (hlo : -(2 : Int) ^ (intBits typeoid - 1) ≤ intPart sign digits)
    (hhi : intPart sign digits < (2 : Int) ^ (intBits typeoid - 1)) :
    numericToInt typeoid (sign ++ digits ++ frac) =
      .ok (some (intDatum typeoid (intPart sign digits))) := by
  unfold numericToInt
  rw [strtoll_decimal sign digits frac hs hne hd hf]
  rcases ho with ho | ho | ho
  · subst ho
    simp only [intBits, INT2OID, if_true] at hlo hhi
    norm_num at hlo hhi
    have hv : max LLONG_MIN (min LLONG_MAX (intPart sign digits)) = intPart sign digits := by
      simp only [LLONG_MIN, LLONG_MAX]; omega
    simp only [hv, INT2OID, INT4OID, INT8OID, intDatum, SHRT_MAX]
    norm_num
    rw [if_neg (by omega), wrapSigned_16 _ hlo hhi]
  · subst ho
    simp only [intBits, INT2OID, INT4OID] at hlo hhi
    norm_num at hlo hhi
    have hv : max LLONG_MIN (min LLONG_MAX (intPart sign digits)) = intPart sign digits := by
      simp only [LLONG_MIN, LLONG_MAX]; omega
    simp only [hv, INT2OID, INT4OID, INT8OID, intDatum, INT_MAX]
    norm_num
    rw [if_neg (by omega), wrapSigned_32 _ hlo hhi]
  · subst ho
    simp only [intBits, INT2OID, INT4OID, INT8OID] at hlo hhi
    norm_num at hlo hhi
    have hv : max LLONG_MIN (min LLONG_MAX (intPart sign digits)) = intPart sign digits := by
      simp only [LLONG_MIN, LLONG_MAX]; omega
    simp only [hv, INT2OID, INT4OID, INT8OID, intDatum]
    norm_num
    rcases hf with hf | ⟨fs, hf⟩ <;> subst hf <;> simp

/-! ## Theorems: chunked retrieval -/

theorem writeAt_end (content data : List Char) (k : Nat) (h : data.length ≤ k) :
    writeAt (content.map some ++ List.replicate k none) (content.length : Int) data =
      some ((content ++ data).map some ++ List.replicate (k - data.length) none) := by
  unfold writeAt
  have h1 : ¬ ((content.length : Int) < 0) := by omega
  have h2 : ¬ ((content.length : Int).toNat + data.length >
      (content.map some ++ List.replicate k (none : Cell)).length) := by
    simp; omega
  rw [if_neg h1, if_neg h2]
  have e1 : (content.length : Int).toNat = content.length := by simp
  rw [e1]
  congr 1
  have t1 : List.take content.length (content.map some ++ List.replicate k (none : Cell)) =
      content.map some := by
    rw [List.take_append_of_le_length (by simp)]
    rw [List.take_of_length_le (by simp)]
  have t2 : List.drop (content.length + data.length)
      (content.map some ++ List.replicate k (none : Cell)) =
      List.replicate (k - data.length) none := by
    rw [List.drop_append_eq_append_drop]
    simp
  rw [t1, t2]
  simp

theorem charLoop_step_full (chunk : Nat) (f : CharResp) (rest : List CharResp)
    (hf : fullChunk chunk f) (content : List Char) (ret ind : Int) (req : Nat)
    (hret : ret ≠ SQL_NO_DATA) :
    charLoop chunk (f :: rest)
      { ret := ret, size_ind := ind, buf := content.map some ++ List.replicate chunk none,
        char_len := content.length + chunk, char_pos := (content.length : Int),
        requests := req } =
    charLoop chunk rest
      { ret := f.ret, size_ind := (chunk : Int),
        buf := (content ++ f.data).map some ++ List.replicate chunk none,
        char_len := (content ++ f.data).length + chunk,
        char_pos := ((content ++ f.data).length : Int), requests := req + 1 } := by
  obtain ⟨h1, h2, h3⟩ := hf
  have hn : ¬ ((chunk : Int) = SQL_NULL_DATA) := by simp only [SQL_NULL_DATA]; omega
  rw [charLoop]
  simp only [hret, if_false]
  rw [writeAt_end content f.data chunk (le_of_eq h3)]
  simp only [h2, hn, h1, if_false, if_true]
  congr 1
  simp [h3]

theorem charLoop_fulls (chunk : Nat) (fulls rest : List CharResp)
    (hfull : ∀ f ∈ fulls, fullChunk chunk f) (content : List Char) (ret ind : Int) (req : Nat)
    (hret : ret ≠ SQL_NO_DATA) :
    ∃ ret' ind', ret' ≠ SQL_NO_DATA ∧
      charLoop chunk (fulls ++ rest)
        { ret := ret, size_ind := ind, buf := content.map some ++ List.replicate chunk none,
          char_len := content.length + chunk, char_pos := (content.length : Int),
          requests := req } =
      charLoop chunk rest
        { ret := ret', size_ind := ind',
          buf := (content ++ scriptData fulls).map some ++ List.replicate chunk none,
          char_len := (content ++ scriptData fulls).length + chunk,
          char_pos := ((content ++ scriptData fulls).length : Int),
          requests := req + fulls.length } := by
  induction fulls generalizing content ret ind req with
  | nil => exact ⟨ret, ind, hret, by simp [scriptData]⟩
  | cons f fs ih =>
    have hf := hfull f (List.mem_cons_self f fs)
    obtain ⟨ret', ind', hr', e⟩ := ih (fun x hx => hfull x (List.mem_cons_of_mem f hx))
      (content ++ f.data) f.ret (chunk : Int) (req + 1) hf.1
    refine ⟨ret', ind', hr', ?_⟩
    rw [List.cons_append, charLoop_step_full chunk f (fs ++ rest) hf content ret ind req hret, e]
    have e1 : scriptData (f :: fs) = f.data ++ scriptData fs := by simp [scriptData]
    rw [e1, ← List.append_assoc]
    congr 2
    simp only [List.length_cons]; omega

theorem charLoop_last (chunk : Nat) (hchunk : 0 < chunk) (l : CharResp) (hl : lastChunk chunk l)
    (content : List Char) (ret ind : Int) (req : Nat) (hret : ret ≠ SQL_NO_DATA) :
    0 < slack chunk l.data.length ∧
    charLoop chunk [l]
      { ret := ret, size_ind := ind, buf := content.map some ++ List.replicate chunk none,
        char_len := content.length + chunk, char_pos := (content.length : Int),
        requests := req } =
    some
      { ret := SQL_NO_DATA, size_ind := (l.data.length : Int),
        buf := (content ++ l.data).map some ++ List.replicate (slack chunk l.data.length) none,
        char_len := (content ++ l.data).length + slack chunk l.data.length,
        char_pos := ((content ++ l.data).length : Int), requests := req + 2 } := by
  obtain ⟨h1, h2, h3⟩ := hl
  by_cases hfull : l.data.length = chunk
  · have hs : slack chunk l.data.length = chunk := by simp [slack, hfull]
    rw [hs]
    refine ⟨hchunk, ?_⟩
    have hf : fullChunk chunk l := ⟨h1, by rw [h2, hfull], hfull⟩
    rw [charLoop_step_full chunk l [] hf content ret ind req hret, charLoop]
    simp only [h1, if_false, hfull]
  · have hs : slack chunk l.data.length = chunk - l.data.length := by simp [slack, hfull]
    rw [hs]
    refine ⟨by omega, ?_⟩
    have hn : ¬ ((l.data.length : Int) = SQL_NULL_DATA) := by
      simp only [SQL_NULL_DATA]; omega
    have hc : ¬ ((l.data.length : Int) = (chunk : Int)) := by omega
    rw [charLoop]
    simp only [hret, if_false]
    rw [writeAt_end content l.data chunk h3]
    simp only [h2, hn, h1, hc, if_false]
    rw [charLoop]
    simp only [h1, if_false]
    congr 2
    · simp; omega
    · simp

/-- Chunked retrieval of a value delivered as full chunks followed by a last
chunk, each reporting its own length: `get_char_data` returns, the buffer
holds the chunks in order followed by a NUL, the value is not null, one more
request than there are chunks was made, and the caller's length variable
holds the number of characters when it was not 0 on entry; it is left alone
when it was 0. -/
theorem get_char_data_chunks (chunk : Nat) (hchunk : 0 < chunk) (fulls : List CharResp)
    (l : CharResp) (hfull : ∀ f ∈ fulls, fullChunk chunk f) (hl : lastChunk chunk l)
    (ind0 len0 : Int) :
    get_char_data chunk (fulls ++ [l]) ind0 len0 = some
      { ret := SQL_NO_DATA,
        value := (scriptData (fulls ++ [l])).map some ++
          some (Char.ofNat 0) :: List.replicate (slack chunk l.data.length - 1) none,
        length := if len0 ≠ 0 then ((scriptData (fulls ++ [l])).length : Int) else len0,
        isnull := false,
        requests := fulls.length + 2 } := by
  obtain ⟨ret', ind', hr', e1⟩ := charLoop_fulls chunk fulls [l] hfull [] SQL_SUCCESS ind0 0
    (by decide)
  obtain ⟨hk, e2⟩ := charLoop_last chunk hchunk l hl ([] ++ scriptData fulls) ret' ind'
    (0 + fulls.length) hr'
  have e0 : scriptData (fulls ++ [l]) = [] ++ scriptData fulls ++ l.data := by
    simp [scriptData]
  unfold get_char_data
  simp only [List.map_nil, List.nil_append, List.length_nil, Nat.zero_add, Nat.cast_zero] at e1 e2
  simp only [e1, e2]
  rw [e0]
  simp only [List.nil_append]
  have hne : ¬ (((scriptData fulls ++ l.data).length : Int) =
      (((scriptData fulls ++ l.data).length + slack chunk l.data.length : Nat) : Int)) := by
    push_cast; omega
  rw [if_neg hne]
  have hw := writeAt_end (scriptData fulls ++ l.data) [Char.ofNat 0] (slack chunk l.data.length)
    (by simpa using hk)
  rw [hw]
  have hn : ¬ ((l.data.length : Int) = SQL_NULL_DATA) := by
    simp only [SQL_NULL_DATA]; omega
  simp [hn]

theorem cstring_terminated (text : List Char) (tail : List Cell)
    (h : ∀ c ∈ text, c ≠ Char.ofNat 0) :
    cstring (text.map some ++ some (Char.ofNat 0) :: tail) = some text := by
  induction text with
  | nil => simp [cstring]
  | cons c cs ih =>
    have hc := h c (List.mem_cons_self c cs)
    have ih' := ih (fun x hx => h x (List.mem_cons_of_mem c hx))
    simp [cstring, hc, ih']

/-! ## Theorems: `get_data` on NUMERIC / DECIMAL -/

/-- C6. For a NUMERIC or DECIMAL column and an integer host type, when the
text `get_char_data` retrieved is an optional sign, at least one decimal
digit and then nothing or a part that starts with the decimal point, and the
integer part lies within the range of the host type, `get_data` returns that
integer part as the host value (not null): what follows the decimal point is
ignored. -/
theorem numeric_text_yields_integer_part (pgver chunk : Nat) (host : HostIn) (d : CellDriver)
    (typeoid : Nat) (typemod : Int) (res : CharResult) (sign digits frac : List Char)
    (hdesc : SQL_SUCCEEDED d.describeRet = true)
    (htype : d.type = SQL_NUMERIC ∨ d.type = SQL_DECIMAL)
    (ho : typeoid = INT2OID ∨ typeoid = INT4OID ∨ typeoid = INT8OID)
    (hget : get_char_data chunk d.chars d.ind0 0 = some res)
    (hnn : res.isnull = false)
    (htext : cstring res.value = some (sign ++ digits ++ frac))
    (hs : sign = [] ∨ sign = ['-'] ∨ sign = ['+'])
    (hne : digits ≠ []) (hd : ∀ c ∈ digits, isDigitC c = true)
    (hf : frac = [] ∨ ∃ fs, frac = '.' :: fs ∧ ∀ c ∈ fs, isDigitC c = true)
    (hlo : -(2 : Int) ^ (intBits typeoid - 1) ≤ intPart sign digits)
    (hhi : intPart sign digits < (2 : Int) ^ (intBits typeoid - 1)) :
    get_data pgver chunk host d typeoid typemod =
      .ok { value := some (intDatum typeoid (intPart sign digits)), isnull := some false } := by
  have hf' : frac = [] ∨ ∃ fs, frac = '.' :: fs := by
    rcases hf with hf | ⟨fs, hf, _⟩
    · exact Or.inl hf
    · exact Or.inr ⟨fs, hf⟩
  have hnum := numericToInt_in_range typeoid sign digits frac ho hs hne hd hf' hlo hhi
  have h1 : d.type ≠ SQL_SMALLINT := by
    rcases htype with h | h <;> rw [h] <;> decide
  have h2 : ¬ (d.type = SQL_INTEGER ∨ d.type = SQL_BIT) := by
    rcases htype with h | h <;> rw [h] <;> decide
  have h3 : d.type ≠ SQL_BIGINT := by
    rcases htype with h | h <;> rw [h] <;> decide
  unfold get_data numericIntCase
  simp only [hdesc, not_true_eq_false, if_false, h1, h2, h3, htype, ho, and_self, if_true, hget,
    hnn, htext, hnum, Bool.false_eq_true]

/-- `get_data` against a driver that delivers a NUMERIC text in one chunk,
for an integer host type: the outcome is that of the integer case on that
text. -/
theorem get_data_numericCell (pgver chunk : Nat) (host : HostIn) (text : List Char)
    (typeoid : Nat) (typemod : Int)
    (ho : typeoid = INT2OID ∨ typeoid = INT4OID ∨ typeoid = INT8OID)
    (hchunk : 0 < chunk) (hlen : text.length ≤ chunk) (hnul : ∀ c ∈ text, c ≠ Char.ofNat 0) :
    get_data pgver chunk host (numericCell text) typeoid typemod =
      match numericToInt typeoid text with
      | .error e => .error e
      | .ok v => .ok { value := v, isnull := some false } := by
  have hl : lastChunk chunk (oneChunk text) :=
    ⟨by show SQL_SUCCESS ≠ SQL_NO_DATA; decide, rfl, hlen⟩
  have hget := get_char_data_chunks chunk hchunk [] _ (by simp) hl 0 0
  have e0 : scriptData ([] ++ [oneChunk text]) = text := by simp [scriptData, oneChunk]
  rw [e0] at hget
  have hsucc : SQL_SUCCEEDED (numericCell text).describeRet = true := by
    show SQL_SUCCEEDED SQL_SUCCESS = true; decide
  have h1 : (numericCell text).type ≠ SQL_SMALLINT := by
    show SQL_NUMERIC ≠ SQL_SMALLINT; decide
  have h2 : ¬ ((numericCell text).type = SQL_INTEGER ∨ (numericCell text).type = SQL_BIT) := by
    show ¬ (SQL_NUMERIC = SQL_INTEGER ∨ SQL_NUMERIC = SQL_BIT); decide
  have h3 : (numericCell text).type ≠ SQL_BIGINT := by
    show SQL_NUMERIC ≠ SQL_BIGINT; decide
  have h4 : (numericCell text).type = SQL_NUMERIC ∨ (numericCell text).type = SQL_DECIMAL :=
    Or.inl rfl
  have hc : get_char_data chunk (numericCell text).chars (numericCell text).ind0 0 = _ := hget
  unfold get_data numericIntCase
  simp only [hsucc, not_true_eq_false, if_false, h1, h2, h3, h4, ho, and_self, if_true, hc,
    cstring_terminated text _ hnul, Bool.false_eq_true]

/-- Witness for C6: the NUMERIC text "123.456", delivered in one chunk of
the header's chunk size, coerced into a 16-bit integer yields 123. -/
theorem numeric_text_yields_integer_part_witness :
    get_data 90000 CHARVALCHUNK anyHost (numericCell "123.456".toList) INT2OID (-1) =
      .ok { value := some (Datum.int16 123), isnull := some false } :=
  numeric_text_yields_integer_part 90000 CHARVALCHUNK anyHost (numericCell "123.456".toList)
    INT2OID (-1)
    { ret := SQL_NO_DATA,
      value := ("123.456".toList).map some ++
        some (Char.ofNat 0) :: List.replicate (slack CHARVALCHUNK 7 - 1) none,
      length := 0, isnull := false, requests := 2 }
    [] ['1', '2', '3'] ['.', '4', '5', '6']
    rfl (Or.inl rfl) (Or.inl rfl)
    (get_char_data_chunks CHARVALCHUNK (by decide) [] (oneChunk "123.456".toList)
      (by simp) ⟨by decide, rfl, by decide⟩ 0 0)
    rfl
    (cstring_terminated "123.456".toList _ (by decide))
    (Or.inl rfl) (by decide) (by decide) (Or.inr ⟨['4', '5', '6'], rfl, by decide⟩)
    (by decide) (by decide)

/-- C7, the code at failing inputs, with the text delivered in one chunk of
the header's chunk size: "-40000" into a 16-bit target and "-3000000000" into
a 32-bit target come back wrapped, "99999999999999999999" into a 64-bit
target comes back as `LLONG_MAX`, none raises; "99999" into a 16-bit target
does raise. -/
theorem numeric_overflow_not_raised (pgver : Nat) (host : HostIn) (typemod : Int) :
    get_data pgver CHARVALCHUNK host (numericCell "-40000".toList) INT2OID typemod =
      .ok { value := some (Datum.int16 25536), isnull := some false } ∧
    get_data pgver CHARVALCHUNK host (numericCell "-3000000000".toList) INT4OID typemod =
      .ok { value := some (Datum.int32 1294967296), isnull := some false } ∧
    get_data pgver CHARVALCHUNK host (numericCell "99999999999999999999".toList) INT8OID typemod =
      .ok { value := some (Datum.int64 9223372036854775807), isnull := some false } ∧
    get_data pgver CHARVALCHUNK host (numericCell "99999".toList) INT2OID typemod =
      .error Err.too_large_for_16_bit := by
  refine ⟨?_, ?_, ?_, ?_⟩
  · rw [get_data_numericCell pgver CHARVALCHUNK host _ INT2OID typemod (Or.inl rfl) (by decide)
      (by decide) (by decide)]
    rfl
  · rw [get_data_numericCell pgver CHARVALCHUNK host _ INT4OID typemod (Or.inr (Or.inl rfl))
      (by decide) (by decide) (by decide)]
    rfl
  · rw [get_data_numericCell pgver CHARVALCHUNK host _ INT8OID typemod (Or.inr (Or.inr rfl))
      (by decide) (by decide) (by decide)]
    rfl
  · rw [get_data_numericCell pgver CHARVALCHUNK host _ INT2OID typemod (Or.inl rfl) (by decide)
      (by decide) (by decide)]
    rfl

/-! ## Theorems: when retrieval stops, and the length handed back -/

theorem charLoop_requests (chunk : Nat) (script : List CharResp) (st st' : CharState)
    (hret : st.ret ≠ SQL_NO_DATA) (h : charLoop chunk script st = some st') :
    st'.requests = st.requests + firstEnd script + 1 := by
  induction script generalizing st with
  | nil =>
    rw [charLoop, if_neg hret] at h
    injection h with h
    rw [← h]; rfl
  | cons r rs ih =>
    rw [charLoop, if_neg hret] at h
    cases hw : writeAt st.buf st.char_pos r.data with
    | none => rw [hw] at h; exact Option.noConfusion h
    | some buf1 =>
      rw [hw] at h
      dsimp only at h
      by_cases h1 : r.size_ind = SQL_NULL_DATA
      · rw [if_pos h1] at h
        injection h with h
        rw [← h]
        simp [firstEnd, endsRetrieval, h1]
      · rw [if_neg h1] at h
        by_cases h2 : r.ret = SQL_NO_DATA
        · rw [if_pos h2] at h
          injection h with h
          rw [← h]
          simp [firstEnd, endsRetrieval, h2]
        · rw [if_neg h2] at h
          have hfe : firstEnd (r :: rs) = firstEnd rs + 1 := by
            simp [firstEnd, endsRetrieval, h1, h2]
          by_cases h3 : r.size_ind = (chunk : Int)
          · rw [if_pos h3] at h
            have := ih _ (by exact h2) h
            rw [this, hfe]
            simp only
            omega
          · rw [if_neg h3] at h
            have := ih _ (by exact h2) h
            rw [this, hfe]
            simp only
            omega

theorem writeAt_some (buf : List Cell) (pos : Int) (data : List Char) (h0 : 0 ≤ pos)
    (h : pos.toNat + data.length ≤ buf.length) : ∃ b, writeAt buf pos data = some b := by
  unfold writeAt
  rw [if_neg (by omega), if_neg (by omega)]
  exact ⟨_, rfl⟩

/-- C9 (amended). For every script of driver answers, chunk size and initial
content of the local variables: when `get_char_data` returns, the number of
`SQLGetData` requests it made is one more than the number of answers before
the first NULL indicator or `SQL_NO_DATA` (the request after the script being
answered `SQL_NO_DATA`), so no request follows such an answer. A NULL
indicator on the first answer gives `isnull = true` after exactly one
request. A chunk shorter than the chunk size does not end retrieval: for a
value delivered as full chunks and a last chunk, one request is made after
the last chunk. -/
theorem retrieval_ends_at_null_or_no_data (chunk : Nat) (script : List CharResp)
    (ind0 len0 : Int) :
    (∀ res, get_char_data chunk script ind0 len0 = some res →
      res.requests = firstEnd script + 1) ∧
    (∀ r rest, script = r :: rest → r.size_ind = SQL_NULL_DATA → r.data.length ≤ chunk →
      0 < chunk →
      ∃ res, get_char_data chunk script ind0 len0 = some res ∧ res.isnull = true ∧
        res.requests = 1) ∧
    (∀ fulls l, script = fulls ++ [l] → (∀ f ∈ fulls, fullChunk chunk f) → lastChunk chunk l →
      0 < chunk →
      ∃ res, get_char_data chunk script ind0 len0 = some res ∧
        res.requests = script.length + 1) := by
  refine ⟨?_, ?_, ?_⟩
  · intro res h
    unfold get_char_data at h
    dsimp only at h
    cases hl : charLoop chunk script
        { ret := SQL_SUCCESS, size_ind := ind0, buf := List.replicate chunk none,
          char_len := chunk, char_pos := 0, requests := 0 } with
    | none => rw [hl] at h; exact Option.noConfusion h
    | some st =>
      rw [hl] at h
      have hreq := charLoop_requests chunk script _ st
        (by show SQL_SUCCESS ≠ SQL_NO_DATA; decide) hl
      dsimp only at h
      by_cases hp : st.char_pos = (st.char_len : Int)
      · rw [if_pos hp] at h; exact Option.noConfusion h
      · rw [if_neg hp] at h
        cases hw : writeAt st.buf st.char_pos [Char.ofNat 0] with
        | none => rw [hw] at h; exact Option.noConfusion h
        | some b =>
          rw [hw] at h
          injection h with h
          rw [← h]
          simpa using hreq
  · intro r rest hs hnull hlen hchunk
    subst hs
    obtain ⟨b1, hb1⟩ := writeAt_some (List.replicate chunk none) 0 r.data (le_refl _)
      (by simpa using hlen)
    have hb1len : b1.length = chunk := by
      unfold writeAt at hb1
      rw [if_neg (by omega), if_neg (by simp; omega)] at hb1
      injection hb1 with hb1
      rw [← hb1]
      simp
      omega
    obtain ⟨b2, hb2⟩ := writeAt_some b1 0 [Char.ofNat 0] (le_refl _) (by simp; omega)
    refine ⟨{ ret := r.ret, value := b2, length := if len0 ≠ 0 then 0 else len0,
              isnull := true, requests := 1 }, ?_, rfl, rfl⟩
    have hne : ¬ ((0 : Int) = (chunk : Int)) := by omega
    have hs : ¬ (SQL_SUCCESS = SQL_NO_DATA) := by decide
    unfold get_char_data
    dsimp only
    rw [charLoop, if_neg hs]
    dsimp only
    rw [hb1]
    dsimp only
    rw [if_pos hnull]
    dsimp only
    rw [if_neg hne, hb2]
    simp [hnull]
  · intro fulls l hs hfull hl hchunk
    subst hs
    exact ⟨_, get_char_data_chunks chunk hchunk fulls l hfull hl ind0 len0, by simp⟩

/-- C9, counterexample to the claim as stated: with chunk size 4 the first
answer is a chunk of 2 characters, shorter than the chunk size, so by the
claim retrieval ends there after one request; the code makes three. -/
theorem short_chunk_does_not_end_retrieval :
    ∃ res, get_char_data 4 [oneChunk ['a', 'b'], oneChunk ['c']] 0 0 = some res ∧
      endsRetrievalAsStated 4 (oneChunk ['a', 'b']) = true ∧
      firstEndAsStated 4 [oneChunk ['a', 'b'], oneChunk ['c']] = 0 ∧
      res.requests = 3 ∧
      ¬ (res.requests ≤ firstEndAsStated 4 [oneChunk ['a', 'b'], oneChunk ['c']] + 1) :=
  ⟨_, rfl, by decide, by decide, by decide, by decide⟩

/-- C8, the code at the failing input: chunk size 4, an 8-character value
arriving as two full chunks, the caller's length variable holding 0 on entry
(as the one `get_data` passes does). The buffer is the 8 characters and a
NUL, but the length variable still holds 0 afterwards; it receives 8 only
when it held a non-zero value before. -/
theorem length_not_written_when_zero (ind0 : Int) :
    get_char_data 4 [oneChunk ['a', 'b', 'c', 'd'], oneChunk ['e', 'f', 'g', 'h']] ind0 0 =
      some { ret := SQL_NO_DATA,
             value := ['a', 'b', 'c', 'd', 'e', 'f', 'g', 'h'].map some ++
               [some (Char.ofNat 0), none, none, none],
             length := 0, isnull := false, requests := 3 } ∧
    get_char_data 4 [oneChunk ['a', 'b', 'c', 'd'], oneChunk ['e', 'f', 'g', 'h']] ind0 5 =
      some { ret := SQL_NO_DATA,
             value := ['a', 'b', 'c', 'd', 'e', 'f', 'g', 'h'].map some ++
               [some (Char.ofNat 0), none, none, none],
             length := 8, isnull := false, requests := 3 } := by
  constructor <;> rfl

/-! ## Theorems: statement handle lifetime -/

theorem frees_append (a b : List DrvCall) : frees (a ++ b) = frees a + frees b := by
  simp [frees, List.countP_append]

theorem numericToInt_error (typeoid : Nat) (text : List Char) (e : Err)
    (h : numericToInt typeoid text = .error e) : coercionErr e := by
  unfold numericToInt at h
  dsimp only at h
  split_ifs at h <;> injection h with h <;> subst h <;> simp [coercionErr]

theorem charPath_error (pgver chunk : Nat) (host : HostIn) (d : CellDriver) (typeoid : Nat)
    (typemod : Int) (e : Err) (h : charPath pgver chunk host d typeoid typemod = .error e) :
    coercionErr e ∨ e = Err.undefined_behaviour := by
  unfold charPath at h
  split at h
  · injection h with h; exact Or.inr h.symm
  · split_ifs at h
    split at h
    · exact Except.noConfusion h
    · dsimp only at h
      split at h
      · injection h with h; exact Or.inr h.symm
      · split at h
        · injection h with h; subst h; exact Or.inl (by simp [coercionErr])
        · exact Except.noConfusion h

theorem fixed_case_error (d : CellDriver) (typeoid : Nat) (e : Err) :
    (smallintCase d typeoid = .error e → coercionErr e) ∧
    (integerCase d typeoid = .error e → coercionErr e) ∧
    (bigintCase d = .error e → coercionErr e) ∧
    (floatCase d = .error e → coercionErr e) ∧
    (doubleCase d = .error e → coercionErr e) := by
  refine ⟨?_, ?_, ?_, ?_, ?_⟩ <;> intro h
  · unfold smallintCase at h
    dsimp only at h
    split_ifs at h
    injection h with h; subst h; simp [coercionErr]
  · unfold integerCase at h
    dsimp only at h
    split_ifs at h
    injection h with h; subst h; simp [coercionErr]
  · unfold bigintCase at h
    split_ifs at h
    injection h with h; subst h; simp [coercionErr]
  · unfold floatCase at h
    split_ifs at h
    injection h with h; subst h; simp [coercionErr]
  · unfold doubleCase at h
    split_ifs at h
    injection h with h; subst h; simp [coercionErr]

theorem numericIntCase_error (chunk : Nat) (d : CellDriver) (typeoid : Nat) (e : Err)
    (h : numericIntCase chunk d typeoid = .error e) :
    coercionErr e ∨ e = Err.undefined_behaviour := by
  unfold numericIntCase at h
  split at h
  · injection h with h; exact Or.inr h.symm
  · split_ifs at h
    split at h
    · injection h with h; exact Or.inr h.symm
    · split at h
      · injection h with h
        rename_i e' hn
        subst h
        exact Or.inl (numericToInt_error _ _ _ hn)
      · exact Except.noConfusion h

theorem get_data_error (pgver chunk : Nat) (host : HostIn) (d : CellDriver) (typeoid : Nat)
    (typemod : Int) (e : Err) (h : get_data pgver chunk host d typeoid typemod = .error e) :
    coercionErr e ∨ e = Err.undefined_behaviour := by
  obtain ⟨f1, f2, f3, f4, f5⟩ := fixed_case_error d typeoid e
  unfold get_data at h
  by_cases c0 : ¬ SQL_SUCCEEDED d.describeRet = true
  · rw [if_pos c0] at h
    injection h with h; subst h; exact Or.inl (by simp [coercionErr])
  rw [if_neg c0] at h
  by_cases c1 : d.type = SQL_SMALLINT
  · rw [if_pos c1] at h; exact Or.inl (f1 h)
  rw [if_neg c1] at h
  by_cases c2 : d.type = SQL_INTEGER ∨ d.type = SQL_BIT
  · rw [if_pos c2] at h; exact Or.inl (f2 h)
  rw [if_neg c2] at h
  by_cases c3 : d.type = SQL_BIGINT
  · rw [if_pos c3] at h; exact Or.inl (f3 h)
  rw [if_neg c3] at h
  by_cases c4 : (d.type = SQL_NUMERIC ∨ d.type = SQL_DECIMAL) ∧
      (typeoid = INT2OID ∨ typeoid = INT4OID ∨ typeoid = INT8OID)
  · rw [if_pos c4] at h; exact numericIntCase_error chunk d typeoid e h
  rw [if_neg c4] at h
  by_cases c5 : d.type = SQL_NUMERIC ∨ d.type = SQL_DECIMAL ∨ d.type = SQL_CHAR ∨
      d.type = SQL_VARCHAR ∨ d.type = SQL_LONGVARCHAR ∨ d.type = SQL_DATE ∨ d.type = SQL_TIME ∨
      d.type = SQL_TIMESTAMP ∨ d.type = SQL_BINARY ∨ d.type = SQL_VARBINARY ∨
      d.type = SQL_LONGVARBINARY
  · rw [if_pos c5] at h; exact charPath_error pgver chunk host d typeoid typemod e h
  rw [if_neg c5] at h
  by_cases c6 : d.type = SQL_FLOAT ∨ d.type = SQL_REAL
  · rw [if_pos c6] at h; exact Or.inl (f4 h)
  rw [if_neg c6] at h
  by_cases c7 : d.type = SQL_DOUBLE
  · rw [if_pos c7] at h; exact Or.inl (f5 h)
  rw [if_neg c7] at h
  exact Except.noConfusion h

theorem rowLoop_error (pgver chunk : Nat) (host : HostIn) (stmt : odbcstmt)
    (cells : Nat → CellDriver) (n i : Nat) (e : Err)
    (h : rowLoop pgver chunk host stmt cells n i = .error e) :
    coercionErr e ∨ e = Err.undefined_behaviour := by
  induction n generalizing i with
  | zero => exact Except.noConfusion h
  | succ n ih =>
    rw [rowLoop] at h
    split at h
    · rename_i e' hg
      injection h with h
      subst h
      exact get_data_error _ _ _ _ _ _ _ hg
    · split at h
      · rename_i e' hr
        injection h with h
        subst h
        exact ih _ hr
      · exact Except.noConfusion h

/-- One call of `query_common`: a row releases nothing; the end of the set,
a failed fetch and an error raised by `get_data` each release the handle
once; only the statement's own handle is ever released. -/
theorem query_common_frees (pgver chunk : Nat) (host : HostIn) (stmt : odbcstmt)
    (d : RowDriver) :
    (∀ v, (query_common pgver chunk host stmt d).ret = .ok (Step.row v) →
      frees (query_common pgver chunk host stmt d).calls = 0) ∧
    ((query_common pgver chunk host stmt d).ret = .ok Step.done →
      frees (query_common pgver chunk host stmt d).calls = 1) ∧
    (∀ e, (query_common pgver chunk host stmt d).ret = .error e →
      (e = Err.unsuccessful_SQLFetch ∨ coercionErr e ∨ e = Err.undefined_behaviour) ∧
      frees (query_common pgver chunk host stmt d).calls =
        if e = Err.undefined_behaviour then 0 else 1) ∧
    (∀ c ∈ (query_common pgver chunk host stmt d).calls, isFree c = true →
      c = DrvCall.SQLFreeHandle stmt.hStmt) := by
  unfold query_common
  by_cases hf : SQL_SUCCEEDED d.fetchRet = true
  · rw [if_pos hf]
    cases hr : rowLoop pgver chunk host stmt d.cells stmt.cols 0 with
    | error e =>
      have he := rowLoop_error _ _ _ _ _ _ _ _ hr
      dsimp only
      by_cases hu : e = Err.undefined_behaviour
      · rw [if_pos hu]
        refine ⟨fun v h => Except.noConfusion h, fun h => Except.noConfusion h, ?_, ?_⟩
        · intro e' h
          injection h with h
          subst h
          exact ⟨Or.inr he, by rw [if_pos hu]; rfl⟩
        · intro c hc hfree
          simp at hc
          subst hc
          exact Bool.noConfusion hfree
      · rw [if_neg hu]
        refine ⟨fun v h => Except.noConfusion h, fun h => Except.noConfusion h, ?_, ?_⟩
        · intro e' h
          injection h with h
          subst h
          exact ⟨Or.inr he, by rw [if_neg hu]; rfl⟩
        · intro c hc hfree
          simp at hc
          rcases hc with hc | hc
          · subst hc; exact Bool.noConfusion hfree
          · exact hc
    | ok v =>
      dsimp only
      refine ⟨fun _ _ => rfl, fun h => ?_, fun e h => Except.noConfusion h, ?_⟩
      · injection h with h; exact Step.noConfusion h
      · intro c hc hfree
        simp at hc
        subst hc
        exact Bool.noConfusion hfree
  · rw [if_neg hf]
    by_cases hn : d.fetchRet ≠ SQL_NO_DATA
    · rw [if_pos hn]
      refine ⟨fun v h => Except.noConfusion h, fun h => Except.noConfusion h, ?_, ?_⟩
      · intro e h
        injection h with h
        subst h
        exact ⟨Or.inl rfl, rfl⟩
      · intro c hc hfree
        simp at hc
        rcases hc with hc | hc
        · subst hc; exact Bool.noConfusion hfree
        · exact hc
    · rw [if_neg hn]
      refine ⟨fun v h => ?_, fun _ => rfl, fun e h => Except.noConfusion h, ?_⟩
      · injection h with h; exact Step.noConfusion h
      · intro c hc hfree
        simp at hc
        rcases hc with hc | hc
        · subst hc; exact Bool.noConfusion hfree
        · exact hc

/-- A driven statement: the number of releases is decided by where the run
ended, and only the statement's own handle is released. -/
theorem drive_frees (pgver chunk : Nat) (host : HostIn) (stmt : odbcstmt)
    (script : List RowDriver) :
    ((drive pgver chunk host stmt script).final = Final.streaming →
      frees (drive pgver chunk host stmt script).calls = 0) ∧
    ((drive pgver chunk host stmt script).final = Final.exhausted →
      frees (drive pgver chunk host stmt script).calls = 1) ∧
    (∀ e, (drive pgver chunk host stmt script).final = Final.failed e →
      (e = Err.unsuccessful_SQLFetch ∨ coercionErr e ∨ e = Err.undefined_behaviour) ∧
      frees (drive pgver chunk host stmt script).calls =
        if e = Err.undefined_behaviour then 0 else 1) ∧
    (∀ c ∈ (drive pgver chunk host stmt script).calls, isFree c = true →
      c = DrvCall.SQLFreeHandle stmt.hStmt) := by
  induction script with
  | nil =>
    refine ⟨fun _ => rfl, fun h => Final.noConfusion h, fun e h => Final.noConfusion h, ?_⟩
    intro c hc
    simp [drive] at hc
  | cons d ds ih =>
    obtain ⟨q1, q2, q3, q4⟩ := query_common_frees pgver chunk host stmt d
    obtain ⟨i1, i2, i3, i4⟩ := ih
    rw [drive]
    dsimp only
    cases hq : (query_common pgver chunk host stmt d).ret with
    | error e =>
      dsimp only
      refine ⟨fun h => Final.noConfusion h, fun h => Final.noConfusion h, ?_, q4⟩
      intro e' h
      injection h with h
      subst h
      exact q3 e hq
    | ok st =>
      cases st with
      | done =>
        dsimp only
        exact ⟨fun h => Final.noConfusion h, fun _ => q2 hq, fun e h => Final.noConfusion h, q4⟩
      | row v =>
        dsimp only
        have z := q1 v hq
        refine ⟨fun h => ?_, fun h => ?_, fun e h => ?_, ?_⟩
        · rw [frees_append, z, i1 h]
        · rw [frees_append, z, i2 h]
        · rw [frees_append, z, Nat.zero_add]
          exact i3 e h
        · intro c hc hfree
          rcases List.mem_append.mp hc with hc | hc
          · exact q4 c hc hfree
          · exact i4 c hc hfree

/-- Opening a statement: a failed `SQLAllocStmt` releases nothing, every
failure after it releases the handle once, success releases nothing and the
statement carries the handle the driver gave. -/
theorem init_query_common_frees (pgver : Nat) (r : Registry) (i : Nat) (d : OpenDriver) :
    (∀ stmt, (init_query_common pgver r i d).ret = .ok stmt →
      stmt.hStmt = d.hStmt ∧ frees (init_query_common pgver r i d).calls = 0) ∧
    (∀ e, (init_query_common pgver r i d).ret = .error e →
      (e = Err.unsuccessful_SQLAllocStmt ∧ frees (init_query_common pgver r i d).calls = 0) ∨
      (openingErr e ∧ frees (init_query_common pgver r i d).calls = 1)) ∧
    (∀ c ∈ (init_query_common pgver r i d).calls, isFree c = true →
      c = DrvCall.SQLFreeHandle d.hStmt) := by
  unfold init_query_common
  dsimp only
  by_cases h1 : ¬ SQL_SUCCEEDED d.allocRet = true
  · rw [if_pos h1]
    refine ⟨fun s h => Except.noConfusion h, ?_, ?_⟩
    · intro e h
      injection h with h
      exact Or.inl ⟨h.symm, rfl⟩
    · intro c hc hfree
      simp at hc
      subst hc
      exact Bool.noConfusion hfree
  rw [if_neg h1]
  have key : ∀ c ∈ [DrvCall.SQLAllocStmt (r.slot i).hCon, DrvCall.SQLExecDirect d.hStmt,
      DrvCall.SQLFreeHandle d.hStmt], isFree c = true → c = DrvCall.SQLFreeHandle d.hStmt := by
    intro c hc hfree
    simp at hc
    rcases hc with hc | hc | hc
    · subst hc; exact Bool.noConfusion hfree
    · subst hc; exact Bool.noConfusion hfree
    · exact hc
  by_cases h2 : ¬ SQL_SUCCEEDED d.execRet = true
  · rw [if_pos h2]
    refine ⟨fun s h => Except.noConfusion h, ?_, key⟩
    intro e h
    injection h with h
    exact Or.inr ⟨Or.inl h.symm, rfl⟩
  rw [if_neg h2]
  cases hc : d.resultClass with
  | record =>
    dsimp only
    refine ⟨fun s h => Except.noConfusion h, ?_, key⟩
    intro e h
    injection h with h
    exact Or.inr ⟨Or.inr (Or.inl h.symm), rfl⟩
  | other =>
    dsimp only
    refine ⟨fun s h => Except.noConfusion h, ?_, key⟩
    intro e h
    injection h with h
    exact Or.inr ⟨Or.inr (Or.inr (Or.inl h.symm)), rfl⟩
  | composite =>
    dsimp only
    by_cases h3 : ¬ (compatTupleDescs pgver d.numColsRet d.remote d.tupdesc).retval = true
    · rw [if_pos h3]
      refine ⟨fun s h => Except.noConfusion h, ?_, key⟩
      intro e h
      injection h with h
      exact Or.inr ⟨Or.inr (Or.inr (Or.inr h.symm)), rfl⟩
    · rw [if_neg h3]
      refine ⟨?_, fun e h => Except.noConfusion h, ?_⟩
      · intro s h
        injection h with h
        subst h
        exact ⟨rfl, rfl⟩
      · intro c hc hfree
        simp at hc
        rcases hc with hc | hc
        · subst hc; exact Bool.noConfusion hfree
        · subst hc; exact Bool.noConfusion hfree

theorem coercionErr_not_undefined (e : Err) (h : coercionErr e) :
    e ≠ Err.undefined_behaviour ∧ e ≠ Err.unsuccessful_SQLAllocStmt := by
  unfold coercionErr at h
  rcases h with h | h | h | h | h | h <;> subst h <;> exact ⟨by decide, by decide⟩

theorem openingErr_not_undefined (e : Err) (h : openingErr e) :
    e ≠ Err.undefined_behaviour ∧ e ≠ Err.unsuccessful_SQLAllocStmt := by
  unfold openingErr at h
  rcases h with h | h | h | h <;> subst h <;> exact ⟨by decide, by decide⟩

/-- C1. For every statement opened by `init_query_common` and driven by
`query_common`, under every behaviour of the driver and of the host input
functions: the statement handle is released exactly once when the run ends
because `SQLFetch` reported no more rows, exactly once when it ends because
`SQLFetch` failed with another code, exactly once when it ends because
`get_data` raised while coercing a row, and exactly once when opening failed
after the handle was allocated. It is never released twice, and the handle
released is the one `SQLAllocStmt` gave. -/
theorem statement_handle_released_once (pgver chunk : Nat) (host : HostIn) (r : Registry)
    (i : Nat) (od : OpenDriver) (script : List RowDriver) :
    ((run_query pgver chunk host r i od script).final = Final.exhausted →
      frees (run_query pgver chunk host r i od script).calls = 1) ∧
    ((run_query pgver chunk host r i od script).final =
        Final.failed Err.unsuccessful_SQLFetch →
      frees (run_query pgver chunk host r i od script).calls = 1) ∧
    (∀ e, coercionErr e → (run_query pgver chunk host r i od script).final = Final.failed e →
      frees (run_query pgver chunk host r i od script).calls = 1) ∧
    (∀ e, openingErr e → (run_query pgver chunk host r i od script).final = Final.failed e →
      frees (run_query pgver chunk host r i od script).calls = 1) ∧
    frees (run_query pgver chunk host r i od script).calls ≤ 1 ∧
    (∀ c ∈ (run_query pgver chunk host r i od script).calls, isFree c = true →
      c = DrvCall.SQLFreeHandle od.hStmt) := by
  obtain ⟨o1, o2, o3⟩ := init_query_common_frees pgver r i od
  unfold run_query
  dsimp only
  cases ho : (init_query_common pgver r i od).ret with
  | error e =>
    dsimp only
    have hcase := o2 e ho
    refine ⟨fun h => Final.noConfusion h, ?_, ?_, ?_, ?_, o3⟩
    · intro h
      injection h with h
      rcases hcase with ⟨h1, _⟩ | ⟨_, h2⟩
      · rw [h1] at h; exact Err.noConfusion h
      · exact h2
    · intro e' he' h
      injection h with h
      rcases hcase with ⟨h1, _⟩ | ⟨_, h2⟩
      · exact absurd (h.symm.trans h1) (coercionErr_not_undefined e' he').2
      · exact h2
    · intro e' he' h
      injection h with h
      rcases hcase with ⟨h1, _⟩ | ⟨_, h2⟩
      · exact absurd (h.symm.trans h1) (openingErr_not_undefined e' he').2
      · exact h2
    · rcases hcase with ⟨_, h2⟩ | ⟨_, h2⟩ <;> rw [h2]
      exact Nat.zero_le 1
  | ok stmt =>
    dsimp only
    obtain ⟨hh, hz⟩ := o1 stmt ho
    obtain ⟨d1, d2, d3, d4⟩ := drive_frees pgver chunk host stmt script
    rw [frees_append, hz, Nat.zero_add]
    refine ⟨d2, ?_, ?_, ?_, ?_, ?_⟩
    · intro h
      rw [(d3 _ h).2, if_neg (by decide)]
    · intro e he h
      rw [(d3 _ h).2, if_neg (coercionErr_not_undefined e he).1]
    · intro e he h
      rw [(d3 _ h).2, if_neg (openingErr_not_undefined e he).1]
    · cases hf : (drive pgver chunk host stmt script).final with
      | streaming => rw [d1 hf]; exact Nat.zero_le 1
      | exhausted => rw [d2 hf]
      | failed e =>
        rw [(d3 e hf).2]
        split_ifs
        · exact Nat.zero_le 1
        · exact le_refl 1
    · intro c hc hfree
      rcases List.mem_append.mp hc with hc | hc
      · exact o3 c hc hfree
      · rw [← hh]; exact d4 c hc hfree

/-- Each of the four exit paths is taken by some run, and releases the handle
once there. Exhaustion: one INTEGER row `[1]` into an `int4` column on a
connection opened by connection string, then no more rows. Fetch error: the
first `SQLFetch` returns `SQL_ERROR`. Coercion error: NUMERIC "99999" into a
16-bit column. Opening error: `SQLExecDirect` returns `SQL_ERROR`. -/
theorem exit_paths_taken :
    ((run_query 90000 8 anyHost connstrReg 0 (openOk SQL_INTEGER INT4OID)
        [{ fetchRet := SQL_SUCCESS, cells := fun _ => integerCell 1 },
         { fetchRet := SQL_NO_DATA, cells := fun _ => integerCell 0 }]).final = Final.exhausted ∧
     (run_query 90000 8 anyHost connstrReg 0 (openOk SQL_INTEGER INT4OID)
        [{ fetchRet := SQL_SUCCESS, cells := fun _ => integerCell 1 },
         { fetchRet := SQL_NO_DATA, cells := fun _ => integerCell 0 }]).rows =
        [[{ value := some (Datum.int32 1), isnull := some false }]] ∧
     frees (run_query 90000 8 anyHost connstrReg 0 (openOk SQL_INTEGER INT4OID)
        [{ fetchRet := SQL_SUCCESS, cells := fun _ => integerCell 1 },
         { fetchRet := SQL_NO_DATA, cells := fun _ => integerCell 0 }]).calls = 1) ∧
    ((run_query 90000 8 anyHost connstrReg 0 (openOk SQL_INTEGER INT4OID)
        [{ fetchRet := SQL_ERROR, cells := fun _ => integerCell 1 }]).final =
        Final.failed Err.unsuccessful_SQLFetch ∧
     frees (run_query 90000 8 anyHost connstrReg 0 (openOk SQL_INTEGER INT4OID)
        [{ fetchRet := SQL_ERROR, cells := fun _ => integerCell 1 }]).calls = 1) ∧
    ((run_query 90000 8 anyHost connstrReg 0 (openOk SQL_NUMERIC INT2OID)
        [{ fetchRet := SQL_SUCCESS, cells := fun _ => numericCell ['9', '9', '9', '9', '9'] }]).final =
        Final.failed Err.too_large_for_16_bit ∧
     frees (run_query 90000 8 anyHost connstrReg 0 (openOk SQL_NUMERIC INT2OID)
        [{ fetchRet := SQL_SUCCESS, cells := fun _ => numericCell ['9', '9', '9', '9', '9'] }]).calls = 1) ∧
    ((run_query 90000 8 anyHost connstrReg 0
        { openOk SQL_INTEGER INT4OID with execRet := SQL_ERROR } []).final =
        Final.failed Err.unsuccessful_SQLExecDirect ∧
     frees (run_query 90000 8 anyHost connstrReg 0
        { openOk SQL_INTEGER INT4OID with execRet := SQL_ERROR } []).calls = 1) := by
  refine ⟨⟨rfl, rfl, rfl⟩, ⟨rfl, rfl⟩, ⟨rfl, rfl⟩, ⟨rfl, rfl⟩⟩

/-! ## Theorems: disconnect on a handle that is not live -/

theorem disconnect_guard (r : Registry) (h : Int) :
    (h - 1 ≥ 0 ∧ h - 1 < (r.n_conn : Int) ∧ (r.slot (h - 1).toNat).connected ≠ 0) ↔
      ¬ (h - 1 < 0 ∨ (r.n_conn : Int) ≤ h - 1 ∨ ¬ r.live (h - 1).toNat) := by
  unfold Registry.live
  constructor
  · rintro ⟨h1, h2, h3⟩
    rintro (h4 | h4 | h4)
    · omega
    · omega
    · exact h4 ⟨by omega, h3⟩
  · intro hn
    push_neg at hn
    exact ⟨by omega, by omega, (hn.2.2).2⟩

/-- C11. `odbclink_disconnect(h)` raises `no such connection` exactly when
`h - 1` lies outside `[0, n_conn)` or slot `h - 1` is not live; it raises no
other error; when it raises, the registry is unchanged and no driver call
was made, so no foreign handle is released. Disconnecting the same handle a
second time, with nothing in between, always raises. -/
theorem disconnect_raises_iff_not_live (r : Registry) (h : Int) :
    ((odbclink_disconnect r h).ret = .error Err.no_such_connection ↔
      (h - 1 < 0 ∨ (r.n_conn : Int) ≤ h - 1 ∨ ¬ r.live (h - 1).toNat)) ∧
    (∀ e, (odbclink_disconnect r h).ret = .error e →
      e = Err.no_such_connection ∧ (odbclink_disconnect r h).reg = r ∧
      (odbclink_disconnect r h).calls = []) ∧
    (odbclink_disconnect (odbclink_disconnect r h).reg h).ret =
      .error Err.no_such_connection := by
  have hg := disconnect_guard r h
  by_cases hc : (h - 1 ≥ 0 ∧ h - 1 < (r.n_conn : Int) ∧ (r.slot (h - 1).toNat).connected ≠ 0)
  · have hout : ¬ (h - 1 < 0 ∨ (r.n_conn : Int) ≤ h - 1 ∨ ¬ r.live (h - 1).toNat) := hg.mp hc
    have e1 : odbclink_disconnect r h =
        { ret := .ok (),
          reg := r.setSlot (h - 1).toNat { r.slot (h - 1).toNat with
            connected := 0, dsn := pfreeField (r.slot (h - 1).toNat).dsn,
            uid := pfreeField (r.slot (h - 1).toNat).uid,
            pwd := pfreeField (r.slot (h - 1).toNat).pwd,
            connstr := pfreeField (r.slot (h - 1).toNat).connstr },
          calls := [DrvCall.SQLDisconnect (r.slot (h - 1).toNat).hCon,
                    DrvCall.SQLFreeConnect (r.slot (h - 1).toNat).hCon,
                    DrvCall.SQLFreeEnv (r.slot (h - 1).toNat).hEnv] } := by
      unfold odbclink_disconnect
      dsimp only
      rw [if_neg (not_not.mpr hc)]
    refine ⟨?_, ?_, ?_⟩
    · rw [e1]
      exact ⟨fun hh => Except.noConfusion hh, fun hh => absurd hh hout⟩
    · intro e he
      rw [e1] at he
      exact Except.noConfusion he
    · rw [e1]
      dsimp only
      have hlt : (h - 1).toNat < r.n_conn := by omega
      have hnot : ¬ (h - 1 ≥ 0 ∧ h - 1 < ((r.setSlot (h - 1).toNat
          { r.slot (h - 1).toNat with
            connected := 0, dsn := pfreeField (r.slot (h - 1).toNat).dsn,
            uid := pfreeField (r.slot (h - 1).toNat).uid,
            pwd := pfreeField (r.slot (h - 1).toNat).pwd,
            connstr := pfreeField (r.slot (h - 1).toNat).connstr }).n_conn : Int) ∧
          ((r.setSlot (h - 1).toNat
          { r.slot (h - 1).toNat with
            connected := 0, dsn := pfreeField (r.slot (h - 1).toNat).dsn,
            uid := pfreeField (r.slot (h - 1).toNat).uid,
            pwd := pfreeField (r.slot (h - 1).toNat).pwd,
            connstr := pfreeField (r.slot (h - 1).toNat).connstr }).slot
              (h - 1).toNat).connected ≠ 0) := by
        rintro ⟨_, _, h3⟩
        rw [slot_setSlot_same r _ _ hlt] at h3
        exact h3 rfl
      unfold odbclink_disconnect
      dsimp only
      rw [if_pos hnot]
  · have hout : (h - 1 < 0 ∨ (r.n_conn : Int) ≤ h - 1 ∨ ¬ r.live (h - 1).toNat) := by
      by_contra hn
      exact hc (hg.mpr hn)
    have e1 : odbclink_disconnect r h =
        { ret := .error Err.no_such_connection, reg := r, calls := [] } := by
      unfold odbclink_disconnect
      dsimp only
      rw [if_pos hc]
    refine ⟨?_, ?_, ?_⟩
    · rw [e1]
      exact ⟨fun _ => hout, fun _ => rfl⟩
    · intro e he
      rw [e1] at he
      injection he with he
      rw [e1]
      exact ⟨he.symm, rfl, rfl⟩
    · rw [e1]
      dsimp only
      rw [e1]

/-- The double disconnect evaluated: on the registry with one live slot the
first `odbclink_disconnect(1)` returns and makes the three driver calls, the
second raises and makes none. -/
theorem disconnect_twice_evaluated :
    (odbclink_disconnect liveReg 1).ret = .ok () ∧
    (odbclink_disconnect liveReg 1).calls =
      [DrvCall.SQLDisconnect 2, DrvCall.SQLFreeConnect 2, DrvCall.SQLFreeEnv 1] ∧
    (odbclink_disconnect (odbclink_disconnect liveReg 1).reg 1).ret =
      .error Err.no_such_connection ∧
    (odbclink_disconnect (odbclink_disconnect liveReg 1).reg 1).calls = [] ∧
    (odbclink_disconnect liveReg 0).ret = .error Err.no_such_connection ∧
    (odbclink_disconnect liveReg 5).ret = .error Err.no_such_connection := by
  refine ⟨rfl, by decide, rfl, by decide, rfl, rfl⟩

/-! ## Theorems: after the terminal call -/

theorem query_common_fetches (pgver chunk : Nat) (host : HostIn) (stmt : odbcstmt)
    (d : RowDriver) :
    (query_common pgver chunk host stmt d).calls.head? = some (DrvCall.SQLFetch stmt.hStmt) ∧
    fetches (query_common pgver chunk host stmt d).calls = 1 := by
  unfold query_common
  by_cases hf : SQL_SUCCEEDED d.fetchRet = true
  · rw [if_pos hf]
    cases hr : rowLoop pgver chunk host stmt d.cells stmt.cols 0 with
    | error e =>
      dsimp only
      by_cases hu : e = Err.undefined_behaviour
      · rw [if_pos hu]; exact ⟨rfl, rfl⟩
      · rw [if_neg hu]; exact ⟨rfl, rfl⟩
    | ok v => exact ⟨rfl, rfl⟩
  · rw [if_neg hf]
    by_cases hn : d.fetchRet ≠ SQL_NO_DATA
    · rw [if_pos hn]; exact ⟨rfl, rfl⟩
    · rw [if_neg hn]; exact ⟨rfl, rfl⟩

theorem fetches_append (a b : List DrvCall) : fetches (a ++ b) = fetches a + fetches b := by
  simp [fetches, List.countP_append]

theorem drive_fetches (pgver chunk : Nat) (host : HostIn) (stmt : odbcstmt)
    (script : List RowDriver) :
    ((drive pgver chunk host stmt script).final = Final.streaming →
      fetches (drive pgver chunk host stmt script).calls =
        (drive pgver chunk host stmt script).rows.length) ∧
    ((drive pgver chunk host stmt script).final ≠ Final.streaming →
      fetches (drive pgver chunk host stmt script).calls =
        (drive pgver chunk host stmt script).rows.length + 1) := by
  induction script with
  | nil => exact ⟨fun _ => rfl, fun h => absurd rfl h⟩
  | cons d ds ih =>
    obtain ⟨_, q⟩ := query_common_fetches pgver chunk host stmt d
    rw [drive]
    dsimp only
    cases hq : (query_common pgver chunk host stmt d).ret with
    | error e =>
      dsimp only
      exact ⟨fun h => Final.noConfusion h, fun _ => by rw [q]; rfl⟩
    | ok st =>
      cases st with
      | done =>
        dsimp only
        exact ⟨fun h => Final.noConfusion h, fun _ => by rw [q]; rfl⟩
      | row v =>
        dsimp only
        refine ⟨fun h => ?_, fun h => ?_⟩
        · rw [fetches_append, q, ih.1 h, List.length_cons]; omega
        · rw [fetches_append, q, ih.2 h, List.length_cons]; omega

theorem findFrom_first (p : odbcconn → Bool) (l : List odbcconn) (i : Int) :
    ∃ k, findFrom (fun c => some (p c)) l i = some k ∧
      ((k = -1 ∧ ∀ n, n < l.length → p (l.getD n zeroConn) = false) ∨
       (∃ n : Nat, n < l.length ∧ k = i + (n : Int) ∧ p (l.getD n zeroConn) = true ∧
          ∀ j, j < n → p (l.getD j zeroConn) = false)) := by
  induction l generalizing i with
  | nil => exact ⟨-1, rfl, Or.inl ⟨rfl, by simp⟩⟩
  | cons c cs ih =>
    cases hp : p c
    · obtain ⟨k, hk, hcase⟩ := ih (i + 1)
      refine ⟨k, by simp only [findFrom, hp, hk], ?_⟩
      rcases hcase with ⟨h1, h2⟩ | ⟨n, hn, hkn, hpn, hlow⟩
      · refine Or.inl ⟨h1, ?_⟩
        intro n hn
        cases n with
        | zero => simpa using hp
        | succ n => simpa using h2 n (by simpa using hn)
      · refine Or.inr ⟨n + 1, by simpa using hn, ?_, by simpa using hpn, ?_⟩
        · rw [hkn]; push_cast; ring
        · intro j hj
          cases j with
          | zero => simpa using hp
          | succ j => simpa using hlow j (by omega)
    · exact ⟨i, by simp only [findFrom, hp],
        Or.inr ⟨0, by simp, by simp, by simpa using hp, fun j hj => absurd hj (by omega)⟩⟩

theorem find_conn_dsn_lowest (r : Registry) (hr : Reachable r) (dsn uid pwd : String) :
    (¬ hasTriple r dsn uid pwd ∧ find_conn_dsn r dsn uid pwd = some (-1)) ∨
    (∃ k : Nat, find_conn_dsn r dsn uid pwd = some (k : Int) ∧ tripleAt r dsn uid pwd k ∧
      ∀ j, j < k → ¬ tripleAt r dsn uid pwd j) := by
  have hs := reachable_shape r hr
  have hfind : find_conn_dsn r dsn uid pwd = findFrom (fun c => some (decide
      (c.connected ≠ 0 ∧ c.dsn = CStr.str dsn ∧ c.uid = CStr.str uid ∧ c.pwd = CStr.str pwd)))
      r.conns 0 := by
    unfold find_conn_dsn
    exact findFrom_congr _ _ _ _ (fun c hc => matchDsn_of_shape c (hs c hc) dsn uid pwd)
  obtain ⟨k, hk, hcase⟩ := findFrom_first (fun c => decide
      (c.connected ≠ 0 ∧ c.dsn = CStr.str dsn ∧ c.uid = CStr.str uid ∧ c.pwd = CStr.str pwd))
      r.conns 0
  rw [← hfind] at hk
  rcases hcase with ⟨h1, h2⟩ | ⟨n, hn, hkn, hpn, hlow⟩
  · left
    refine ⟨?_, by rw [hk, h1]⟩
    rintro ⟨j, ⟨hj, hl⟩, hd, hu, hp⟩
    have := h2 j hj
    simp only [decide_eq_false_iff_not] at this
    exact this ⟨hl, hd, hu, hp⟩
  · right
    refine ⟨n, by rw [hk, hkn]; simp, ?_, ?_⟩
    · simp only [decide_eq_true_eq] at hpn
      exact ⟨⟨hn, hpn.1⟩, hpn.2⟩
    · intro j hj hat
      have := hlow j hj
      simp only [decide_eq_false_iff_not] at this
      exact this ⟨hat.1.2, hat.2⟩

theorem find_conn_connstr_lowest (r : Registry) (hr : Reachable r) (connstr : String) :
    (¬ hasConnstr r connstr ∧ find_conn_connstr r connstr = some (-1)) ∨
    (∃ k : Nat, find_conn_connstr r connstr = some (k : Int) ∧ connstrAt r connstr k ∧
      ∀ j, j < k → ¬ connstrAt r connstr j) := by
  have hs := reachable_shape r hr
  have hfind : find_conn_connstr r connstr = findFrom (fun c => some (decide
      (c.connected ≠ 0 ∧ c.connstr = CStr.str connstr))) r.conns 0 := by
    unfold find_conn_connstr
    exact findFrom_congr _ _ _ _ (fun c hc => matchConnstr_of_shape c (hs c hc) connstr)
  obtain ⟨k, hk, hcase⟩ := findFrom_first (fun c => decide
      (c.connected ≠ 0 ∧ c.connstr = CStr.str connstr)) r.conns 0
  rw [← hfind] at hk
  rcases hcase with ⟨h1, h2⟩ | ⟨n, hn, hkn, hpn, hlow⟩
  · left
    refine ⟨?_, by rw [hk, h1]⟩
    rintro ⟨j, ⟨hj, hl⟩, hc⟩
    have := h2 j hj
    simp only [decide_eq_false_iff_not] at this
    exact this ⟨hl, hc⟩
  · right
    refine ⟨n, by rw [hk, hkn]; simp, ?_, ?_⟩
    · simp only [decide_eq_true_eq] at hpn
      exact ⟨⟨hn, hpn.1⟩, hpn.2⟩
    · intro j hj hat
      have := hlow j hj
      simp only [decide_eq_false_iff_not] at this
      exact this ⟨hat.1.2, hat.2⟩

theorem connect_alloc_ok_calls (r : Registry) (d : ConnDriver) (i : Nat)
    (h : (connect_alloc r d).ret = .ok i) :
    (connect_alloc r d).calls = [DrvCall.SQLAllocEnv, DrvCall.SQLAllocConnect d.hEnv] := by
  unfold connect_alloc at h ⊢
  dsimp only at h ⊢
  split_ifs at h ⊢ <;> rfl

/-- A successful `connect_dsn`: the index is not negative, the slot it names
is live and stores the triple, and the driver was asked for one environment,
one connection handle and one `SQLConnect`. -/
theorem connect_dsn_ok_slot (r : Registry) (d : ConnDriver) (dsn uid pwd : String) (j : Int)
    (h : (connect_dsn r d dsn uid pwd).ret = .ok j) :
    0 ≤ j ∧ tripleAt (connect_dsn r d dsn uid pwd).reg dsn uid pwd j.toNat ∧
    (connect_dsn r d dsn uid pwd).calls =
      [DrvCall.SQLAllocEnv, DrvCall.SQLAllocConnect d.hEnv, DrvCall.SQLConnect d.hCon] := by
  obtain ⟨i, hji, ha, hreg⟩ := connect_dsn_ok r d dsn uid pwd j h
  obtain ⟨_, _, hlt⟩ := connect_alloc_policy r d i ha
  have hcalls := connect_alloc_ok_calls r d i ha
  have ht : j.toNat = i := by omega
  refine ⟨by omega, ?_, ?_⟩
  · rw [ht, hreg]
    unfold tripleAt Registry.live
    rw [n_conn_setSlot, slot_setSlot_same _ _ _ hlt]
    exact ⟨⟨hlt, by show (1 : Int) ≠ 0; decide⟩, rfl, rfl, rfl⟩
  · unfold connect_dsn at h ⊢
    dsimp only at h ⊢
    rw [ha] at h ⊢
    dsimp only at h ⊢
    split_ifs at h ⊢
    dsimp only
    rw [hcalls]
    rfl

/-- A successful `connect_connstr`, as `connect_dsn_ok_slot`. -/
theorem connect_connstr_ok_slot (r : Registry) (d : ConnDriver) (connstr : String) (j : Int)
    (h : (connect_connstr r d connstr).ret = .ok j) :
    0 ≤ j ∧ connstrAt (connect_connstr r d connstr).reg connstr j.toNat ∧
    (connect_connstr r d connstr).calls =
      [DrvCall.SQLAllocEnv, DrvCall.SQLAllocConnect d.hEnv, DrvCall.SQLDriverConnect d.hCon] := by
  obtain ⟨i, hji, ha, hreg⟩ := connect_connstr_ok r d connstr j h
  obtain ⟨_, _, hlt⟩ := connect_alloc_policy r d i ha
  have hcalls := connect_alloc_ok_calls r d i ha
  have ht : j.toNat = i := by omega
  refine ⟨by omega, ?_, ?_⟩
  · rw [ht, hreg]
    unfold connstrAt Registry.live
    rw [n_conn_setSlot, slot_setSlot_same _ _ _ hlt]
    exact ⟨⟨hlt, by show (1 : Int) ≠ 0; decide⟩, rfl⟩
  · unfold connect_connstr at h ⊢
    dsimp only at h ⊢
    rw [ha] at h ⊢
    dsimp only at h ⊢
    split_ifs at h ⊢
    dsimp only
    rw [hcalls]
    rfl

theorem query_dsn_reuse_or_connect (pgver chunk : Nat) (host : HostIn) (r : Registry)
    (hr : Reachable r) (cd : ConnDriver) (od : OpenDriver) (script : List RowDriver)
    (dsn uid pwd : String) :
    (hasTriple r dsn uid pwd →
      ∃ k, tripleAt r dsn uid pwd k ∧ (∀ j, j < k → ¬ tripleAt r dsn uid pwd j) ∧
        (odbclink_query_dsn pgver chunk host r cd od script dsn uid pwd).reg = r ∧
        (odbclink_query_dsn pgver chunk host r cd od script dsn uid pwd).connCalls = [] ∧
        (odbclink_query_dsn pgver chunk host r cd od script dsn uid pwd).slot = some k ∧
        (odbclink_query_dsn pgver chunk host r cd od script dsn uid pwd).run =
          run_query pgver chunk host r k od script) ∧
    (¬ hasTriple r dsn uid pwd →
      (odbclink_query_dsn pgver chunk host r cd od script dsn uid pwd).reg =
        (connect_dsn r cd dsn uid pwd).reg ∧
      (odbclink_query_dsn pgver chunk host r cd od script dsn uid pwd).connCalls =
        (connect_dsn r cd dsn uid pwd).calls ∧
      (∀ e, (connect_dsn r cd dsn uid pwd).ret = .error e →
        (odbclink_query_dsn pgver chunk host r cd od script dsn uid pwd).slot = none ∧
        (odbclink_query_dsn pgver chunk host r cd od script dsn uid pwd).run = raisedRun e) ∧
      (∀ j, (connect_dsn r cd dsn uid pwd).ret = .ok j →
        0 ≤ j ∧
        (odbclink_query_dsn pgver chunk host r cd od script dsn uid pwd).slot = some j.toNat ∧
        tripleAt (odbclink_query_dsn pgver chunk host r cd od script dsn uid pwd).reg
          dsn uid pwd j.toNat ∧
        (odbclink_query_dsn pgver chunk host r cd od script dsn uid pwd).connCalls =
          [DrvCall.SQLAllocEnv, DrvCall.SQLAllocConnect cd.hEnv, DrvCall.SQLConnect cd.hCon] ∧
        (odbclink_query_dsn pgver chunk host r cd od script dsn uid pwd).run =
          run_query pgver chunk host (connect_dsn r cd dsn uid pwd).reg j.toNat od script)) := by
  rcases find_conn_dsn_lowest r hr dsn uid pwd with ⟨hno, hf⟩ | ⟨k, hf, hat, hlow⟩
  · have hq : ∀ x, (odbclink_query_dsn pgver chunk host r cd od script dsn uid pwd) = x ↔
        (match (connect_dsn r cd dsn uid pwd).ret with
          | .error e => ({ reg := (connect_dsn r cd dsn uid pwd).reg,
                           connCalls := (connect_dsn r cd dsn uid pwd).calls, slot := none,
                           run := raisedRun e } : QueryOutcome)
          | .ok j => { reg := (connect_dsn r cd dsn uid pwd).reg,
                       connCalls := (connect_dsn r cd dsn uid pwd).calls, slot := some j.toNat,
                       run := run_query pgver chunk host (connect_dsn r cd dsn uid pwd).reg
                         j.toNat od script }) = x := by
      intro x
      unfold odbclink_query_dsn
      rw [hf]
      dsimp only
      rw [if_pos (by decide)]
    have hq' := (hq _).mp rfl
    refine ⟨fun h => absurd h hno, fun _ => ?_⟩
    rw [← hq']
    cases hc : (connect_dsn r cd dsn uid pwd).ret with
    | error e =>
      dsimp only
      refine ⟨rfl, rfl, ?_, fun j hj => Except.noConfusion hj⟩
      intro e' he'
      injection he' with he'
      subst he'
      exact ⟨rfl, rfl⟩
    | ok j =>
      dsimp only
      obtain ⟨h0, h1, h2⟩ := connect_dsn_ok_slot r cd dsn uid pwd j hc
      refine ⟨rfl, rfl, fun e he => Except.noConfusion he, ?_⟩
      intro j' hj'
      injection hj' with hj'
      subst hj'
      exact ⟨h0, rfl, h1, h2, rfl⟩
  · have hq : odbclink_query_dsn pgver chunk host r cd od script dsn uid pwd =
        { reg := r, connCalls := [], slot := some k,
          run := run_query pgver chunk host r k od script } := by
      unfold odbclink_query_dsn
      rw [hf]
      dsimp only
      rw [if_neg (by omega)]
      simp
    refine ⟨fun _ => ⟨k, hat, hlow, ?_⟩, fun hno => absurd ⟨k, hat⟩ hno⟩
    rw [hq]
    exact ⟨rfl, rfl, rfl, rfl⟩

theorem query_connstr_reuse_or_connect (pgver chunk : Nat) (host : HostIn) (r : Registry)
    (hr : Reachable r) (cd : ConnDriver) (od : OpenDriver) (script : List RowDriver)
    (connstr : String) :
    (hasConnstr r connstr →
      ∃ k, connstrAt r connstr k ∧ (∀ j, j < k → ¬ connstrAt r connstr j) ∧
        (odbclink_query_connstr pgver chunk host r cd od script connstr).reg = r ∧
        (odbclink_query_connstr pgver chunk host r cd od script connstr).connCalls = [] ∧
        (odbclink_query_connstr pgver chunk host r cd od script connstr).slot = some k ∧
        (odbclink_query_connstr pgver chunk host r cd od script connstr).run =
          run_query pgver chunk host r k od script) ∧
    (¬ hasConnstr r connstr →
      (odbclink_query_connstr pgver chunk host r cd od script connstr).reg =
        (connect_connstr r cd connstr).reg ∧
      (odbclink_query_connstr pgver chunk host r cd od script connstr).connCalls =
        (connect_connstr r cd connstr).calls ∧
      (∀ e, (connect_connstr r cd connstr).ret = .error e →
        (odbclink_query_connstr pgver chunk host r cd od script connstr).slot = none ∧
        (odbclink_query_connstr pgver chunk host r cd od script connstr).run = raisedRun e) ∧
      (∀ j, (connect_connstr r cd connstr).ret = .ok j →
        0 ≤ j ∧
        (odbclink_query_connstr pgver chunk host r cd od script connstr).slot = some j.toNat ∧
        connstrAt (odbclink_query_connstr pgver chunk host r cd od script connstr).reg
          connstr j.toNat ∧
        (odbclink_query_connstr pgver chunk host r cd od script connstr).connCalls =
          [DrvCall.SQLAllocEnv, DrvCall.SQLAllocConnect cd.hEnv,
           DrvCall.SQLDriverConnect cd.hCon] ∧
        (odbclink_query_connstr pgver chunk host r cd od script connstr).run =
          run_query pgver chunk host (connect_connstr r cd connstr).reg j.toNat od script)) := by
  rcases find_conn_connstr_lowest r hr connstr with ⟨hno, hf⟩ | ⟨k, hf, hat, hlow⟩
  · have hq : ∀ x, (odbclink_query_connstr pgver chunk host r cd od script connstr) = x ↔
        (match (connect_connstr r cd connstr).ret with
          | .error e => ({ reg := (connect_connstr r cd connstr).reg,
                           connCalls := (connect_connstr r cd connstr).calls, slot := none,
                           run := raisedRun e } : QueryOutcome)
          | .ok j => { reg := (connect_connstr r cd connstr).reg,
                       connCalls := (connect_connstr r cd connstr).calls, slot := some j.toNat,
                       run := run_query pgver chunk host (connect_connstr r cd connstr).reg
                         j.toNat od script }) = x := by
      intro x
      unfold odbclink_query_connstr
      rw [hf]
      dsimp only
      rw [if_pos (by decide)]
    have hq' := (hq _).mp rfl
    refine ⟨fun h => absurd h hno, fun _ => ?_⟩
    rw [← hq']
    cases hc : (connect_connstr r cd connstr).ret with
    | error e =>
      dsimp only
      refine ⟨rfl, rfl, ?_, fun j hj => Except.noConfusion hj⟩
      intro e' he'
      injection he' with he'
      subst he'
      exact ⟨rfl, rfl⟩
    | ok j =>
      dsimp only
      obtain ⟨h0, h1, h2⟩ := connect_connstr_ok_slot r cd connstr j hc
      refine ⟨rfl, rfl, fun e he => Except.noConfusion he, ?_⟩
      intro j' hj'
      injection hj' with hj'
      subst hj'
      exact ⟨h0, rfl, h1, h2, rfl⟩
  · have hq : odbclink_query_connstr pgver chunk host r cd od script connstr =
        { reg := r, connCalls := [], slot := some k,
          run := run_query pgver chunk host r k od script } := by
      unfold odbclink_query_connstr
      rw [hf]
      dsimp only
      rw [if_neg (by omega)]
      simp
    refine ⟨fun _ => ⟨k, hat, hlow, ?_⟩, fun hno => absurd ⟨k, hat⟩ hno⟩
    rw [hq]
    exact ⟨rfl, rfl, rfl, rfl⟩

/-- C13. In every registry state the program can be in: when a live slot
stores the triple `(dsn, uid, pwd)`, the first call of `odbclink_query_dsn`
makes no driver call to open a connection, leaves the registry as it is and
opens the statement on the lowest-index such slot; when no live slot stores
it, it calls `connect_dsn` once (the registry and the connect calls are those
of that one call), and when that call returns slot `j` (one environment, one
connection handle, one `SQLConnect`) the statement is opened on `j`, which
is then live and stores the triple; when it raises, the error propagates
and no statement is opened. `odbclink_query_connstr` does the same with the
connection string and `connect_connstr`. -/
theorem query_reuses_connection_or_opens_one (pgver chunk : Nat) (host : HostIn)
    (r : Registry) (hr : Reachable r) (cd : ConnDriver) (od : OpenDriver)
    (script : List RowDriver) (dsn uid pwd connstr : String) :
    ((hasTriple r dsn uid pwd →
      ∃ k, tripleAt r dsn uid pwd k ∧ (∀ j, j < k → ¬ tripleAt r dsn uid pwd j) ∧
        (odbclink_query_dsn pgver chunk host r cd od script dsn uid pwd).reg = r ∧
        (odbclink_query_dsn pgver chunk host r cd od script dsn uid pwd).connCalls = [] ∧
        (odbclink_query_dsn pgver chunk host r cd od script dsn uid pwd).slot = some k ∧
        (odbclink_query_dsn pgver chunk host r cd od script dsn uid pwd).run =
          run_query pgver chunk host r k od script) ∧
    (¬ hasTriple r dsn uid pwd →
      (odbclink_query_dsn pgver chunk host r cd od script dsn uid pwd).reg =
        (connect_dsn r cd dsn uid pwd).reg ∧
      (odbclink_query_dsn pgver chunk host r cd od script dsn uid pwd).connCalls =
        (connect_dsn r cd dsn uid pwd).calls ∧
      (∀ e, (connect_dsn r cd dsn uid pwd).ret = .error e →
        (odbclink_query_dsn pgver chunk host r cd od script dsn uid pwd).slot = none ∧
        (odbclink_query_dsn pgver chunk host r cd od script dsn uid pwd).run = raisedRun e) ∧
      (∀ j, (connect_dsn r cd dsn uid pwd).ret = .ok j →
        0 ≤ j ∧
        (odbclink_query_dsn pgver chunk host r cd od script dsn uid pwd).slot = some j.toNat ∧
        tripleAt (odbclink_query_dsn pgver chunk host r cd od script dsn uid pwd).reg
          dsn uid pwd j.toNat ∧
        (odbclink_query_dsn pgver chunk host r cd od script dsn uid pwd).connCalls =
          [DrvCall.SQLAllocEnv, DrvCall.SQLAllocConnect cd.hEnv, DrvCall.SQLConnect cd.hCon] ∧
        (odbclink_query_dsn pgver chunk host r cd od script dsn uid pwd).run =
          run_query pgver chunk host (connect_dsn r cd dsn uid pwd).reg j.toNat od script))) ∧
    ((hasConnstr r connstr →
      ∃ k, connstrAt r connstr k ∧ (∀ j, j < k → ¬ connstrAt r connstr j) ∧
        (odbclink_query_connstr pgver chunk host r cd od script connstr).reg = r ∧
        (odbclink_query_connstr pgver chunk host r cd od script connstr).connCalls = [] ∧
        (odbclink_query_connstr pgver chunk host r cd od script connstr).slot = some k ∧
        (odbclink_query_connstr pgver chunk host r cd od script connstr).run =
          run_query pgver chunk host r k od script) ∧
    (¬ hasConnstr r connstr →
      (odbclink_query_connstr pgver chunk host r cd od script connstr).reg =
        (connect_connstr r cd connstr).reg ∧
      (odbclink_query_connstr pgver chunk host r cd od script connstr).connCalls =
        (connect_connstr r cd connstr).calls ∧
      (∀ e, (connect_connstr r cd connstr).ret = .error e →
        (odbclink_query_connstr pgver chunk host r cd od script connstr).slot = none ∧
        (odbclink_query_connstr pgver chunk host r cd od script connstr).run = raisedRun e) ∧
      (∀ j, (connect_connstr r cd connstr).ret = .ok j →
        0 ≤ j ∧
        (odbclink_query_connstr pgver chunk host r cd od script connstr).slot = some j.toNat ∧
        connstrAt (odbclink_query_connstr pgver chunk host r cd od script connstr).reg
          connstr j.toNat ∧
        (odbclink_query_connstr pgver chunk host r cd od script connstr).connCalls =
          [DrvCall.SQLAllocEnv, DrvCall.SQLAllocConnect cd.hEnv,
           DrvCall.SQLDriverConnect cd.hCon] ∧
        (odbclink_query_connstr pgver chunk host r cd od script connstr).run =
          run_query pgver chunk host (connect_connstr r cd connstr).reg j.toNat od script))) :=
  ⟨query_dsn_reuse_or_connect pgver chunk host r hr cd od script dsn uid pwd,
    query_connstr_reuse_or_connect pgver chunk host r hr cd od script connstr⟩

/-- Witness for C13: on the registry whose slot 0 is live with the triple
`("a", "b", "c")`, a query by that triple reuses the slot and leaves the
registry alone; a query by the connection string "DSN=test", which no slot
stores, opens one connection, on slot 1, and runs there. -/
theorem query_reuses_connection_or_opens_one_witness :
    Reachable liveReg ∧ hasTriple liveReg "a" "b" "c" ∧ ¬ hasConnstr liveReg "DSN=test" ∧
    (odbclink_query_dsn 90000 8 anyHost liveReg okDriver (openOk SQL_INTEGER INT4OID)
      [int4Row SQL_SUCCESS 1, int4Row SQL_NO_DATA 0] "a" "b" "c").reg = liveReg ∧
    (odbclink_query_dsn 90000 8 anyHost liveReg okDriver (openOk SQL_INTEGER INT4OID)
      [int4Row SQL_SUCCESS 1, int4Row SQL_NO_DATA 0] "a" "b" "c").connCalls = [] ∧
    (odbclink_query_connstr 90000 8 anyHost liveReg okDriver (openOk SQL_INTEGER INT4OID)
      [int4Row SQL_SUCCESS 1, int4Row SQL_NO_DATA 0] "DSN=test").slot = some 1 ∧
    (odbclink_query_connstr 90000 8 anyHost liveReg okDriver (openOk SQL_INTEGER INT4OID)
      [int4Row SQL_SUCCESS 1, int4Row SQL_NO_DATA 0] "DSN=test").connCalls =
      [DrvCall.SQLAllocEnv, DrvCall.SQLAllocConnect 1, DrvCall.SQLDriverConnect 2] := by
  have hT : hasTriple liveReg "a" "b" "c" := ⟨0, by decide, by decide, by decide, by decide⟩
  have hC : ¬ hasConnstr liveReg "DSN=test" := by
    rcases find_conn_connstr_lowest liveReg liveReg_reachable "DSN=test" with
      ⟨hno, _⟩ | ⟨k, hf, _, _⟩
    · exact hno
    · have e : find_conn_connstr liveReg "DSN=test" = some (-1) := by decide
      rw [e] at hf
      injection hf with hf
      omega
  have h := query_reuses_connection_or_opens_one 90000 8 anyHost liveReg liveReg_reachable
    okDriver (openOk SQL_INTEGER INT4OID) [int4Row SQL_SUCCESS 1, int4Row SQL_NO_DATA 0]
    "a" "b" "c" "DSN=test"
  obtain ⟨k, _, _, h1, h2, _, _⟩ := h.1.1 hT
  obtain ⟨_, _, _, h3⟩ := h.2.2 hC
  obtain ⟨_, h4, _, h5, _⟩ := h3 1 rfl
  exact ⟨liveReg_reachable, hT, hC, h1, h2, h4, h5⟩

/-- The two queries of the witness evaluated: each runs on the slot named
and returns the row `[1]` before it is exhausted. -/
theorem query_entry_points_evaluated :
    (odbclink_query_dsn 90000 8 anyHost liveReg okDriver (openOk SQL_INTEGER INT4OID)
      [int4Row SQL_SUCCESS 1, int4Row SQL_NO_DATA 0] "a" "b" "c").slot = some 0 ∧
    (odbclink_query_dsn 90000 8 anyHost liveReg okDriver (openOk SQL_INTEGER INT4OID)
      [int4Row SQL_SUCCESS 1, int4Row SQL_NO_DATA 0] "a" "b" "c").run.calls =
      [DrvCall.SQLAllocStmt 2, DrvCall.SQLExecDirect 7, DrvCall.SQLFetch 7,
       DrvCall.SQLFetch 7, DrvCall.SQLFreeHandle 7] ∧
    (odbclink_query_connstr 90000 8 anyHost liveReg okDriver (openOk SQL_INTEGER INT4OID)
      [int4Row SQL_SUCCESS 1, int4Row SQL_NO_DATA 0] "DSN=test").run.rows =
      [[{ value := some (Datum.int32 1), isnull := some false }]] ∧
    (odbclink_query_connstr 90000 8 anyHost liveReg okDriver (openOk SQL_INTEGER INT4OID)
      [int4Row SQL_SUCCESS 1, int4Row SQL_NO_DATA 0] "DSN=test").run.final =
      Final.exhausted := by
  refine ⟨by decide, by decide, by decide, by decide⟩

/-! ## Theorems: accepted columns and the output cells of `get_data` -/

theorem get_char_data_oneChunk (chunk : Nat) (hchunk : 0 < chunk) (text : List Char)
    (hlen : text.length ≤ chunk) (ind0 len0 : Int) :
    get_char_data chunk [oneChunk text] ind0 len0 = some
      { ret := SQL_NO_DATA,
        value := text.map some ++
          some (Char.ofNat 0) :: List.replicate (slack chunk text.length - 1) none,
        length := if len0 ≠ 0 then (text.length : Int) else len0,
        isnull := false,
        requests := 2 } := by
  have hl : lastChunk chunk (oneChunk text) :=
    ⟨by show SQL_SUCCESS ≠ SQL_NO_DATA; decide, rfl, hlen⟩
  have hget := get_char_data_chunks chunk hchunk [] _ (by simp) hl ind0 len0
  have e0 : scriptData ([] ++ [oneChunk text]) = text := by simp [scriptData, oneChunk]
  rw [e0] at hget
  exact hget

/-- The character path when the host type has no case in its inner switch
and the value is not null: the null flag is set to false and the value cell
is left unassigned, with no error. -/
theorem charPath_no_case (pgver chunk : Nat) (host : HostIn) (d : CellDriver) (typeoid : Nat)
    (typemod : Int) (res : CharResult) (hget : get_char_data chunk d.chars d.ind0 0 = some res)
    (hnn : res.isnull = false) (hfn : charPathFn pgver typeoid = none) :
    charPath pgver chunk host d typeoid typemod = .ok { value := none, isnull := some false } := by
  unfold charPath
  simp only [hget, hnn, hfn, Bool.false_eq_true, if_false]

/-- For the tags of the character path other than NUMERIC and DECIMAL,
`get_data` is that path once `SQLDescribeCol` succeeded. -/
theorem get_data_char_tag (pgver chunk : Nat) (host : HostIn) (d : CellDriver) (typeoid : Nat)
    (typemod : Int) (hdesc : SQL_SUCCEEDED d.describeRet = true)
    (ht : d.type = SQL_CHAR ∨ d.type = SQL_VARCHAR ∨ d.type = SQL_LONGVARCHAR ∨
      d.type = SQL_DATE ∨ d.type = SQL_TIME ∨ d.type = SQL_TIMESTAMP ∨ d.type = SQL_BINARY ∨
      d.type = SQL_VARBINARY ∨ d.type = SQL_LONGVARBINARY) :
    get_data pgver chunk host d typeoid typemod = charPath pgver chunk host d typeoid typemod := by
  have h1 : d.type ≠ SQL_SMALLINT := by
    rcases ht with h | h | h | h | h | h | h | h | h <;> rw [h] <;> decide
  have h2 : ¬ (d.type = SQL_INTEGER ∨ d.type = SQL_BIT) := by
    rcases ht with h | h | h | h | h | h | h | h | h <;> rw [h] <;> decide
  have h3 : d.type ≠ SQL_BIGINT := by
    rcases ht with h | h | h | h | h | h | h | h | h <;> rw [h] <;> decide
  have h4 : ¬ (d.type = SQL_NUMERIC ∨ d.type = SQL_DECIMAL) := by
    rcases ht with h | h | h | h | h | h | h | h | h <;> rw [h] <;> decide
  have h5 : d.type = SQL_NUMERIC ∨ d.type = SQL_DECIMAL ∨ d.type = SQL_CHAR ∨
      d.type = SQL_VARCHAR ∨ d.type = SQL_LONGVARCHAR ∨ d.type = SQL_DATE ∨ d.type = SQL_TIME ∨
      d.type = SQL_TIMESTAMP ∨ d.type = SQL_BINARY ∨ d.type = SQL_VARBINARY ∨
      d.type = SQL_LONGVARBINARY := Or.inr (Or.inr ht)
  unfold get_data
  rw [if_neg (not_not.mpr hdesc), if_neg h1, if_neg h2, if_neg h3, if_neg (fun h => h4 h.1),
    if_pos h5]

/-- C14, the code at failing inputs. A remote `CHAR(10)` column against an
expected `int4` column is accepted by `compatTupleDescs`; `get_data` on it,
for the non-NULL value "42" delivered in one chunk of the header's chunk
size, returns without error having set the null flag to false and left the
value cell unassigned. A remote column of tag `SQL_TINYINT` against an
expected `int2` column is accepted too, and `get_data` on it returns with
neither cell assigned. -/
theorem accepted_column_left_unassigned (pgver : Nat) (host : HostIn) :
    (compatTupleDescs pgver SQL_SUCCESS [{ type := SQL_CHAR, columnsz := 10 }]
      [{ atttypid := INT4OID, atttypmod := -1 }]).retval = true ∧
    get_data pgver CHARVALCHUNK host (charCell SQL_CHAR ['4', '2']) INT4OID (-1) =
      .ok { value := none, isnull := some false } ∧
    (compatTupleDescs pgver SQL_SUCCESS [{ type := SQL_TINYINT, columnsz := 3 }]
      [{ atttypid := INT2OID, atttypmod := -1 }]).retval = true ∧
    get_data pgver CHARVALCHUNK host (charCell SQL_TINYINT ['7']) INT2OID (-1) =
      .ok { value := none, isnull := none } := by
  refine ⟨rfl, ?_, rfl, rfl⟩
  have hget := get_char_data_oneChunk CHARVALCHUNK (by decide) ['4', '2'] (by decide) 0 0
  have hfn : charPathFn pgver INT4OID = none := by
    unfold charPathFn
    simp [INT4OID, CHAROID, BPCHAROID, VARCHAROID, TEXTOID, NUMERICOID, DATEOID, TIMEOID,
      TIMETZOID, TIMESTAMPOID, TIMESTAMPTZOID, BYTEAOID]
  have hp := charPath_no_case pgver CHARVALCHUNK host (charCell SQL_CHAR ['4', '2']) INT4OID
    (-1) _ hget rfl hfn
  rw [← hp]
  exact get_data_char_tag pgver CHARVALCHUNK host (charCell SQL_CHAR ['4', '2']) INT4OID (-1)
    (by show SQL_SUCCEEDED SQL_SUCCESS = true; decide) (Or.inl rfl)

/-! ### What an accepted column of a listed tag gets -/

theorem get_data_dispatch (pgver chunk : Nat) (host : HostIn) (d : CellDriver) (typeoid : Nat)
    (typemod : Int) (hdesc : SQL_SUCCEEDED d.describeRet = true) :
    (d.type = SQL_SMALLINT →
      get_data pgver chunk host d typeoid typemod = smallintCase d typeoid) ∧
    (d.type = SQL_INTEGER ∨ d.type = SQL_BIT →
      get_data pgver chunk host d typeoid typemod = integerCase d typeoid) ∧
    (d.type = SQL_BIGINT → get_data pgver chunk host d typeoid typemod = bigintCase d) ∧
    (d.type = SQL_NUMERIC ∨ d.type = SQL_DECIMAL →
      typeoid = INT2OID ∨ typeoid = INT4OID ∨ typeoid = INT8OID →
      get_data pgver chunk host d typeoid typemod = numericIntCase chunk d typeoid) ∧
    (d.type = SQL_NUMERIC ∨ d.type = SQL_DECIMAL →
      ¬ (typeoid = INT2OID ∨ typeoid = INT4OID ∨ typeoid = INT8OID) →
      get_data pgver chunk host d typeoid typemod =
        charPath pgver chunk host d typeoid typemod) ∧
    (d.type = SQL_FLOAT ∨ d.type = SQL_REAL →
      get_data pgver chunk host d typeoid typemod = floatCase d) ∧
    (d.type = SQL_DOUBLE → get_data pgver chunk host d typeoid typemod = doubleCase d) := by
  refine ⟨?_, ?_, ?_, ?_, ?_, ?_, ?_⟩
  · intro ht
    unfold get_data
    rw [if_neg (not_not.mpr hdesc), if_pos ht]
  · intro ht
    have h1 : d.type ≠ SQL_SMALLINT := by rcases ht with h | h <;> rw [h] <;> decide
    unfold get_data
    rw [if_neg (not_not.mpr hdesc), if_neg h1, if_pos ht]
  · intro ht
    have h1 : d.type ≠ SQL_SMALLINT := by rw [ht]; decide
    have h2 : ¬ (d.type = SQL_INTEGER ∨ d.type = SQL_BIT) := by rw [ht]; decide
    unfold get_data
    rw [if_neg (not_not.mpr hdesc), if_neg h1, if_neg h2, if_pos ht]
  · intro ht ho
    have h1 : d.type ≠ SQL_SMALLINT := by rcases ht with h | h <;> rw [h] <;> decide
    have h2 : ¬ (d.type = SQL_INTEGER ∨ d.type = SQL_BIT) := by
      rcases ht with h | h <;> rw [h] <;> decide
    have h3 : d.type ≠ SQL_BIGINT := by rcases ht with h | h <;> rw [h] <;> decide
    unfold get_data
    rw [if_neg (not_not.mpr hdesc), if_neg h1, if_neg h2, if_neg h3, if_pos ⟨ht, ho⟩]
  · intro ht ho
    have h1 : d.type ≠ SQL_SMALLINT := by rcases ht with h | h <;> rw [h] <;> decide
    have h2 : ¬ (d.type = SQL_INTEGER ∨ d.type = SQL_BIT) := by
      rcases ht with h | h <;> rw [h] <;> decide
    have h3 : d.type ≠ SQL_BIGINT := by rcases ht with h | h <;> rw [h] <;> decide
    have h5 : d.type = SQL_NUMERIC ∨ d.type = SQL_DECIMAL ∨ d.type = SQL_CHAR ∨
        d.type = SQL_VARCHAR ∨ d.type = SQL_LONGVARCHAR ∨ d.type = SQL_DATE ∨
        d.type = SQL_TIME ∨ d.type = SQL_TIMESTAMP ∨ d.type = SQL_BINARY ∨
        d.type = SQL_VARBINARY ∨ d.type = SQL_LONGVARBINARY := by
      rcases ht with h | h
      · exact Or.inl h
      · exact Or.inr (Or.inl h)
    unfold get_data
    rw [if_neg (not_not.mpr hdesc), if_neg h1, if_neg h2, if_neg h3, if_neg (fun h => ho h.2),
      if_pos h5]
  · intro ht
    have h1 : d.type ≠ SQL_SMALLINT := by rcases ht with h | h <;> rw [h] <;> decide
    have h2 : ¬ (d.type = SQL_INTEGER ∨ d.type = SQL_BIT) := by
      rcases ht with h | h <;> rw [h] <;> decide
    have h3 : d.type ≠ SQL_BIGINT := by rcases ht with h | h <;> rw [h] <;> decide
    have h4 : ¬ (d.type = SQL_NUMERIC ∨ d.type = SQL_DECIMAL) := by
      rcases ht with h | h <;> rw [h] <;> decide
    have h5 : ¬ (d.type = SQL_NUMERIC ∨ d.type = SQL_DECIMAL ∨ d.type = SQL_CHAR ∨
        d.type = SQL_VARCHAR ∨ d.type = SQL_LONGVARCHAR ∨ d.type = SQL_DATE ∨
        d.type = SQL_TIME ∨ d.type = SQL_TIMESTAMP ∨ d.type = SQL_BINARY ∨
        d.type = SQL_VARBINARY ∨ d.type = SQL_LONGVARBINARY) := by
      rcases ht with h | h <;> rw [h] <;> decide
    unfold get_data
    rw [if_neg (not_not.mpr hdesc), if_neg h1, if_neg h2, if_neg h3, if_neg (fun h => h4 h.1),
      if_neg h5, if_pos ht]
  · intro ht
    have h1 : d.type ≠ SQL_SMALLINT := by rw [ht]; decide
    have h2 : ¬ (d.type = SQL_INTEGER ∨ d.type = SQL_BIT) := by rw [ht]; decide
    have h3 : d.type ≠ SQL_BIGINT := by rw [ht]; decide
    have h4 : ¬ (d.type = SQL_NUMERIC ∨ d.type = SQL_DECIMAL) := by rw [ht]; decide
    have h5 : ¬ (d.type = SQL_NUMERIC ∨ d.type = SQL_DECIMAL ∨ d.type = SQL_CHAR ∨
        d.type = SQL_VARCHAR ∨ d.type = SQL_LONGVARCHAR ∨ d.type = SQL_DATE ∨
        d.type = SQL_TIME ∨ d.type = SQL_TIMESTAMP ∨ d.type = SQL_BINARY ∨
        d.type = SQL_VARBINARY ∨ d.type = SQL_LONGVARBINARY) := by rw [ht]; decide
    have h6 : ¬ (d.type = SQL_FLOAT ∨ d.type = SQL_REAL) := by rw [ht]; decide
    unfold get_data
    rw [if_neg (not_not.mpr hdesc), if_neg h1, if_neg h2, if_neg h3, if_neg (fun h => h4 h.1),
      if_neg h5, if_neg h6, if_pos ht]

theorem fixed_case_assigns (d : CellDriver) (typeoid : Nat) (o : Out) :
    (typeoid = INT2OID ∨ typeoid = INT4OID ∨ typeoid = INT8OID →
      smallintCase d typeoid = .ok o → assigned o) ∧
    (typeoid = INT4OID ∨ typeoid = INT8OID ∨ typeoid = BOOLOID →
      integerCase d typeoid = .ok o → assigned o) ∧
    (bigintCase d = .ok o → assigned o) ∧
    (floatCase d = .ok o → assigned o) ∧
    (doubleCase d = .ok o → assigned o) := by
  refine ⟨?_, ?_, ?_, ?_, ?_⟩
  · intro ho h
    unfold smallintCase at h
    dsimp only at h
    split_ifs at h <;> first
      | (exfalso; rcases ho with ho | ho | ho <;> contradiction)
      | (injection h with h; subst h; simp [assigned])
  · intro ho h
    unfold integerCase at h
    dsimp only at h
    split_ifs at h <;> first
      | (exfalso; rcases ho with ho | ho | ho <;> contradiction)
      | (injection h with h; subst h; simp [assigned])
  · intro h
    unfold bigintCase at h
    split_ifs at h <;> (injection h with h; subst h; simp [assigned])
  · intro h
    unfold floatCase at h
    split_ifs at h <;> (injection h with h; subst h; simp [assigned])
  · intro h
    unfold doubleCase at h
    split_ifs at h <;> (injection h with h; subst h; simp [assigned])

theorem numericToInt_value (typeoid : Nat) (text : List Char) (v : Option Datum)
    (ho : typeoid = INT2OID ∨ typeoid = INT4OID ∨ typeoid = INT8OID)
    (h : numericToInt typeoid text = .ok v) : v ≠ none := by
  unfold numericToInt at h
  dsimp only at h
  split_ifs at h <;> first
    | (exfalso; rcases ho with ho | ho | ho <;> contradiction)
    | (injection h with h; subst h; simp)

theorem numericIntCase_assigns (chunk : Nat) (d : CellDriver) (typeoid : Nat) (o : Out)
    (ho : typeoid = INT2OID ∨ typeoid = INT4OID ∨ typeoid = INT8OID)
    (h : numericIntCase chunk d typeoid = .ok o) : assigned o := by
  unfold numericIntCase at h
  split at h
  · exact Except.noConfusion h
  · split_ifs at h
    · injection h with h; subst h; simp [assigned]
    · split at h
      · exact Except.noConfusion h
      · split at h
        · exact Except.noConfusion h
        · rename_i v hv
          injection h with h
          subst h
          exact ⟨by simp, fun _ => numericToInt_value _ _ _ ho hv⟩

theorem charPath_assigns (pgver chunk : Nat) (host : HostIn) (d : CellDriver) (typeoid : Nat)
    (typemod : Int) (o : Out) (hfn : charPathFn pgver typeoid ≠ none)
    (h : charPath pgver chunk host d typeoid typemod = .ok o) : assigned o := by
  unfold charPath at h
  split at h
  · exact Except.noConfusion h
  · split_ifs at h
    · injection h with h; subst h; simp [assigned]
    · split at h
      · rename_i hn
        exact absurd hn hfn
      · dsimp only at h
        split at h
        · exact Except.noConfusion h
        · split at h
          · exact Except.noConfusion h
          · injection h with h; subst h; simp [assigned]

theorem charPathFn_some (pgver typeoid : Nat)
    (h : typeoid = CHAROID ∨ typeoid = BPCHAROID ∨ typeoid = VARCHAROID ∨ typeoid = TEXTOID ∨
      typeoid = NUMERICOID ∨ typeoid = DATEOID ∨ typeoid = TIMEOID ∨ typeoid = TIMETZOID ∨
      typeoid = TIMESTAMPOID ∨ typeoid = TIMESTAMPTZOID ∨ (typeoid = BYTEAOID ∧ pgver ≥ 80500)) :
    charPathFn pgver typeoid ≠ none := by
  unfold charPathFn
  rcases h with h | h | h | h | h | h | h | h | h | h | ⟨h, hv⟩ <;> subst h <;>
    simp [CHAROID, BPCHAROID, VARCHAROID, TEXTOID, NUMERICOID, DATEOID, TIMEOID, TIMETZOID,
      TIMESTAMPOID, TIMESTAMPTZOID, BYTEAOID]
  omega

theorem colCompat_binary_version (pgver : Nat) (type : Int) (columnsz : Nat) (typeoid : Nat)
    (typemod : Int) (h : colCompat pgver type columnsz typeoid typemod = true)
    (ht : type = SQL_BINARY ∨ type = SQL_VARBINARY ∨ type = SQL_LONGVARBINARY) :
    pgver ≥ 80500 := by
  by_contra hv
  unfold colCompat at h
  rcases ht with ht | ht | ht <;> subst ht <;>
    simp [SQL_CHAR, SQL_VARCHAR, SQL_LONGVARCHAR, SQL_NUMERIC, SQL_DECIMAL, SQL_BIGINT,
      SQL_INTEGER, SQL_SMALLINT, SQL_FLOAT, SQL_REAL, SQL_DOUBLE, SQL_DATE, SQL_TIME,
      SQL_TIMESTAMP, SQL_BINARY, SQL_VARBINARY, SQL_LONGVARBINARY, SQL_BIT] at h <;>
    exact hv h.1

/-- The part of the accepted columns for which the output cells are safe: a
column `compatTupleDescs` passes whose remote tag is one it has a case for
and, for CHAR and VARCHAR, whose host type is text-like. Whenever `get_data`
returns on such a column (the tag `SQLDescribeCol` reports being the one
that was checked), the null flag is assigned, and so is the value when the
flag says not null. -/
theorem get_data_assigns_listed_column (pgver chunk : Nat) (host : HostIn) (d : CellDriver)
    (typeoid : Nat) (typemod : Int) (columnsz : Nat) (o : Out)
    (htag : compatTag d.type)
    (hc : colCompat pgver d.type columnsz typeoid typemod = true)
    (htext : d.type = SQL_CHAR ∨ d.type = SQL_VARCHAR →
      typeoid = CHAROID ∨ typeoid = BPCHAROID ∨ typeoid = VARCHAROID ∨ typeoid = TEXTOID)
    (hok : get_data pgver chunk host d typeoid typemod = .ok o) : assigned o := by
  have hdesc : SQL_SUCCEEDED d.describeRet = true := by
    by_contra hn
    unfold get_data at hok
    rw [if_pos hn] at hok
    exact Except.noConfusion hok
  obtain ⟨g1, g2, g3, g4, g5, g6, g7⟩ := get_data_dispatch pgver chunk host d typeoid typemod hdesc
  obtain ⟨p1, p2, p3, p4, p5, p6, p7, p8, p9, p10, p11, p12⟩ :=
    colCompat_policy pgver d.type columnsz typeoid typemod hc
  obtain ⟨f1, f2, f3, f4, f5⟩ := fixed_case_assigns d typeoid o
  have hchar := get_data_char_tag pgver chunk host d typeoid typemod hdesc
  have hbin : d.type = SQL_BINARY ∨ d.type = SQL_VARBINARY ∨ d.type = SQL_LONGVARBINARY →
      charPathFn pgver typeoid ≠ none := fun ht =>
    charPathFn_some pgver typeoid (Or.inr (Or.inr (Or.inr (Or.inr (Or.inr (Or.inr (Or.inr
      (Or.inr (Or.inr (Or.inr ⟨p12 ht, colCompat_binary_version _ _ _ _ _ hc ht⟩))))))))))
  unfold compatTag at htag
  rcases htag with ht | ht | ht | ht | ht | ht | ht | ht | ht | ht | ht | ht | ht | ht | ht |
    ht | ht | ht
  · rw [hchar (Or.inl ht)] at hok
    refine charPath_assigns _ _ _ _ _ _ _ (charPathFn_some _ _ ?_) hok
    rcases htext (Or.inl ht) with h | h | h | h
    · exact Or.inl h
    · exact Or.inr (Or.inl h)
    · exact Or.inr (Or.inr (Or.inl h))
    · exact Or.inr (Or.inr (Or.inr (Or.inl h)))
  · rw [hchar (Or.inr (Or.inl ht))] at hok
    refine charPath_assigns _ _ _ _ _ _ _ (charPathFn_some _ _ ?_) hok
    rcases htext (Or.inr ht) with h | h | h | h
    · exact Or.inl h
    · exact Or.inr (Or.inl h)
    · exact Or.inr (Or.inr (Or.inl h))
    · exact Or.inr (Or.inr (Or.inr (Or.inl h)))
  · rw [hchar (Or.inr (Or.inr (Or.inl ht)))] at hok
    exact charPath_assigns _ _ _ _ _ _ _
      (charPathFn_some _ _ (Or.inr (Or.inr (Or.inr (Or.inl (p1 ht)))))) hok
  · by_cases ho : typeoid = INT2OID ∨ typeoid = INT4OID ∨ typeoid = INT8OID
    · rw [g4 (Or.inl ht) ho] at hok
      exact numericIntCase_assigns _ _ _ _ ho hok
    · rw [g5 (Or.inl ht) ho] at hok
      rcases p5 (Or.inl ht) with h | h
      · exact charPath_assigns _ _ _ _ _ _ _
          (charPathFn_some _ _ (Or.inr (Or.inr (Or.inr (Or.inr (Or.inl h)))))) hok
      · exact absurd h ho
  · by_cases ho : typeoid = INT2OID ∨ typeoid = INT4OID ∨ typeoid = INT8OID
    · rw [g4 (Or.inr ht) ho] at hok
      exact numericIntCase_assigns _ _ _ _ ho hok
    · rw [g5 (Or.inr ht) ho] at hok
      rcases p5 (Or.inr ht) with h | h
      · exact charPath_assigns _ _ _ _ _ _ _
          (charPathFn_some _ _ (Or.inr (Or.inr (Or.inr (Or.inr (Or.inl h)))))) hok
      · exact absurd h ho
  · rw [g3 ht] at hok; exact f3 hok
  · rw [g2 (Or.inl ht)] at hok
    refine f2 ?_ hok
    rcases p3 ht with h | h
    · exact Or.inl h
    · exact Or.inr (Or.inl h)
  · rw [g1 ht] at hok; exact f1 (p2 ht) hok
  · rw [g6 (Or.inl ht)] at hok; exact f4 hok
  · rw [g6 (Or.inr ht)] at hok; exact f4 hok
  · rw [g7 ht] at hok; exact f5 hok
  · rw [hchar (Or.inr (Or.inr (Or.inr (Or.inl ht))))] at hok
    exact charPath_assigns _ _ _ _ _ _ _
      (charPathFn_some _ _ (Or.inr (Or.inr (Or.inr (Or.inr (Or.inr (Or.inl (p8 ht)))))))) hok
  · rw [hchar (Or.inr (Or.inr (Or.inr (Or.inr (Or.inl ht)))))] at hok
    refine charPath_assigns _ _ _ _ _ _ _ (charPathFn_some _ _ ?_) hok
    rcases p9 ht with h | h
    · exact Or.inr (Or.inr (Or.inr (Or.inr (Or.inr (Or.inr (Or.inl h))))))
    · exact Or.inr (Or.inr (Or.inr (Or.inr (Or.inr (Or.inr (Or.inr (Or.inl h)))))))
  · rw [hchar (Or.inr (Or.inr (Or.inr (Or.inr (Or.inr (Or.inl ht))))))] at hok
    refine charPath_assigns _ _ _ _ _ _ _ (charPathFn_some _ _ ?_) hok
    rcases p10 ht with h | h
    · exact Or.inr (Or.inr (Or.inr (Or.inr (Or.inr (Or.inr (Or.inr (Or.inr (Or.inl h))))))))
    · exact Or.inr (Or.inr (Or.inr (Or.inr (Or.inr (Or.inr (Or.inr (Or.inr
        (Or.inr (Or.inl h)))))))))
  · rw [hchar (Or.inr (Or.inr (Or.inr (Or.inr (Or.inr (Or.inr (Or.inl ht)))))))] at hok
    exact charPath_assigns _ _ _ _ _ _ _ (hbin (Or.inl ht)) hok
  · rw [hchar (Or.inr (Or.inr (Or.inr (Or.inr (Or.inr (Or.inr (Or.inr (Or.inl ht))))))))] at hok
    exact charPath_assigns _ _ _ _ _ _ _ (hbin (Or.inr (Or.inl ht))) hok
  · rw [hchar (Or.inr (Or.inr (Or.inr (Or.inr (Or.inr (Or.inr (Or.inr (Or.inr ht))))))))] at hok
    exact charPath_assigns _ _ _ _ _ _ _ (hbin (Or.inr (Or.inr ht))) hok
  · rw [g2 (Or.inr ht)] at hok
    exact f2 (Or.inr (Or.inr (p11 ht))) hok

/-! ## Theorems: a terminal statement is not fetched or released again -/

/-- Calls of the host evaluated. The terminal call on the statement of the
witness fetches once and releases once. Calls made after it find the call
context empty: they open a statement of their own before they fetch. A
call whose slot selection raises makes no driver call at all. -/
theorem host_calls_evaluated :
    (entry_call 90000 8 anyHost (some int4Stmt) (int4Call SQL_NO_DATA 0)).calls =
      [DrvCall.SQLFetch 7, DrvCall.SQLFreeHandle 7] ∧
    host_calls 90000 8 anyHost none [int4Call SQL_SUCCESS 1, int4Call SQL_NO_DATA 0] =
      [DrvCall.SQLAllocStmt 2, DrvCall.SQLExecDirect 7, DrvCall.SQLFetch 7,
       DrvCall.SQLFetch 7, DrvCall.SQLFreeHandle 7] ∧
    host_calls 90000 8 anyHost none
      [{ reg := connstrReg, slot := .error Err.no_such_connection,
         od := openOk SQL_INTEGER INT4OID, row := int4Row SQL_SUCCESS 1 }] = [] ∧
    (odbclink_query_n_call 90000 8 anyHost connstrReg none 1 (openOk SQL_INTEGER INT4OID)
      (int4Row SQL_NO_DATA 0)).calls =
      [DrvCall.SQLAllocStmt 2, DrvCall.SQLExecDirect 7, DrvCall.SQLFetch 7,
       DrvCall.SQLFreeHandle 7] := by
  refine ⟨by decide, by decide, by decide, by decide⟩

end OdbcLink
